import Mathlib

/-!
# odm_25dmeshing: ground segmentation of `Odm25dMeshing.cpp`

A shallow embedding of `modules/odm_25dmeshing/src/Odm25dMeshing.cpp`
(`loadPointCloud`, `detectPlanes`, `buildMesh`, `run`) and theorems about it.

Conventions of the embedding.

* A member function of `Odm25dMeshing` is a function from the object before the
  call to a pair: how the call ended (`Outcome`) and the object after it.  A C++
  exception leaves the object as it was when the exception was thrown.
* `float` and `double` values are rationals.  Every conversion to `float`
  (`toFloat`: the narrowing of a `double`, the conversion of a `size_t`, the
  result of a `float` operation) and to `double` (`toDouble`) rounds to the
  nearest value of the format, a tie going to the even significand, with
  gradual underflow.  Results beyond the range of the format, the infinities
  and NaN are outside the model.  The literals `0.2f` and `0.8f` are
  `toFloat (1/5)` and `toFloat (4/5)`, the `double` literal `0.9` is
  `toDouble (9/10)`, `1.0` is `1` and `std::numeric_limits<float>::min()` is
  `2⁻¹²⁶`.
* The byte buffer of a `pcl::PCLPointCloud2` is a list of raw points, one per
  iteration of the loading loop; a raw point answers what each
  `reinterpret_cast` read at a byte offset yields.  The writes to `allPoints[i]`
  go to storage that `reserve` has allocated and are ordinary writes here.
* A read through a null pointer and an index outside a vector are undefined
  behaviour (`Outcome.undefined`); `at` outside a vector throws.
* The log is the list of the texts written by the `log << ...` statements; the
  percentage in the per-segment line and the body of the help text are left out.
* The PCL library calls whose code is not part of the repository are parameters:
  `pcl::io::loadPLYFile` (its result), `pcl::RegionGrowing::extract` (the
  clusters it returns) and `pcl::KdTreeFLANN::nearestKSearch` (the index vector
  it fills).  The two diagnostic `savePLYFile` dumps and `log.printToFile` write
  files only and are left out.
-/

namespace ODM

/-! ## float and double -/

/-- Rounding of a rational to the nearest integer, a tie going to the even
neighbour. -/
def roundHalfEven (q : ℚ) : ℤ :=
  if q - ⌊q⌋ < 1 / 2 then ⌊q⌋
  else if q - ⌊q⌋ > 1 / 2 then ⌊q⌋ + 1
  else if ⌊q⌋ % 2 = 0 then ⌊q⌋ else ⌊q⌋ + 1

/-- Rounding of a rational to the nearest value of a binary floating-point
format with `prec` significand bits and least normal exponent `emin`. -/
@[irreducible]
def roundBinary (prec : ℕ) (emin : ℤ) (q : ℚ) : ℚ :=
  if q = 0 then 0
  else
    let e : ℤ := max (Int.log 2 |q|) emin
    (roundHalfEven (q / 2 ^ (e - ((prec : ℤ) - 1))) : ℚ) * 2 ^ (e - ((prec : ℤ) - 1))

/-- The conversion of a value to `float`. -/
def toFloat (q : ℚ) : ℚ := roundBinary 24 (-126) q

/-- The conversion of a value to `double`. -/
def toDouble (q : ℚ) : ℚ := roundBinary 53 (-1022) q

/-! ## Data model -/

/-- The `pcl::PointNormal` components the program reads and writes. -/
structure PointNormal where
  x : ℚ
  y : ℚ
  z : ℚ
  normal_x : ℚ
  normal_y : ℚ
  normal_z : ℚ
  deriving DecidableEq

/-- The `pcl::PCLPointField::PointFieldTypes` enumeration. -/
inductive Datatype where
  | INT8 | UINT8 | INT16 | UINT16 | INT32 | UINT32 | FLOAT32 | FLOAT64
  deriving DecidableEq

/-- A `pcl::PCLPointField`: name, byte offset in a point record, and datatype. -/
structure PCLPointField where
  name : String
  offset : Nat
  datatype : Datatype
  deriving DecidableEq

/-- One point record of `blob.data`: the value each `reinterpret_cast` read at a
byte offset from the start of the record yields. -/
structure RawPoint where
  asDouble : Nat → ℚ
  asFloat : Nat → ℚ
  asUInt8 : Nat → Nat

/-- A `pcl::PCLPointCloud2`: the field table and the point records of `data`. -/
structure PCLPointCloud2 where
  fields : List PCLPointField
  points : List RawPoint

/-- How a call ended: normally, by throwing `Odm25dMeshingException`, by throwing
another `std::exception`, or in undefined behaviour. -/
inductive Outcome where
  | ok
  | threw (what : String)
  | threwStd (what : String)
  | undefined (what : String)
  deriving DecidableEq

/-- The members of the `Odm25dMeshing` object used by the embedded functions. -/
structure Odm25dMeshing where
  inputFile : String
  outputFile : String
  logFilePath : String
  groundPoints : List PointNormal
  nongroundPoints : List PointNormal
  log : List String

/-- One `log << ...` statement: the text is appended to the log. -/
def Odm25dMeshing.logMsg (self : Odm25dMeshing) (msg : String) : Odm25dMeshing :=
  { self with log := self.log ++ [msg] }

/-! ## loadPointCloud -/

/-- The constant `CLASS_GROUND` of `loadPointCloud`. -/
def CLASS_GROUND : Nat := 2

/-- The constant `HAG_THRESHOLD` of `loadPointCloud` (1 meter). -/
def HAG_THRESHOLD : ℚ := 1

/-- The value of `std::numeric_limits<float>::min()`: the smallest positive
normal `float`, `2⁻¹²⁶`. -/
def FLT_MIN : ℚ := 1 / 2 ^ 126

/-- The eight field pointers of `loadPointCloud`; `none` is `NULL`. -/
structure FieldPtrs where
  posX : Option PCLPointField
  posY : Option PCLPointField
  posZ : Option PCLPointField
  normalX : Option PCLPointField
  normalY : Option PCLPointField
  normalZ : Option PCLPointField
  classification : Option PCLPointField
  hag : Option PCLPointField

/-- All eight pointers initialised to `NULL`. -/
def FieldPtrs.null : FieldPtrs :=
  ⟨none, none, none, none, none, none, none, none⟩

/-- The body of the field scanning loop for one entry of `blob.fields`: the
chain of `ASSIGN` lines; the first name that matches sets its pointer, logs the
name and continues with the next entry. -/
def assignField (acc : FieldPtrs × List String) (f : PCLPointField) :
    FieldPtrs × List String :=
  if f.name = "x" then ({ acc.1 with posX := some f }, acc.2 ++ ["x "])
  else if f.name = "y" then ({ acc.1 with posY := some f }, acc.2 ++ ["y "])
  else if f.name = "z" then ({ acc.1 with posZ := some f }, acc.2 ++ ["z "])
  else if f.name = "normal_x" then
    ({ acc.1 with normalX := some f }, acc.2 ++ ["normal_x "])
  else if f.name = "normal_y" then
    ({ acc.1 with normalY := some f }, acc.2 ++ ["normal_y "])
  else if f.name = "normal_z" then
    ({ acc.1 with normalZ := some f }, acc.2 ++ ["normal_z "])
  else if f.name = "nx" then ({ acc.1 with normalX := some f }, acc.2 ++ ["nx "])
  else if f.name = "ny" then ({ acc.1 with normalY := some f }, acc.2 ++ ["ny "])
  else if f.name = "nz" then ({ acc.1 with normalZ := some f }, acc.2 ++ ["nz "])
  else if f.name = "classification" then
    ({ acc.1 with classification := some f }, acc.2 ++ ["classification "])
  else if f.name = "heightaboveground" then
    ({ acc.1 with hag := some f }, acc.2 ++ ["heightaboveground "])
  else acc

/-- The field scanning loop over `blob.fields`, in order, from null pointers:
the pointers found and the names logged. -/
def scanFields (fields : List PCLPointField) : FieldPtrs × List String :=
  fields.foldl assignField (FieldPtrs.null, [])

/-- The point `allPoints[i]` as the loading loop fills it from one record: the
three positions are read with the datatype of `posX`, the three normal
components with the datatype of `normalX`; a `double` read is narrowed to the
`float` member it is stored in.  The last branch of each read (a component left
as it was) is not reached after the datatype checks. -/
def readPoint (posX posY posZ normalX normalY normalZ : PCLPointField)
    (point : RawPoint) : PointNormal :=
  let pos : ℚ × ℚ × ℚ :=
    if posX.datatype = Datatype.FLOAT64 then
      (toFloat (point.asDouble posX.offset), toFloat (point.asDouble posY.offset),
        toFloat (point.asDouble posZ.offset))
    else if posX.datatype = Datatype.FLOAT32 then
      (point.asFloat posX.offset, point.asFloat posY.offset, point.asFloat posZ.offset)
    else (0, 0, 0)
  let nrm : ℚ × ℚ × ℚ :=
    if normalX.datatype = Datatype.FLOAT64 then
      (toFloat (point.asDouble normalX.offset), toFloat (point.asDouble normalY.offset),
        toFloat (point.asDouble normalZ.offset))
    else if normalX.datatype = Datatype.FLOAT32 then
      (point.asFloat normalX.offset, point.asFloat normalY.offset,
        point.asFloat normalZ.offset)
    else (0, 0, 0)
  ⟨pos.1, pos.2.1, pos.2.2, nrm.1, nrm.2.1, nrm.2.2⟩

/-- The variables the loading loop carries from one record to the next:
`pointClass` and `pointHag` are declared before the loop, the two point sets are
members of the object. -/
structure LoadLoop where
  pointClass : Nat
  pointHag : ℚ
  groundPoints : List PointNormal
  nongroundPoints : List PointNormal

/-- The value of `pointClass` after the classification read of one record. -/
def nextClass (classification : Option PCLPointField) (pointClass : Nat)
    (point : RawPoint) : Nat :=
  match classification with
  | some c => point.asUInt8 c.offset
  | none => pointClass

/-- The value of `pointHag` after the height-above-ground read of one record:
two separate `if`s on the datatype of the field; a `double` read is narrowed to
the `float` variable `pointHag`. -/
def nextHag (hag : Option PCLPointField) (pointHag : ℚ) (point : RawPoint) : ℚ :=
  match hag with
  | some h =>
    let h1 :=
      if h.datatype = Datatype.FLOAT64 then toFloat (point.asDouble h.offset) else pointHag
    if h.datatype = Datatype.FLOAT32 then point.asFloat h.offset else h1
  | none => pointHag

/-- One iteration of the loading loop: read the point, its class and its height
above ground, then push the point to one of the two sets. -/
def loadPointStep (posX posY posZ normalX normalY normalZ : PCLPointField)
    (classification hag : Option PCLPointField) (st : LoadLoop) (point : RawPoint) :
    LoadLoop :=
  let p := readPoint posX posY posZ normalX normalY normalZ point
  let pointClass := nextClass classification st.pointClass point
  let pointHag := nextHag hag st.pointHag point
  if pointClass = CLASS_GROUND then
    { pointClass := pointClass, pointHag := pointHag,
      groundPoints := st.groundPoints ++ [p], nongroundPoints := st.nongroundPoints }
  else if pointHag ≥ HAG_THRESHOLD then
    { pointClass := pointClass, pointHag := pointHag,
      groundPoints := st.groundPoints, nongroundPoints := st.nongroundPoints ++ [p] }
  else
    { pointClass := pointClass, pointHag := pointHag,
      groundPoints := st.groundPoints ++ [p], nongroundPoints := st.nongroundPoints }

/-- The loading loop over all records, from `pointClass = 2` and
`pointHag = std::numeric_limits<float>::min()`. -/
def loadLoop (posX posY posZ normalX normalY normalZ : PCLPointField)
    (classification hag : Option PCLPointField) (self : Odm25dMeshing)
    (points : List RawPoint) : LoadLoop :=
  points.foldl (loadPointStep posX posY posZ normalX normalY normalZ classification hag)
    { pointClass := 2, pointHag := FLT_MIN,
      groundPoints := self.groundPoints, nongroundPoints := self.nongroundPoints }

/-- The part of `loadPointCloud` after the datatype checks of `posX` and
`normalX`: the classification datatype test (a read through the pointer, which
is undefined when the pointer is null), the two warnings, the loading loop and
the two closing log lines. -/
def classifyPoints (posX posY posZ normalX normalY normalZ : PCLPointField)
    (classification hag : Option PCLPointField) (points : List RawPoint)
    (self : Odm25dMeshing) : Outcome × Odm25dMeshing :=
  match classification with
  | none => (Outcome.undefined "null pointer read: classification->datatype", self)
  | some c =>
    let classification : Option PCLPointField :=
      if c.datatype ≠ Datatype.UINT8 then none else some c
    let self := if classification = none then
        self.logMsg "WARNING: Classification attribute missing. Will treat all points as ground.\n"
      else self
    let self := if hag = none then
        self.logMsg "WARNING: heightaboveground attribute missing. Resulting mesh might have more artifacts.\n"
      else self
    let st := loadLoop posX posY posZ normalX normalY normalZ classification hag self points
    let self := { self with groundPoints := st.groundPoints,
                            nongroundPoints := st.nongroundPoints }
    let self := self.logMsg ("Loaded " ++ toString self.groundPoints.length ++ " ground points\n")
    let self := self.logMsg
      ("Loaded " ++ toString self.nongroundPoints.length ++ " non-ground points\n")
    (Outcome.ok, self)

/-- The function `Odm25dMeshing::loadPointCloud`.  The argument `loaded` is what
`pcl::io::loadPLYFile` produced: `none` when it returned `-1`. -/
def loadPointCloud (loaded : Option PCLPointCloud2) (self : Odm25dMeshing) :
    Outcome × Odm25dMeshing :=
  let self := self.logMsg "Loading point cloud... "
  match loaded with
  | none => (Outcome.threw ("Error when reading from: " ++ self.inputFile), self)
  | some blob =>
    let self := self.logMsg "OK\n"
    let self := self.logMsg "Scanning fields... "
    let scan := scanFields blob.fields
    let self := { self with log := self.log ++ scan.2 }
    let self := self.logMsg "OK\n"
    match scan.1.posX, scan.1.posY, scan.1.posZ with
    | some posX, some posY, some posZ =>
      match scan.1.normalX, scan.1.normalY, scan.1.normalZ with
      | some normalX, some normalY, some normalZ =>
        if posX.datatype ≠ Datatype.FLOAT32 ∧ posX.datatype ≠ Datatype.FLOAT64 then
          (Outcome.threw
            "Only float and float64 types are supported for position information", self)
        else if normalX.datatype ≠ Datatype.FLOAT32
            ∧ normalX.datatype ≠ Datatype.FLOAT64 then
          (Outcome.threw
            "Only float and float64 types are supported for normal information", self)
        else
          classifyPoints posX posY posZ normalX normalY normalZ
            scan.1.classification scan.1.hag blob.points self
      | _, _, _ =>
        (Outcome.threw
          "Normal attributes (normal_x,normal_y,normal_z) missing from input", self)
    | _, _, _ =>
      (Outcome.threw "Position attributes (x,y,z) missing from input", self)

/-! ## detectPlanes -/

/-- The constant `K` of `detectPlanes`. -/
def K : Nat := 30

/-- The constant `MIN_CLUSTER_SIZE` of `detectPlanes`. -/
def MIN_CLUSTER_SIZE : Nat := 100

/-- The result of `pcl::KdTreeFLANN::nearestKSearch (point, K, indices, distances)`
on a tree built over a cloud: the index vector as the call leaves it (resized to
the number of neighbours found, which is also the value the call returns). -/
abbrev NearestKSearch := List PointNormal → PointNormal → Nat → List Nat

/-- The result of `pcl::RegionGrowing::extract` for an input cloud: the clusters,
each a vector of indices into the cloud. -/
abbrev RegionGrowing := List PointNormal → List (List Nat)

/-- The expression `a.getNormalVector3fMap().dot(b.getNormalVector3fMap())`: the
`Eigen::Vector3f` dot product, in `float` arithmetic.  Eigen sums the three
products by its unrolled reduction, the first plus the sum of the other two;
every product and every sum is rounded to `float` (no fused multiply-add). -/
def normalDot (a b : PointNormal) : ℚ :=
  toFloat (toFloat (a.normal_x * b.normal_x)
    + toFloat (toFloat (a.normal_y * b.normal_y) + toFloat (a.normal_z * b.normal_z)))

/-- The inner loop over the neighbour indices of one point: the final value of
`same_normal_direction_count`; `none` when `cluster_cloud.at` throws
`std::out_of_range`.  The `float` dot product is compared with the `double`
literal `0.9`. -/
def sameNormalDirectionCount (cluster_cloud : List PointNormal) (point : PointNormal)
    (pointIdxNKNSearch : List Nat) : Option Nat :=
  pointIdxNKNSearch.foldlM
    (fun count k =>
      match cluster_cloud[k]? with
      | none => none
      | some p => some (if normalDot point p > toDouble (9 / 10) then count + 1 else count))
    0

/-- One iteration of the loop over the points of a cluster: whether
`surface_points` is incremented for this point.  In the comparison
`same_normal_direction_count >= pointIdxNKNSearch.size() * 0.8f` both counts are
converted to `float` and the product is a `float`. -/
def isSurfacePoint (kdtree : NearestKSearch) (cluster_cloud : List PointNormal)
    (point : PointNormal) : Option Bool :=
  let pointIdxNKNSearch := kdtree cluster_cloud point K
  let count : Option Nat :=
    if pointIdxNKNSearch.length > 0 then
      sameNormalDirectionCount cluster_cloud point pointIdxNKNSearch
    else some 0
  count.map fun (same_normal_direction_count : Nat) =>
    decide (toFloat (same_normal_direction_count : ℚ)
      ≥ toFloat (toFloat (pointIdxNKNSearch.length : ℚ) * toFloat (4 / 5)))

/-- The loop over the points of a cluster: the final value of `surface_points`;
`none` when `std::out_of_range` is thrown on the way. -/
def countSurfacePoints (kdtree : NearestKSearch) (cluster_cloud : List PointNormal) :
    Option Nat :=
  cluster_cloud.foldlM
    (fun surface_points point =>
      (isSurfacePoint kdtree cluster_cloud point).map fun b =>
        if b then surface_points + 1 else surface_points)
    0

/-- The cloud `cluster_cloud` copied out of `nongroundPoints` at the indices of a
cluster; `none` when an index is outside the cloud (undefined behaviour). -/
def clusterCloud (nongroundPoints : List PointNormal) (indices : List Nat) :
    Option (List PointNormal) :=
  indices.mapM fun i => nongroundPoints[i]?

/-- The body of the loop over the clusters for one cluster.  The ratio is the
`float` quotient `(float)surface_points / (float)points_in_cluster`, compared
with `0.2f`.  The final loop pushes `nongroundPoints->points[*point_idx]` for
every index of the cluster: the elements `cluster_cloud` was copied from. -/
def examineCluster (kdtree : NearestKSearch) (self : Odm25dMeshing) (cluster_idx : Nat)
    (indices : List Nat) : Outcome × Odm25dMeshing :=
  match clusterCloud self.nongroundPoints indices with
  | none => (Outcome.undefined "cluster index outside nongroundPoints", self)
  | some cluster_cloud =>
    match countSurfacePoints kdtree cluster_cloud with
    | none => (Outcome.threwStd "std::out_of_range", self)
    | some surface_points =>
      let points_in_cluster := cluster_cloud.length
      let surface_ratio : ℚ :=
        toFloat (toFloat (surface_points : ℚ) / toFloat (points_in_cluster : ℚ))
      let self := self.logMsg
        ("Segment #" ++ toString cluster_idx ++ " (points: " ++ toString points_in_cluster
          ++ ", plane points: " ++ toString surface_points ++ ")\n")
      if surface_ratio ≥ toFloat (1 / 5) ∧ surface_points ≥ MIN_CLUSTER_SIZE then
        (Outcome.ok, { self with groundPoints := self.groundPoints ++ cluster_cloud })
      else
        (Outcome.ok, self)

/-- The loop over the clusters, from cluster number `cluster_idx`; it stops at
the first cluster that does not end normally. -/
def clusterLoop (kdtree : NearestKSearch) (self : Odm25dMeshing) (cluster_idx : Nat) :
    List (List Nat) → Outcome × Odm25dMeshing
  | [] => (Outcome.ok, self)
  | indices :: rest =>
    let r := examineCluster kdtree self cluster_idx indices
    if r.1 = Outcome.ok then clusterLoop kdtree r.2 (cluster_idx + 1) rest else r

/-- The function `Odm25dMeshing::detectPlanes`. -/
def detectPlanes (reg : RegionGrowing) (kdtree : NearestKSearch) (self : Odm25dMeshing) :
    Outcome × Odm25dMeshing :=
  let self := self.logMsg "Extracting clusters... "
  let clusters := reg self.nongroundPoints
  let self := self.logMsg (" found " ++ toString clusters.length ++ " clusters\n")
  let self := self.logMsg "Computing per segment surface estimation...\n"
  let r := clusterLoop kdtree self 0 clusters
  if r.1 = Outcome.ok then (Outcome.ok, r.2.logMsg "Done!\n") else r

/-! ## buildMesh and run -/

/-- The function `Odm25dMeshing::buildMesh`: every statement but the last log
line is commented out in the source. -/
def buildMesh (self : Odm25dMeshing) : Outcome × Odm25dMeshing :=
  (Outcome.ok, self.logMsg ("Successfully wrote mesh to: " ++ self.outputFile ++ "\n"))

/-- The value `EXIT_SUCCESS`. -/
def EXIT_SUCCESS : Nat := 0

/-- The value `EXIT_FAILURE`. -/
def EXIT_FAILURE : Nat := 1

/-- The `try` block of `run`: the four calls in sequence, stopping at the first
that does not end normally.  `parseArguments` is the command line layer, a
parameter here. -/
def tryBlock (parseArguments : Odm25dMeshing → Outcome × Odm25dMeshing)
    (loaded : Option PCLPointCloud2) (reg : RegionGrowing) (kdtree : NearestKSearch)
    (self : Odm25dMeshing) : Outcome × Odm25dMeshing :=
  let r := parseArguments self
  if r.1 ≠ Outcome.ok then r else
  let r := loadPointCloud loaded r.2
  if r.1 ≠ Outcome.ok then r else
  let r := detectPlanes reg kdtree r.2
  if r.1 ≠ Outcome.ok then r else
  buildMesh r.2

/-- The function `Odm25dMeshing::run`: the exit code returned (`none` when the
run ended in undefined behaviour) and the object after the run. -/
def run (argc : Nat) (parseArguments : Odm25dMeshing → Outcome × Odm25dMeshing)
    (loaded : Option PCLPointCloud2) (reg : RegionGrowing) (kdtree : NearestKSearch)
    (self : Odm25dMeshing) : Option Nat × Odm25dMeshing :=
  let self := self.logMsg (self.logFilePath ++ "\n")
  if argc ≤ 1 then
    (some EXIT_SUCCESS, self.logMsg "Usage: odm_25dmeshing -inputFile [plyFile] [optional-parameters]\n")
  else
    let r := tryBlock parseArguments loaded reg kdtree self
    match r.1 with
    | Outcome.ok => (some EXIT_SUCCESS, r.2)
    | Outcome.threw what =>
      (some EXIT_FAILURE,
        (r.2.logMsg (what ++ "\n")).logMsg "For more detailed information, see log file.\n")
    | Outcome.threwStd what =>
      (some EXIT_FAILURE,
        ((r.2.logMsg "Error in OdmMeshing:\n").logMsg (what ++ "\n")).logMsg
          "For more detailed information, see log file.\n")
    | Outcome.undefined _ => (none, r.2)

/-! ## Notions used in the statements -/

/-- Whether one iteration of the loading loop pushes the record to
`nongroundPoints`, from the values `pointClass` and `pointHag` hold before it. -/
def toNonground (classification hag : Option PCLPointField) (pointClass : Nat)
    (pointHag : ℚ) (point : RawPoint) : Bool :=
  decide (nextClass classification pointClass point ≠ CLASS_GROUND
    ∧ nextHag hag pointHag point ≥ HAG_THRESHOLD)

/-- The classification pointer after the datatype test on it. -/
def usableClassification (c : PCLPointField) : Option PCLPointField :=
  if c.datatype ≠ Datatype.UINT8 then none else some c

/-- The float datatypes the loader accepts for `posX` and `normalX`. -/
def isFloatType (d : Datatype) : Prop := d = Datatype.FLOAT32 ∨ d = Datatype.FLOAT64

instance (d : Datatype) : Decidable (isFloatType d) := by
  unfold isFloatType; infer_instance

/-- The decision of `detectPlanes` on a cluster with `surface_points` surface
points among `points_in_cluster` points: the condition of its final `if`. -/
def planarDecision (surface_points points_in_cluster : Nat) : Prop :=
  toFloat (toFloat (surface_points : ℚ) / toFloat (points_in_cluster : ℚ)) ≥ toFloat (1 / 5)
    ∧ surface_points ≥ MIN_CLUSTER_SIZE

instance (a b : Nat) : Decidable (planarDecision a b) := by
  unfold planarDecision; infer_instance

/-- The point the loading loop makes of a record, for a field table: `readPoint`
with the six pointers the field scan finds; `none` when one of them is null. -/
def loadedPoint (fields : List PCLPointField) (point : RawPoint) : Option PointNormal :=
  match (scanFields fields).1.posX, (scanFields fields).1.posY, (scanFields fields).1.posZ,
    (scanFields fields).1.normalX, (scanFields fields).1.normalY,
    (scanFields fields).1.normalZ with
  | some posX, some posY, some posZ, some normalX, some normalY, some normalZ =>
    some (readPoint posX posY posZ normalX normalY normalZ point)
  | _, _, _, _, _, _ => none

/-- The height above ground a record carries, in the words of the specification:
the value of its float `heightaboveground` field; `none` when the input has no
such field. -/
def heightAboveGround (fields : List PCLPointField) (point : RawPoint) : Option ℚ :=
  match (scanFields fields).1.hag with
  | some h =>
    if h.datatype = Datatype.FLOAT64 then some (point.asDouble h.offset)
    else if h.datatype = Datatype.FLOAT32 then some (point.asFloat h.offset)
    else none
  | none => none

/-- The classification label a record carries, in the words of the
specification: the value of its 8-bit unsigned `classification` field; `none`
when the input has no such field. -/
def classificationLabel (fields : List PCLPointField) (point : RawPoint) : Option Nat :=
  match (scanFields fields).1.classification with
  | some c => if c.datatype = Datatype.UINT8 then some (point.asUInt8 c.offset) else none
  | none => none

/-- Whether a record lands in `nonGroundPoints`, in the words of the
specification: its label is not ground and its height above ground is at least
1.0. -/
def landsInNonground (fields : List PCLPointField) (point : RawPoint) : Bool :=
  match classificationLabel fields point, heightAboveGround fields point with
  | some label, some height => decide (label ≠ 2 ∧ height ≥ 1)
  | _, _ => false

/-- The height above ground of a record as the loading loop holds it in the
`float` variable `pointHag`: a 32-bit value as it is, a 64-bit value rounded to
the nearest `float`; `none` when the input has no float `heightaboveground`
field. -/
def storedHag (fields : List PCLPointField) (point : RawPoint) : Option ℚ :=
  match (scanFields fields).1.hag with
  | some h =>
    if h.datatype = Datatype.FLOAT64 then some (toFloat (point.asDouble h.offset))
    else if h.datatype = Datatype.FLOAT32 then some (point.asFloat h.offset)
    else none
  | none => none

/-- Whether a record lands in `nonGroundPoints`, with the height above ground as
the `float` variable `pointHag` holds it: its label is not ground and the stored
height is at least 1.0. -/
def landsInNongroundStored (fields : List PCLPointField) (point : RawPoint) : Bool :=
  match classificationLabel fields point, storedHag fields point with
  | some label, some height => decide (label ≠ 2 ∧ height ≥ 1)
  | _, _ => false

/-- The four messages of the input checks of `loadPointCloud`. -/
def schemaMessages : List String :=
  ["Position attributes (x,y,z) missing from input",
   "Normal attributes (normal_x,normal_y,normal_z) missing from input",
   "Only float and float64 types are supported for position information",
   "Only float and float64 types are supported for normal information"]

/-- The dot product of two normals in exact arithmetic. -/
def exactDot (a b : PointNormal) : ℚ :=
  a.normal_x * b.normal_x + a.normal_y * b.normal_y + a.normal_z * b.normal_z

/-- Whether a queried neighbour passes the test of the planarity vote: the dot
product of its normal with the normal of the point, computed in `float`
arithmetic, is strictly greater than 0.9. -/
def nearParallel (point p : PointNormal) : Bool :=
  decide (normalDot point p > toDouble (9 / 10))

/-- The number of queried neighbours of a point that pass the test; the
neighbours are given by their indices in the cluster cloud, and an index outside
the cloud names no neighbour. -/
def parallelNeighbours (cluster_cloud : List PointNormal) (point : PointNormal)
    (neighbours : List Nat) : Nat :=
  neighbours.countP fun k =>
    match cluster_cloud[k]? with
    | some p => nearParallel point p
    | none => false

/-! ## Concrete inputs -/

/-- A field table with the six required fields as 32-bit floats, an 8-bit
unsigned classification and a 32-bit float height above ground. -/
def fullFields : List PCLPointField :=
  [⟨"x", 0, Datatype.FLOAT32⟩, ⟨"y", 4, Datatype.FLOAT32⟩, ⟨"z", 8, Datatype.FLOAT32⟩,
   ⟨"normal_x", 12, Datatype.FLOAT32⟩, ⟨"normal_y", 16, Datatype.FLOAT32⟩,
   ⟨"normal_z", 20, Datatype.FLOAT32⟩, ⟨"classification", 24, Datatype.UINT8⟩,
   ⟨"heightaboveground", 25, Datatype.FLOAT32⟩]

/-- A record laid out as in `fullFields`: position `(x, y, z)`, normal `(0, 0, 1)`,
class byte `cls` at offset 24 and height above ground `hag` at offset 25. -/
def record (x y z : ℚ) (cls : Nat) (hag : ℚ) : RawPoint where
  asDouble := fun _ => 0
  asFloat := fun off =>
    if off = 0 then x else if off = 4 then y else if off = 8 then z
    else if off = 20 then 1 else if off = 25 then hag else 0
  asUInt8 := fun off => if off = 24 then cls else 0

/-- An object with empty working sets and an empty log. -/
def freshObject : Odm25dMeshing :=
  ⟨"in.ply", "out.ply", "log.txt", [], [], []⟩

/-- A record with class byte 2 (ground) and height above ground 5. -/
def groundRecord : RawPoint := record 1 2 3 2 5

/-- A record with class byte 1 (not ground) and height above ground 0. -/
def lowRecord : RawPoint := record 4 5 6 1 0

/-- A record with class byte 1 (not ground) and height above ground 5. -/
def highRecord : RawPoint := record 7 8 9 1 5

/-- A blob with all eight fields and three records. -/
def sampleBlob : PCLPointCloud2 := ⟨fullFields, [groundRecord, lowRecord, highRecord]⟩

/-- A clustering result with no cluster. -/
def noClusters : RegionGrowing := fun _ => []

/-- A neighbour search that answers with the first `k` indices of the cloud. -/
def firstNeighbours : NearestKSearch := fun cloud _ k => List.range (min k cloud.length)

/-- The field table `fullFields` without the height-above-ground field. -/
def noHagFields : List PCLPointField :=
  [⟨"x", 0, Datatype.FLOAT32⟩, ⟨"y", 4, Datatype.FLOAT32⟩, ⟨"z", 8, Datatype.FLOAT32⟩,
   ⟨"normal_x", 12, Datatype.FLOAT32⟩, ⟨"normal_y", 16, Datatype.FLOAT32⟩,
   ⟨"normal_z", 20, Datatype.FLOAT32⟩, ⟨"classification", 24, Datatype.UINT8⟩]

/-- A blob without height-above-ground field and one record of class 1. -/
def noHagBlob : PCLPointCloud2 := ⟨noHagFields, [highRecord]⟩

/-- The field table `fullFields` without the classification field. -/
def noClassFields : List PCLPointField :=
  [⟨"x", 0, Datatype.FLOAT32⟩, ⟨"y", 4, Datatype.FLOAT32⟩, ⟨"z", 8, Datatype.FLOAT32⟩,
   ⟨"normal_x", 12, Datatype.FLOAT32⟩, ⟨"normal_y", 16, Datatype.FLOAT32⟩,
   ⟨"normal_z", 20, Datatype.FLOAT32⟩, ⟨"heightaboveground", 25, Datatype.FLOAT32⟩]

/-- A blob without classification field and one record. -/
def noClassBlob : PCLPointCloud2 := ⟨noClassFields, [lowRecord]⟩

/-- The field table `fullFields` with the `y` field a 32-bit integer. -/
def intYFields : List PCLPointField :=
  [⟨"x", 0, Datatype.FLOAT32⟩, ⟨"y", 4, Datatype.INT32⟩, ⟨"z", 8, Datatype.FLOAT32⟩,
   ⟨"normal_x", 12, Datatype.FLOAT32⟩, ⟨"normal_y", 16, Datatype.FLOAT32⟩,
   ⟨"normal_z", 20, Datatype.FLOAT32⟩, ⟨"classification", 24, Datatype.UINT8⟩,
   ⟨"heightaboveground", 25, Datatype.FLOAT32⟩]

/-- A blob whose `y` field is a 32-bit integer, with one record. -/
def intYBlob : PCLPointCloud2 := ⟨intYFields, [groundRecord]⟩

/-- The field table `fullFields` with the `x` field a 32-bit integer. -/
def intXFields : List PCLPointField :=
  [⟨"x", 0, Datatype.INT32⟩, ⟨"y", 4, Datatype.FLOAT32⟩, ⟨"z", 8, Datatype.FLOAT32⟩,
   ⟨"normal_x", 12, Datatype.FLOAT32⟩, ⟨"normal_y", 16, Datatype.FLOAT32⟩,
   ⟨"normal_z", 20, Datatype.FLOAT32⟩, ⟨"classification", 24, Datatype.UINT8⟩,
   ⟨"heightaboveground", 25, Datatype.FLOAT32⟩]

/-- A blob whose `x` field is a 32-bit integer, with one record. -/
def intXBlob : PCLPointCloud2 := ⟨intXFields, [groundRecord]⟩

/-- A flat roof: 150 points at height 10, one per unit along `x`, all with
normal `(0, 0, 1)`. -/
def roof : List PointNormal :=
  (List.range 150).map fun (i : Nat) => ⟨(i : ℚ), 0, 10, 0, 0, 1⟩

/-- An object whose non-ground set is the roof and whose ground set is empty. -/
def roofObject : Odm25dMeshing :=
  ⟨"in.ply", "out.ply", "log.txt", [], roof, []⟩

/-- A clustering result with the whole roof as its one cluster. -/
def roofCluster : RegionGrowing := fun _ => [List.range 150]

/-- A cluster cloud of 30 points: `n` roof points with normal `(0, 0, 1)` followed
by `30 - n` wall points with normal `(1, 0, 0)`. -/
def mixedCloud (n : Nat) : List PointNormal :=
  ((List.range n).map fun (i : Nat) => (⟨(i : ℚ), 0, 10, 0, 0, 1⟩ : PointNormal))
    ++ (List.range (30 - n)).map fun (i : Nat) => (⟨(i : ℚ), 1, 10, 1, 0, 0⟩ : PointNormal)

/-- The field table `fullFields` with the height above ground a 64-bit float. -/
def doubleHagFields : List PCLPointField :=
  [⟨"x", 0, Datatype.FLOAT32⟩, ⟨"y", 4, Datatype.FLOAT32⟩, ⟨"z", 8, Datatype.FLOAT32⟩,
   ⟨"normal_x", 12, Datatype.FLOAT32⟩, ⟨"normal_y", 16, Datatype.FLOAT32⟩,
   ⟨"normal_z", 20, Datatype.FLOAT32⟩, ⟨"classification", 24, Datatype.UINT8⟩,
   ⟨"heightaboveground", 25, Datatype.FLOAT64⟩]

/-- A record laid out as in `doubleHagFields`: position `(7, 8, 9)`, normal
`(0, 0, 1)`, class byte 1 (not ground) and the 64-bit height above ground
`1 - 2⁻³⁰`, a value of the `double` format strictly below 1.0. -/
def nearOneRecord : RawPoint where
  asDouble := fun off => if off = 25 then 1 - 1 / 2 ^ 30 else 0
  asFloat := fun off =>
    if off = 0 then 7 else if off = 4 then 8 else if off = 8 then 9
    else if off = 20 then 1 else 0
  asUInt8 := fun off => if off = 24 then 1 else 0

/-- A blob with a 64-bit height above ground and the one record `nearOneRecord`. -/
def nearOneBlob : PCLPointCloud2 := ⟨doubleHagFields, [nearOneRecord]⟩

/-- The field table `fullFields` with the positions as 64-bit floats. -/
def doublePositionFields : List PCLPointField :=
  [⟨"x", 0, Datatype.FLOAT64⟩, ⟨"y", 8, Datatype.FLOAT64⟩, ⟨"z", 16, Datatype.FLOAT64⟩,
   ⟨"normal_x", 24, Datatype.FLOAT32⟩, ⟨"normal_y", 28, Datatype.FLOAT32⟩,
   ⟨"normal_z", 32, Datatype.FLOAT32⟩, ⟨"classification", 36, Datatype.UINT8⟩,
   ⟨"heightaboveground", 37, Datatype.FLOAT32⟩]

/-- A record laid out as in `doublePositionFields`: the 64-bit position
`(33554433, 0, 0)`, whose first component is not a value of the `float` format,
normal `(0, 0, 1)`, class byte 2 and height above ground 0. -/
def wideRecord : RawPoint where
  asDouble := fun off => if off = 0 then 33554433 else 0
  asFloat := fun off => if off = 32 then 1 else 0
  asUInt8 := fun off => if off = 36 then 2 else 0

/-- A point of a flat roof at `(0, 0, 10)`, with normal `(0, 0, 1)`. -/
def flatPoint : PointNormal := ⟨0, 0, 10, 0, 0, 1⟩

/-- The point `i` of a row of sites of 30 coincident points each: it lies at site
`i / 30`, that is at `(i / 30, 0, 0)`, and has the normal of `u` when it is among
the first 15 points of its site and the normal of `v` otherwise. -/
def sitePoint (u v : PointNormal) (i : Nat) : PointNormal :=
  if i % 30 < 15 then ⟨((i / 30 : Nat) : ℚ), 0, 0, u.normal_x, u.normal_y, u.normal_z⟩
  else ⟨((i / 30 : Nat) : ℚ), 0, 0, v.normal_x, v.normal_y, v.normal_z⟩

/-- A cluster cloud laid out in sites: `flat` coincident copies of `flatPoint`,
followed by `sites` sites of 30 coincident points each, the points
`sitePoint u v i` for `i < 30 * sites`. -/
def siteCloud (flat sites : Nat) (u v : PointNormal) : List PointNormal :=
  List.replicate flat flatPoint ++ (List.range (30 * sites)).map (sitePoint u v)

/-- The answer of a nearest-neighbour search on a site cloud with at least 30
flat points, for up to 30 neighbours: a query at the flat point is answered with
the first indices of the flat points, all at distance 0; a query at a point of
the site `s` with the first indices of that site, whose 30 points are the only
ones at distance 0. -/
def siteNeighbours (flat : Nat) : NearestKSearch := fun _ point k =>
  List.range' (if point.z = 10 then 0 else flat + 30 * ⌊point.x⌋₊) k

/-- A normal along the `x` axis. -/
def xNormal : PointNormal := ⟨0, 0, 0, 1, 0, 0⟩

/-- A normal along the `y` axis. -/
def yNormal : PointNormal := ⟨0, 0, 0, 0, 1, 0⟩

/-- A cluster cloud of 75,000,562 points: 15,000,112 flat points with normal
`(0, 0, 1)` and 2,000,015 sites of 30 points, 15 with normal `(1, 0, 0)` and 15
with normal `(0, 1, 0)`. -/
def hugeCloud : List PointNormal := siteCloud 15000112 2000015 xNormal yNormal

/-- An object whose non-ground set is `hugeCloud` and whose ground set is empty. -/
def hugeObject : Odm25dMeshing :=
  ⟨"in.ply", "out.ply", "log.txt", [], hugeCloud, []⟩

/-- The normal `(63 / 64, 0, 0)`; the component is a value of the `float` format. -/
def longNormal : PointNormal := ⟨0, 0, 0, 63 / 64, 0, 0⟩

/-- The normal `(15339169 / 2²⁴, 0, 0)`; the component is a value of the `float`
format. -/
def shortNormal : PointNormal := ⟨0, 0, 0, 15339169 / 2 ^ 24, 0, 0⟩

/-- A cluster cloud of 150 points: 120 flat points with normal `(0, 0, 1)` and
one site of 30 points at the origin, 15 with normal `(63 / 64, 0, 0)` and 15 with
normal `(15339169 / 2²⁴, 0, 0)`. -/
def nearMissCloud : List PointNormal := siteCloud 120 1 longNormal shortNormal

/-- The command line layer ending normally without touching the object. -/
def parsedOk : Odm25dMeshing → Outcome × Odm25dMeshing := fun self => (Outcome.ok, self)

/-! # Theorems -/

/-! ## Rounding -/

theorem roundHalfEven_error (y : ℚ) : |(roundHalfEven y : ℚ) - y| ≤ 1 / 2 := by
  have h1 : (⌊y⌋ : ℚ) ≤ y := Int.floor_le y
  have h2 : y < (⌊y⌋ : ℚ) + 1 := Int.lt_floor_add_one y
  unfold roundHalfEven
  split_ifs with a b c
  · rw [abs_le]; constructor <;> linarith
  · rw [abs_le]; push_cast; constructor <;> linarith
  · rw [abs_le]; constructor <;> linarith
  · rw [abs_le]; push_cast; constructor <;> linarith

theorem roundHalfEven_eq (y : ℚ) (m : ℤ) (h : |y - m| < 1 / 2) : roundHalfEven y = m := by
  rw [abs_lt] at h
  obtain ⟨h1, h2⟩ := h
  unfold roundHalfEven
  by_cases hm : (m : ℚ) ≤ y
  · have hf : ⌊y⌋ = m := by
      rw [Int.floor_eq_iff]
      constructor
      · exact hm
      · linarith
    rw [hf, if_pos (by linarith)]
  · push_neg at hm
    have hf : ⌊y⌋ = m - 1 := by
      rw [Int.floor_eq_iff]
      push_cast
      constructor <;> linarith
    rw [hf]
    push_cast
    rw [if_neg (by linarith), if_pos (by linarith)]
    ring

theorem roundHalfEven_intCast (m : ℤ) : roundHalfEven (m : ℚ) = m :=
  roundHalfEven_eq _ m (by simp)

theorem two_zpow_pos (z : ℤ) : (0 : ℚ) < 2 ^ z := zpow_pos (by norm_num) z

theorem roundBinary_zero (prec : ℕ) (emin : ℤ) : roundBinary prec emin 0 = 0 := by
  simp [roundBinary]

theorem roundBinary_error (prec : ℕ) (emin : ℤ) (q : ℚ) (hq : q ≠ 0) :
    |roundBinary prec emin q - q| ≤ 2 ^ (max (Int.log 2 |q|) emin - (prec : ℤ)) := by
  unfold roundBinary
  rw [if_neg hq]
  simp only
  set e : ℤ := max (Int.log 2 |q|) emin with he
  set u : ℚ := 2 ^ (e - ((prec : ℤ) - 1)) with hu
  have hupos : 0 < u := two_zpow_pos _
  have hkey : (roundHalfEven (q / u) : ℚ) * u - q = ((roundHalfEven (q / u) : ℚ) - q / u) * u := by
    field_simp
  rw [hkey, abs_mul, abs_of_pos hupos]
  have hhalf : (2 : ℚ) ^ (e - (prec : ℤ)) = 1 / 2 * u := by
    rw [hu, show e - ((prec : ℤ) - 1) = (e - (prec : ℤ)) + 1 by ring, zpow_add_one₀ (by norm_num)]
    ring
  rw [hhalf]
  exact mul_le_mul_of_nonneg_right (roundHalfEven_error _) hupos.le

theorem log_le_of_lt_zpow (q : ℚ) (k : ℤ) (hq : q ≠ 0) (h : |q| < 2 ^ (k + 1)) :
    Int.log 2 |q| ≤ k := by
  have hpos : 0 < |q| := abs_pos.mpr hq
  have := (Int.lt_zpow_iff_log_lt (b := 2) (by norm_num) hpos (x := k + 1)).mp
    (by simpa using h)
  omega

theorem log_eq_of_bounds (r : ℚ) (e : ℤ) (h1 : 2 ^ e ≤ r) (h2 : r < 2 ^ (e + 1)) :
    Int.log 2 r = e := by
  have hpos : 0 < r := lt_of_lt_of_le (two_zpow_pos e) h1
  have a := (Int.zpow_le_iff_le_log (b := 2) (by norm_num) hpos (x := e)).mp (by simpa using h1)
  have b := (Int.lt_zpow_iff_log_lt (b := 2) (by norm_num) hpos (x := e + 1)).mp
    (by simpa using h2)
  omega

/-- The error of a conversion is at most half a unit in the last place of the
binade the value lies in. -/
theorem roundBinary_error_le (prec : ℕ) (emin : ℤ) (q : ℚ) (k : ℤ) (hk : emin ≤ k)
    (h : |q| < 2 ^ (k + 1)) : |roundBinary prec emin q - q| ≤ 2 ^ (k - (prec : ℤ)) := by
  by_cases hq : q = 0
  · rw [hq, roundBinary_zero]
    simp only [sub_self, abs_zero]
    exact (two_zpow_pos _).le
  · refine le_trans (roundBinary_error prec emin q hq) ?_
    apply zpow_le_zpow_right₀ (by norm_num)
    have := log_le_of_lt_zpow q k hq h
    have hmax : max (Int.log 2 |q|) emin ≤ k := max_le this hk
    omega

/-- The value of a conversion when the binade and the rounded significand are
known. -/
theorem roundBinary_eq (prec : ℕ) (emin : ℤ) (q : ℚ) (e m : ℤ) (he : emin ≤ e)
    (h1 : 2 ^ e ≤ |q|) (h2 : |q| < 2 ^ (e + 1))
    (hm : |q / 2 ^ (e - ((prec : ℤ) - 1)) - m| < 1 / 2) :
    roundBinary prec emin q = (m : ℚ) * 2 ^ (e - ((prec : ℤ) - 1)) := by
  have hq : q ≠ 0 := by
    intro h0
    rw [h0, abs_zero] at h1
    exact absurd h1 (not_le.mpr (two_zpow_pos e))
  unfold roundBinary
  rw [if_neg hq]
  simp only
  rw [log_eq_of_bounds |q| e h1 h2, max_eq_left he, roundHalfEven_eq _ m hm]

/-- A natural number below `2 ^ 24` is a `float`: its conversion is exact. -/
theorem toFloat_natCast (n : ℕ) (hn : n < 2 ^ 24) : toFloat (n : ℚ) = n := by
  rcases Nat.eq_zero_or_pos n with h0 | hpos
  · rw [h0]; simp [toFloat, roundBinary_zero]
  · have hne : n ≠ 0 := by omega
    have hL : Nat.log 2 n < 24 := Nat.log_lt_of_lt_pow hne hn
    have hlo : 2 ^ Nat.log 2 n ≤ n := Nat.pow_log_le_self 2 hne
    have hhi : n < 2 ^ (Nat.log 2 n + 1) := Nat.lt_pow_succ_log_self (by norm_num) n
    set L := Nat.log 2 n with hLdef
    have hsplit : (2 : ℚ) ^ (23 - L) * 2 ^ L = 2 ^ 23 := by
      rw [← pow_add]; congr 1; omega
    have hu : (2 : ℚ) ^ ((L : ℤ) - (((24 : ℕ) : ℤ) - 1)) = 2 ^ L / 2 ^ 23 := by
      rw [show ((L : ℤ) - (((24 : ℕ) : ℤ) - 1)) = (L : ℤ) - ((23 : ℕ) : ℤ) by push_cast; ring,
        zpow_sub₀ (by norm_num), zpow_natCast, zpow_natCast]
    have hLpos : (0 : ℚ) < 2 ^ L := pow_pos (by norm_num) L
    unfold toFloat
    rw [roundBinary_eq 24 (-126) (n : ℚ) (L : ℤ) ((n * 2 ^ (23 - L) : ℕ) : ℤ) (by omega)]
    · rw [hu]
      push_cast
      rw [← hsplit]
      field_simp
      ring
    · rw [abs_of_nonneg (Nat.cast_nonneg n), zpow_natCast]
      exact_mod_cast hlo
    · rw [abs_of_nonneg (Nat.cast_nonneg n)]
      rw [show ((L : ℤ) + 1) = ((L + 1 : ℕ) : ℤ) by push_cast; ring, zpow_natCast]
      exact_mod_cast hhi
    · rw [hu]
      have : (n : ℚ) / (2 ^ L / 2 ^ 23) - (((n * 2 ^ (23 - L) : ℕ) : ℤ) : ℚ) = 0 := by
        push_cast
        rw [← hsplit]
        field_simp
        ring
      rw [this]
      norm_num

theorem toFloat_zero : toFloat 0 = 0 := roundBinary_zero _ _

theorem toFloat_one : toFloat 1 = 1 := by
  have := toFloat_natCast 1 (by norm_num)
  simpa using this

/-- The relative form of the error of a conversion to `float`. -/
theorem toFloat_error (q : ℚ) : |toFloat q - q| ≤ |q| / 2 ^ 24 + 1 / 2 ^ 150 := by
  by_cases hq : q = 0
  · rw [hq, toFloat_zero]; simp
  · have hpos : 0 < |q| := abs_pos.mpr hq
    have h := roundBinary_error 24 (-126) q hq
    unfold toFloat
    refine le_trans h ?_
    rcases le_total (Int.log 2 |q|) (-126) with hle | hge
    · rw [max_eq_right hle]
      have : (2 : ℚ) ^ ((-126 : ℤ) - ((24 : ℕ) : ℤ)) = 1 / 2 ^ 150 := by
        rw [show ((-126 : ℤ) - ((24 : ℕ) : ℤ)) = -((150 : ℕ) : ℤ) by norm_num, zpow_neg,
          zpow_natCast]
        norm_num
      rw [this]
      have : 0 ≤ |q| / 2 ^ 24 := by positivity
      linarith
    · rw [max_eq_left hge]
      have hlog : (2 : ℚ) ^ Int.log 2 |q| ≤ |q| := by
        have := Int.zpow_log_le_self (b := 2) (r := |q|) (by norm_num) hpos
        simpa using this
      have : (2 : ℚ) ^ (Int.log 2 |q| - ((24 : ℕ) : ℤ)) = 2 ^ Int.log 2 |q| / 2 ^ 24 := by
        rw [zpow_sub₀ (by norm_num), zpow_natCast]
      rw [this]
      have h2 : (2 : ℚ) ^ Int.log 2 |q| / 2 ^ 24 ≤ |q| / 2 ^ 24 :=
        div_le_div_of_nonneg_right hlog (by positivity)
      have : (0 : ℚ) ≤ 1 / 2 ^ 150 := by positivity
      linarith

/-- Evaluation of a conversion to `float` of a positive value. -/
theorem toFloat_eq (q : ℚ) (e m : ℤ) (he : -126 ≤ e) (hpos : 0 < q)
    (h1 : 2 ^ e ≤ q) (h2 : q < 2 ^ (e + 1))
    (hm : |q / 2 ^ (e - 23) - m| < 1 / 2) :
    toFloat q = (m : ℚ) * 2 ^ (e - 23) := by
  unfold toFloat
  have := roundBinary_eq 24 (-126) q e m he (by rwa [abs_of_pos hpos])
    (by rwa [abs_of_pos hpos]) (by simpa using hm)
  simpa using this

/-- Evaluation of a conversion to `double` of a positive value. -/
theorem toDouble_eq (q : ℚ) (e m : ℤ) (he : -1022 ≤ e) (hpos : 0 < q)
    (h1 : 2 ^ e ≤ q) (h2 : q < 2 ^ (e + 1))
    (hm : |q / 2 ^ (e - 52) - m| < 1 / 2) :
    toDouble q = (m : ℚ) * 2 ^ (e - 52) := by
  unfold toDouble
  have := roundBinary_eq 53 (-1022) q e m he (by rwa [abs_of_pos hpos])
    (by rwa [abs_of_pos hpos]) (by simpa using hm)
  simpa using this

theorem toFloat_near_one : toFloat (1 - 1 / 2 ^ 30) = 1 := by
  rw [toFloat_eq (1 - 1 / 2 ^ 30) (-1) (2 ^ 24) (by norm_num) (by norm_num) (by norm_num)
    (by norm_num) (by rw [abs_lt]; constructor <;> norm_num)]
  norm_num

theorem toFloat_fifth : toFloat (1 / 5) = 13421773 / 2 ^ 26 := by
  rw [toFloat_eq (1 / 5) (-3) 13421773 (by norm_num) (by norm_num) (by norm_num)
    (by norm_num) (by rw [abs_lt]; constructor <;> norm_num)]
  norm_num

theorem toFloat_four_fifths : toFloat (4 / 5) = 13421773 / 2 ^ 24 := by
  rw [toFloat_eq (4 / 5) (-1) 13421773 (by norm_num) (by norm_num) (by norm_num)
    (by norm_num) (by rw [abs_lt]; constructor <;> norm_num)]
  norm_num

theorem toDouble_nine_tenths : toDouble (9 / 10) = 8106479329266893 / 2 ^ 53 := by
  rw [toDouble_eq (9 / 10) (-1) 8106479329266893 (by norm_num) (by norm_num) (by norm_num)
    (by norm_num) (by rw [abs_lt]; constructor <;> norm_num)]
  norm_num

/-- Rounding to the nearest integer is monotone. -/
theorem roundHalfEven_mono (a b : ℚ) (h : a ≤ b) : roundHalfEven a ≤ roundHalfEven b := by
  by_contra hlt
  push_neg at hlt
  have h1 : roundHalfEven b + 1 ≤ roundHalfEven a := hlt
  have h1q : (roundHalfEven b : ℚ) + 1 ≤ (roundHalfEven a : ℚ) := by exact_mod_cast h1
  have ha := abs_le.mp (roundHalfEven_error a)
  have hb := abs_le.mp (roundHalfEven_error b)
  have hab : a = b := by linarith [ha.1, ha.2, hb.1, hb.2]
  rw [hab] at hlt
  exact lt_irrefl _ hlt

/-- The conversion of a positive value, with the exponent it is rounded at. -/
theorem roundBinary_pos (prec : ℕ) (emin : ℤ) (q : ℚ) (hq : 0 < q) :
    roundBinary prec emin q
      = (roundHalfEven (q / 2 ^ (max (Int.log 2 q) emin - ((prec : ℤ) - 1))) : ℚ)
        * 2 ^ (max (Int.log 2 q) emin - ((prec : ℤ) - 1)) := by
  unfold roundBinary
  rw [if_neg (ne_of_gt hq), abs_of_pos hq]

theorem lt_zpow_log_succ (q : ℚ) : q < 2 ^ (Int.log 2 q + 1) := by
  have := Int.lt_zpow_succ_log_self (b := 2) (by norm_num) q
  simpa using this

theorem zpow_log_le (q : ℚ) (hq : 0 < q) : (2 : ℚ) ^ Int.log 2 q ≤ q := by
  have := Int.zpow_log_le_self (b := 2) (r := q) (by norm_num) hq
  simpa using this

/-- The conversion to a binary format is monotone on the positive values. -/
theorem roundBinary_mono (prec : ℕ) (emin : ℤ) (x y : ℚ) (hprec : 0 < prec) (hx : 0 < x)
    (hxy : x ≤ y) :
    roundBinary prec emin x ≤ roundBinary prec emin y := by
  have hy : 0 < y := lt_of_lt_of_le hx hxy
  rw [roundBinary_pos prec emin x hx, roundBinary_pos prec emin y hy]
  have hlog : Int.log 2 x ≤ Int.log 2 y := Int.log_mono_right hx hxy
  set ex : ℤ := max (Int.log 2 x) emin with hex
  set ey : ℤ := max (Int.log 2 y) emin with hey
  have hle : ex ≤ ey := max_le_max hlog (le_refl _)
  rcases eq_or_lt_of_le hle with heq | hlt
  · rw [← heq]
    have hu : (0 : ℚ) < 2 ^ (ex - ((prec : ℤ) - 1)) := two_zpow_pos _
    apply mul_le_mul_of_nonneg_right _ hu.le
    have : roundHalfEven (x / 2 ^ (ex - ((prec : ℤ) - 1)))
        ≤ roundHalfEven (y / 2 ^ (ex - ((prec : ℤ) - 1))) :=
      roundHalfEven_mono _ _ (div_le_div_of_nonneg_right hxy hu.le)
    exact_mod_cast this
  · -- the two values lie in different binades, separated by `2 ^ ey`
    have hux : (0 : ℚ) < 2 ^ (ex - ((prec : ℤ) - 1)) := two_zpow_pos _
    have huy : (0 : ℚ) < 2 ^ (ey - ((prec : ℤ) - 1)) := two_zpow_pos _
    have heylog : ey = Int.log 2 y := by
      rcases le_total (Int.log 2 y) emin with h | h
      · exfalso
        have h1 : ey = emin := max_eq_right h
        have h2 : emin ≤ ex := le_max_right _ _
        omega
      · exact max_eq_left h
    have hylo : (2 : ℚ) ^ ey ≤ y := by rw [heylog]; exact zpow_log_le y hy
    have hxhi : x < 2 ^ (ex + 1) :=
      lt_of_lt_of_le (lt_zpow_log_succ x)
        (zpow_le_zpow_right₀ (by norm_num) (by have := le_max_left (Int.log 2 x) emin; omega))
    -- the significand of `x` is at most `2 ^ prec`
    have hsx : (roundHalfEven (x / 2 ^ (ex - ((prec : ℤ) - 1))) : ℚ) ≤ 2 ^ prec := by
      have hlt2 : x / 2 ^ (ex - ((prec : ℤ) - 1)) < 2 ^ prec := by
        rw [div_lt_iff₀ hux]
        have : (2 : ℚ) ^ prec * 2 ^ (ex - ((prec : ℤ) - 1)) = 2 ^ (ex + 1) := by
          rw [← zpow_natCast, ← zpow_add₀ (by norm_num)]
          congr 1
          ring
        rw [this]
        exact hxhi
      have hm := roundHalfEven_mono _ _ hlt2.le
      have hpow : ((2 : ℚ) ^ prec) = (((2 ^ prec : ℕ) : ℤ) : ℚ) := by push_cast; rfl
      rw [hpow, roundHalfEven_intCast] at hm
      rw [hpow]
      exact_mod_cast hm
    -- the significand of `y` is at least `2 ^ (prec - 1)`
    have hsy : (2 : ℚ) ^ ((prec : ℤ) - 1)
        ≤ (roundHalfEven (y / 2 ^ (ey - ((prec : ℤ) - 1))) : ℚ) := by
      have hge : (2 : ℚ) ^ ((prec : ℤ) - 1) ≤ y / 2 ^ (ey - ((prec : ℤ) - 1)) := by
        rw [le_div_iff₀ huy, ← zpow_add₀ (by norm_num)]
        rw [show ((prec : ℤ) - 1) + (ey - ((prec : ℤ) - 1)) = ey by ring]
        exact hylo
      have hm := roundHalfEven_mono _ _ hge
      have hpow : ((2 : ℚ) ^ ((prec : ℤ) - 1)) = (((2 ^ (prec - 1) : ℕ) : ℤ) : ℚ) := by
        push_cast
        rw [← zpow_natCast]
        congr 1
        omega
      rw [hpow, roundHalfEven_intCast] at hm
      rw [hpow]
      exact_mod_cast hm
    have hstep1 : (roundHalfEven (x / 2 ^ (ex - ((prec : ℤ) - 1))) : ℚ)
        * 2 ^ (ex - ((prec : ℤ) - 1)) ≤ 2 ^ (ex + 1) := by
      have : (2 : ℚ) ^ prec * 2 ^ (ex - ((prec : ℤ) - 1)) = 2 ^ (ex + 1) := by
        rw [← zpow_natCast, ← zpow_add₀ (by norm_num)]
        congr 1
        ring
      rw [← this]
      exact mul_le_mul_of_nonneg_right hsx hux.le
    have hstep2 : (2 : ℚ) ^ (ex + 1) ≤ 2 ^ ey :=
      zpow_le_zpow_right₀ (by norm_num) (by omega)
    have hstep3 : (2 : ℚ) ^ ey ≤ (roundHalfEven (y / 2 ^ (ey - ((prec : ℤ) - 1))) : ℚ)
        * 2 ^ (ey - ((prec : ℤ) - 1)) := by
      have : (2 : ℚ) ^ ((prec : ℤ) - 1) * 2 ^ (ey - ((prec : ℤ) - 1)) = 2 ^ ey := by
        rw [← zpow_add₀ (by norm_num)]
        congr 1
        ring
      rw [← this]
      exact mul_le_mul_of_nonneg_right hsy huy.le
    exact le_trans hstep1 (le_trans hstep2 hstep3)

/-- The conversion to `float` is monotone on the positive values. -/
theorem toFloat_mono (x y : ℚ) (hx : 0 < x) (hxy : x ≤ y) : toFloat x ≤ toFloat y :=
  roundBinary_mono 24 (-126) x y (by norm_num) hx hxy


theorem toFloat_half : toFloat (1 / 2) = 1 / 2 := by
  rw [toFloat_eq (1 / 2) (-1) (2 ^ 23) (by norm_num) (by norm_num) (by norm_num)
    (by norm_num) (by rw [abs_lt]; constructor <;> norm_num)]
  norm_num

/-- The value `1 - 2⁻²⁵` lies half way between the `float` values `1 - 2⁻²⁴` and 1
and is converted to 1, whose significand is even. -/
theorem toFloat_tie_below_one : toFloat (1 - 1 / 2 ^ 25) = 1 := by
  have hlog : Int.log 2 ((1 : ℚ) - 1 / 2 ^ 25) = -1 :=
    log_eq_of_bounds _ (-1) (by norm_num) (by norm_num)
  have hfloor : ⌊((33554431 : ℚ) / 2)⌋ = 16777215 := by
    rw [Int.floor_eq_iff]
    constructor <;> norm_num
  have hround : roundHalfEven ((33554431 : ℚ) / 2) = 16777216 := by
    unfold roundHalfEven
    rw [hfloor]
    norm_num
  unfold toFloat
  rw [roundBinary_pos 24 (-126) _ (by norm_num), hlog]
  have hq : ((1 : ℚ) - 1 / 2 ^ 25) / 2 ^ (max (-1 : ℤ) (-126) - (((24 : ℕ) : ℤ) - 1))
      = 33554431 / 2 := by
    norm_num
  rw [hq, hround]
  norm_num

/-- A value is converted to a `float` below 1 exactly when it is below
`1 - 2⁻²⁵`. -/
theorem toFloat_lt_one_iff (d : ℚ) : toFloat d < 1 ↔ d < 1 - 1 / 2 ^ 25 := by
  constructor
  · intro h
    by_contra hge
    push_neg at hge
    have := toFloat_mono _ _ (by norm_num) hge
    rw [toFloat_tie_below_one] at this
    exact absurd h (not_lt.mpr this)
  · intro h
    rcases le_or_lt d 0 with hneg | hpos
    · have herr := (abs_le.mp (toFloat_error d)).2
      rw [abs_of_nonpos hneg] at herr
      have h150 : (1 : ℚ) / 2 ^ 150 < 1 := by norm_num
      have : -d / 2 ^ 24 ≤ -d := div_le_self (by linarith) (by norm_num)
      linarith
    · rcases lt_or_le d (1 / 2) with hsmall | hbig
      · have := toFloat_mono _ _ hpos hsmall.le
        rw [toFloat_half] at this
        linarith
      · have hlog : Int.log 2 d = -1 :=
          log_eq_of_bounds d (-1) (by norm_num; linarith) (by norm_num; linarith)
        unfold toFloat
        rw [roundBinary_pos 24 (-126) d hpos, hlog]
        have hexp : (max (-1 : ℤ) (-126) - (((24 : ℕ) : ℤ) - 1)) = -24 := by norm_num
        rw [hexp]
        have hy : d / 2 ^ (-24 : ℤ) < 16777216 - 1 / 2 := by
          rw [div_lt_iff₀ (two_zpow_pos _)]
          norm_num
          linarith
        have herr := (abs_le.mp (roundHalfEven_error (d / 2 ^ (-24 : ℤ)))).2
        have hlt : (roundHalfEven (d / 2 ^ (-24 : ℤ)) : ℚ) < 16777216 := by linarith
        have hint : roundHalfEven (d / 2 ^ (-24 : ℤ)) ≤ 16777215 := by
          have : roundHalfEven (d / 2 ^ (-24 : ℤ)) < 16777216 := by exact_mod_cast hlt
          omega
        have hq : (roundHalfEven (d / 2 ^ (-24 : ℤ)) : ℚ) ≤ 16777215 := by exact_mod_cast hint
        have : (roundHalfEven (d / 2 ^ (-24 : ℤ)) : ℚ) * 2 ^ (-24 : ℤ)
            ≤ 16777215 * 2 ^ (-24 : ℤ) :=
          mul_le_mul_of_nonneg_right hq (two_zpow_pos _).le
        refine lt_of_le_of_lt this ?_
        norm_num

theorem toFloat_below_fifth :
    toFloat (1 / 5 - 1 / (5 * 2 ^ 24)) = 13421772 / 2 ^ 26 := by
  rw [toFloat_eq (1 / 5 - 1 / (5 * 2 ^ 24)) (-3) 13421772 (by norm_num) (by norm_num)
    (by norm_num) (by norm_num) (by rw [abs_lt]; constructor <;> norm_num)]
  norm_num

/-- For a cluster of fewer than `2 ^ 24` points the test of the code on the
`float` ratio is the test `surface_points / points_in_cluster ≥ 0.2` on the exact
ratio. -/
theorem ratio_decision (sp n : ℕ) (hle : sp ≤ n) (hn : n < 2 ^ 24) :
    toFloat (toFloat (sp : ℚ) / toFloat (n : ℚ)) ≥ toFloat (1 / 5)
      ↔ (sp : ℚ) / (n : ℚ) ≥ 1 / 5 := by
  rw [toFloat_natCast sp (lt_of_le_of_lt hle hn), toFloat_natCast n hn]
  constructor
  · intro h
    by_contra hlt
    push_neg at hlt
    rcases Nat.eq_zero_or_pos sp with h0 | hsp
    · rw [h0] at h
      simp only [Nat.cast_zero, zero_div, toFloat_zero, toFloat_fifth] at h
      norm_num at h
    · have hnpos : 0 < n := lt_of_lt_of_le hsp hle
      have hnq : (0 : ℚ) < n := by exact_mod_cast hnpos
      have hspq : (0 : ℚ) < sp := by exact_mod_cast hsp
      rw [div_lt_iff₀ hnq] at hlt
      have h5 : 5 * sp < n := by
        have : (5 : ℚ) * sp < n := by linarith
        exact_mod_cast this
      have h5' : (5 : ℚ) * sp + 1 ≤ n := by exact_mod_cast h5
      have hn24 : (n : ℚ) ≤ 2 ^ 24 := by exact_mod_cast hn.le
      have hbound : (sp : ℚ) / n ≤ 1 / 5 - 1 / (5 * 2 ^ 24) := by
        rw [div_le_iff₀ hnq]
        have : (1 / 5 - 1 / (5 * 2 ^ 24) : ℚ) * n = n / 5 - n / (5 * 2 ^ 24) := by ring
        rw [this]
        have : (n : ℚ) / (5 * 2 ^ 24) ≤ 1 / 5 := by
          rw [div_le_iff₀ (by norm_num)]
          linarith
        linarith
      have := toFloat_mono _ _ (div_pos hspq hnq) hbound
      rw [toFloat_below_fifth] at this
      rw [toFloat_fifth] at h
      have hlt2 : (13421772 : ℚ) / 2 ^ 26 < 13421773 / 2 ^ 26 := by norm_num
      linarith
  · intro h
    exact toFloat_mono _ _ (by norm_num) h


/-! ## The field scan -/

theorem assignField_posX (acc : FieldPtrs × List String) (f : PCLPointField) :
    (assignField acc f).1.posX = if f.name = "x" then some f else acc.1.posX := by
  unfold assignField
  by_cases h : f.name = "x"
  · simp [h]
  · simp only [h, if_false]
    repeat' split
    all_goals rfl

theorem scan_posX_none (fields : List PCLPointField) (acc : FieldPtrs × List String) :
    (fields.foldl assignField acc).1.posX = none ↔
      acc.1.posX = none ∧ ∀ f ∈ fields, f.name ≠ "x" := by
  induction fields generalizing acc with
  | nil => simp
  | cons f fs ih =>
    rw [List.foldl_cons, ih, assignField_posX]
    by_cases h : f.name = "x" <;> simp [h]

theorem assignField_posY (acc : FieldPtrs × List String) (f : PCLPointField) :
    (assignField acc f).1.posY = if f.name = "y" then some f else acc.1.posY := by
  unfold assignField
  by_cases h : f.name = "y"
  · simp [h]
  · simp only [h, if_false]
    repeat' split
    all_goals rfl

theorem scan_posY_none (fields : List PCLPointField) (acc : FieldPtrs × List String) :
    (fields.foldl assignField acc).1.posY = none ↔
      acc.1.posY = none ∧ ∀ f ∈ fields, f.name ≠ "y" := by
  induction fields generalizing acc with
  | nil => simp
  | cons f fs ih =>
    rw [List.foldl_cons, ih, assignField_posY]
    by_cases h : f.name = "y" <;> simp [h]

theorem assignField_posZ (acc : FieldPtrs × List String) (f : PCLPointField) :
    (assignField acc f).1.posZ = if f.name = "z" then some f else acc.1.posZ := by
  unfold assignField
  by_cases h : f.name = "z"
  · simp [h]
  · simp only [h, if_false]
    repeat' split
    all_goals rfl

theorem scan_posZ_none (fields : List PCLPointField) (acc : FieldPtrs × List String) :
    (fields.foldl assignField acc).1.posZ = none ↔
      acc.1.posZ = none ∧ ∀ f ∈ fields, f.name ≠ "z" := by
  induction fields generalizing acc with
  | nil => simp
  | cons f fs ih =>
    rw [List.foldl_cons, ih, assignField_posZ]
    by_cases h : f.name = "z" <;> simp [h]

theorem assignField_normalX (acc : FieldPtrs × List String) (f : PCLPointField) :
    (assignField acc f).1.normalX =
      if f.name = "normal_x" ∨ f.name = "nx" then some f else acc.1.normalX := by
  unfold assignField
  by_cases h : f.name = "normal_x"
  · simp [h]
  · by_cases h2 : f.name = "nx"
    · simp [h2]
    · simp only [h, h2, if_false, or_self]
      repeat' split
      all_goals rfl

theorem scan_normalX_none (fields : List PCLPointField) (acc : FieldPtrs × List String) :
    (fields.foldl assignField acc).1.normalX = none ↔
      acc.1.normalX = none ∧ ∀ f ∈ fields, f.name ≠ "normal_x" ∧ f.name ≠ "nx" := by
  induction fields generalizing acc with
  | nil => simp
  | cons f fs ih =>
    rw [List.foldl_cons, ih, assignField_normalX]
    by_cases h : f.name = "normal_x"
    · simp [h]
    · by_cases h2 : f.name = "nx" <;> simp [h, h2]

theorem assignField_normalY (acc : FieldPtrs × List String) (f : PCLPointField) :
    (assignField acc f).1.normalY =
      if f.name = "normal_y" ∨ f.name = "ny" then some f else acc.1.normalY := by
  unfold assignField
  by_cases h : f.name = "normal_y"
  · simp [h]
  · by_cases h2 : f.name = "ny"
    · simp [h2]
    · simp only [h, h2, if_false, or_self]
      repeat' split
      all_goals rfl

theorem scan_normalY_none (fields : List PCLPointField) (acc : FieldPtrs × List String) :
    (fields.foldl assignField acc).1.normalY = none ↔
      acc.1.normalY = none ∧ ∀ f ∈ fields, f.name ≠ "normal_y" ∧ f.name ≠ "ny" := by
  induction fields generalizing acc with
  | nil => simp
  | cons f fs ih =>
    rw [List.foldl_cons, ih, assignField_normalY]
    by_cases h : f.name = "normal_y"
    · simp [h]
    · by_cases h2 : f.name = "ny" <;> simp [h, h2]

theorem assignField_normalZ (acc : FieldPtrs × List String) (f : PCLPointField) :
    (assignField acc f).1.normalZ =
      if f.name = "normal_z" ∨ f.name = "nz" then some f else acc.1.normalZ := by
  unfold assignField
  by_cases h : f.name = "normal_z"
  · simp [h]
  · by_cases h2 : f.name = "nz"
    · simp [h2]
    · simp only [h, h2, if_false, or_self]
      repeat' split
      all_goals rfl

theorem scan_normalZ_none (fields : List PCLPointField) (acc : FieldPtrs × List String) :
    (fields.foldl assignField acc).1.normalZ = none ↔
      acc.1.normalZ = none ∧ ∀ f ∈ fields, f.name ≠ "normal_z" ∧ f.name ≠ "nz" := by
  induction fields generalizing acc with
  | nil => simp
  | cons f fs ih =>
    rw [List.foldl_cons, ih, assignField_normalZ]
    by_cases h : f.name = "normal_z"
    · simp [h]
    · by_cases h2 : f.name = "nz" <;> simp [h, h2]

theorem assignField_classification (acc : FieldPtrs × List String) (f : PCLPointField) :
    (assignField acc f).1.classification = if f.name = "classification" then some f else acc.1.classification := by
  unfold assignField
  by_cases h : f.name = "classification"
  · simp [h]
  · simp only [h, if_false]
    repeat' split
    all_goals rfl

theorem scan_classification_none (fields : List PCLPointField) (acc : FieldPtrs × List String) :
    (fields.foldl assignField acc).1.classification = none ↔
      acc.1.classification = none ∧ ∀ f ∈ fields, f.name ≠ "classification" := by
  induction fields generalizing acc with
  | nil => simp
  | cons f fs ih =>
    rw [List.foldl_cons, ih, assignField_classification]
    by_cases h : f.name = "classification" <;> simp [h]

theorem assignField_hag (acc : FieldPtrs × List String) (f : PCLPointField) :
    (assignField acc f).1.hag = if f.name = "heightaboveground" then some f else acc.1.hag := by
  unfold assignField
  by_cases h : f.name = "heightaboveground"
  · simp [h]
  · simp only [h, if_false]
    repeat' split
    all_goals rfl

theorem scan_hag_none (fields : List PCLPointField) (acc : FieldPtrs × List String) :
    (fields.foldl assignField acc).1.hag = none ↔
      acc.1.hag = none ∧ ∀ f ∈ fields, f.name ≠ "heightaboveground" := by
  induction fields generalizing acc with
  | nil => simp
  | cons f fs ih =>
    rw [List.foldl_cons, ih, assignField_hag]
    by_cases h : f.name = "heightaboveground" <;> simp [h]

/-! ## The loading loop -/

theorem nextClass_nextClass (classification : Option PCLPointField) (pointClass : Nat)
    (r r2 : RawPoint) :
    nextClass classification (nextClass classification pointClass r) r2 =
      nextClass classification pointClass r2 := by
  cases classification <;> rfl

theorem nextHag_nextHag (hag : Option PCLPointField) (pointHag : ℚ) (r r2 : RawPoint) :
    nextHag hag (nextHag hag pointHag r) r2 = nextHag hag pointHag r2 := by
  cases hag with
  | none => rfl
  | some h =>
    unfold nextHag
    by_cases h32 : h.datatype = Datatype.FLOAT32
    · simp [h32]
    · by_cases h64 : h.datatype = Datatype.FLOAT64 <;> simp [h32, h64]

theorem loadPointStep_pointClass (posX posY posZ normalX normalY normalZ : PCLPointField)
    (classification hag : Option PCLPointField) (st : LoadLoop) (r : RawPoint) :
    (loadPointStep posX posY posZ normalX normalY normalZ classification hag st r).pointClass
      = nextClass classification st.pointClass r := by
  unfold loadPointStep
  simp only
  split_ifs <;> rfl

theorem loadPointStep_pointHag (posX posY posZ normalX normalY normalZ : PCLPointField)
    (classification hag : Option PCLPointField) (st : LoadLoop) (r : RawPoint) :
    (loadPointStep posX posY posZ normalX normalY normalZ classification hag st r).pointHag
      = nextHag hag st.pointHag r := by
  unfold loadPointStep
  simp only
  split_ifs <;> rfl

theorem loadPointStep_sets (posX posY posZ normalX normalY normalZ : PCLPointField)
    (classification hag : Option PCLPointField) (st : LoadLoop) (r : RawPoint) :
    (loadPointStep posX posY posZ normalX normalY normalZ classification hag st r).groundPoints
        = st.groundPoints ++
          (if toNonground classification hag st.pointClass st.pointHag r then []
           else [readPoint posX posY posZ normalX normalY normalZ r])
    ∧ (loadPointStep posX posY posZ normalX normalY normalZ classification hag st
        r).nongroundPoints
        = st.nongroundPoints ++
          (if toNonground classification hag st.pointClass st.pointHag r then
            [readPoint posX posY posZ normalX normalY normalZ r]
           else []) := by
  unfold loadPointStep toNonground
  simp only
  by_cases hc : nextClass classification st.pointClass r = CLASS_GROUND
  · simp [hc]
  · by_cases hh : nextHag hag st.pointHag r ≥ HAG_THRESHOLD <;> simp [hc, hh]

theorem toNonground_step (posX posY posZ normalX normalY normalZ : PCLPointField)
    (classification hag : Option PCLPointField) (st : LoadLoop) (r r2 : RawPoint) :
    toNonground classification hag
        (loadPointStep posX posY posZ normalX normalY normalZ classification hag st
          r).pointClass
        (loadPointStep posX posY posZ normalX normalY normalZ classification hag st
          r).pointHag r2
      = toNonground classification hag st.pointClass st.pointHag r2 := by
  rw [loadPointStep_pointClass, loadPointStep_pointHag]
  unfold toNonground
  rw [nextClass_nextClass, nextHag_nextHag]

theorem foldl_loadPointStep (posX posY posZ normalX normalY normalZ : PCLPointField)
    (classification hag : Option PCLPointField) (points : List RawPoint) (st : LoadLoop) :
    (points.foldl (loadPointStep posX posY posZ normalX normalY normalZ classification hag)
        st).groundPoints
      = st.groundPoints ++
        (points.filter fun r =>
          !toNonground classification hag st.pointClass st.pointHag r).map
          (readPoint posX posY posZ normalX normalY normalZ)
    ∧ (points.foldl (loadPointStep posX posY posZ normalX normalY normalZ classification hag)
        st).nongroundPoints
      = st.nongroundPoints ++
        (points.filter fun r =>
          toNonground classification hag st.pointClass st.pointHag r).map
          (readPoint posX posY posZ normalX normalY normalZ) := by
  induction points generalizing st with
  | nil => simp
  | cons r rs ih =>
    rw [List.foldl_cons]
    obtain ⟨hg, hn⟩ := ih
      (loadPointStep posX posY posZ normalX normalY normalZ classification hag st r)
    obtain ⟨sg, sn⟩ :=
      loadPointStep_sets posX posY posZ normalX normalY normalZ classification hag st r
    rw [hg, hn, sg, sn]
    simp only [toNonground_step]
    by_cases h : toNonground classification hag st.pointClass st.pointHag r <;>
      simp [List.filter_cons, h]

/-! ## A successful loadPointCloud -/

theorem classifyPoints_sets (posX posY posZ normalX normalY normalZ c : PCLPointField)
    (hag : Option PCLPointField) (points : List RawPoint) (self : Odm25dMeshing) :
    (classifyPoints posX posY posZ normalX normalY normalZ (some c) hag points self).1
        = Outcome.ok
    ∧ (classifyPoints posX posY posZ normalX normalY normalZ (some c) hag points
        self).2.groundPoints
        = self.groundPoints ++
          (points.filter fun r =>
            !toNonground (usableClassification c) hag 2 FLT_MIN r).map
            (readPoint posX posY posZ normalX normalY normalZ)
    ∧ (classifyPoints posX posY posZ normalX normalY normalZ (some c) hag points
        self).2.nongroundPoints
        = self.nongroundPoints ++
          (points.filter fun r =>
            toNonground (usableClassification c) hag 2 FLT_MIN r).map
            (readPoint posX posY posZ normalX normalY normalZ) := by
  refine ⟨rfl, ?_, ?_⟩
  · simp only [classifyPoints, Odm25dMeshing.logMsg, loadLoop]
    rw [(foldl_loadPointStep _ _ _ _ _ _ _ _ _ _).1]
    unfold usableClassification
    split_ifs <;> rfl
  · simp only [classifyPoints, Odm25dMeshing.logMsg, loadLoop]
    rw [(foldl_loadPointStep _ _ _ _ _ _ _ _ _ _).2]
    unfold usableClassification
    split_ifs <;> rfl

theorem loadPointCloud_ok (blob : PCLPointCloud2) (self : Odm25dMeshing)
    (h : (loadPointCloud (some blob) self).1 = Outcome.ok) :
    ∃ posX posY posZ normalX normalY normalZ c,
      (scanFields blob.fields).1.posX = some posX
      ∧ (scanFields blob.fields).1.posY = some posY
      ∧ (scanFields blob.fields).1.posZ = some posZ
      ∧ (scanFields blob.fields).1.normalX = some normalX
      ∧ (scanFields blob.fields).1.normalY = some normalY
      ∧ (scanFields blob.fields).1.normalZ = some normalZ
      ∧ (scanFields blob.fields).1.classification = some c
      ∧ isFloatType posX.datatype ∧ isFloatType normalX.datatype
      ∧ (loadPointCloud (some blob) self).2.groundPoints
          = self.groundPoints ++
            (blob.points.filter fun r =>
              !toNonground (usableClassification c) (scanFields blob.fields).1.hag 2
                FLT_MIN r).map
              (readPoint posX posY posZ normalX normalY normalZ)
      ∧ (loadPointCloud (some blob) self).2.nongroundPoints
          = self.nongroundPoints ++
            (blob.points.filter fun r =>
              toNonground (usableClassification c) (scanFields blob.fields).1.hag 2
                FLT_MIN r).map
              (readPoint posX posY posZ normalX normalY normalZ) := by
  unfold loadPointCloud at h ⊢
  simp only at h ⊢
  split at h
  · rename_i posX posY posZ hx hy hz
    split at h
    · rename_i normalX normalY normalZ hnx hny hnz
      split_ifs at h with h1 h2
      cases hc : (scanFields blob.fields).1.classification with
      | none => rw [hc] at h; simp [classifyPoints] at h
      | some c =>
        refine ⟨posX, posY, posZ, normalX, normalY, normalZ, c, hx, hy, hz, hnx, hny, hnz,
          rfl, ?_, ?_, ?_, ?_⟩
        · unfold isFloatType; by_contra hcon; push_neg at hcon; exact h1 hcon
        · unfold isFloatType; by_contra hcon; push_neg at hcon; exact h2 hcon
        · simp only [hx, hy, hz, hnx, hny, hnz, h1, h2, if_false]
          rw [(classifyPoints_sets _ _ _ _ _ _ _ _ _ _).2.1]
          rfl
        · simp only [hx, hy, hz, hnx, hny, hnz, h1, h2, if_false]
          rw [(classifyPoints_sets _ _ _ _ _ _ _ _ _ _).2.2]
          rfl
    · simp at h
  · simp at h

theorem loadedPoint_eq (fields : List PCLPointField) (point : RawPoint)
    (posX posY posZ normalX normalY normalZ : PCLPointField)
    (hx : (scanFields fields).1.posX = some posX)
    (hy : (scanFields fields).1.posY = some posY)
    (hz : (scanFields fields).1.posZ = some posZ)
    (hnx : (scanFields fields).1.normalX = some normalX)
    (hny : (scanFields fields).1.normalY = some normalY)
    (hnz : (scanFields fields).1.normalZ = some normalZ) :
    loadedPoint fields point = some (readPoint posX posY posZ normalX normalY normalZ point) := by
  unfold loadedPoint
  rw [hx, hy, hz, hnx, hny, hnz]

theorem nextHag_eq (fields : List PCLPointField) (point : RawPoint) (v : ℚ)
    (hv : storedHag fields point = some v) (pointHag : ℚ) :
    nextHag (scanFields fields).1.hag pointHag point = v := by
  unfold storedHag at hv
  unfold nextHag
  cases hh : (scanFields fields).1.hag with
  | none => rw [hh] at hv; simp at hv
  | some h =>
    rw [hh] at hv
    simp only at hv ⊢
    by_cases h64 : h.datatype = Datatype.FLOAT64
    · have h32 : h.datatype ≠ Datatype.FLOAT32 := by rw [h64]; decide
      simp only [h64, if_true, Option.some.injEq] at hv
      simp [h64, hv]
    · by_cases h32 : h.datatype = Datatype.FLOAT32
      · rw [if_neg h64, if_pos h32] at hv
        simp only [Option.some.injEq] at hv
        simp [h32, hv]
      · simp [h64, h32] at hv

theorem FLT_MIN_lt_threshold : FLT_MIN < HAG_THRESHOLD := by
  unfold FLT_MIN HAG_THRESHOLD
  rw [div_lt_one (by positivity)]
  exact_mod_cast Nat.one_lt_two_pow (by norm_num)

theorem toNonground_eq_lands (fields : List PCLPointField) (c : PCLPointField)
    (hc : (scanFields fields).1.classification = some c) (point : RawPoint) :
    toNonground (usableClassification c) (scanFields fields).1.hag 2 FLT_MIN point
      = landsInNongroundStored fields point := by
  unfold landsInNongroundStored classificationLabel
  rw [hc]
  by_cases hu : c.datatype = Datatype.UINT8
  · have huc : usableClassification c = some c := by simp [usableClassification, hu]
    rw [huc]
    simp only [hu, if_true]
    cases hv : storedHag fields point with
    | some v =>
      unfold toNonground
      rw [nextHag_eq fields point v hv]
      simp [nextClass, CLASS_GROUND, HAG_THRESHOLD]
    | none =>
      simp only
      have hkeep : nextHag (scanFields fields).1.hag FLT_MIN point = FLT_MIN := by
        unfold storedHag at hv
        unfold nextHag
        cases hh : (scanFields fields).1.hag with
        | none => rfl
        | some h =>
          rw [hh] at hv
          simp only at hv ⊢
          by_cases h64 : h.datatype = Datatype.FLOAT64
          · simp [h64] at hv
          · by_cases h32 : h.datatype = Datatype.FLOAT32
            · simp [h64, h32] at hv
            · simp [h64, h32]
      unfold toNonground
      rw [hkeep]
      have h := FLT_MIN_lt_threshold
      simp only [decide_eq_false_iff_not, not_and, not_le, ge_iff_le]
      intro _
      exact h
  · have huc : usableClassification c = none := by simp [usableClassification, hu]
    rw [huc]
    simp only [hu, if_false]
    simp [toNonground, nextClass, CLASS_GROUND]

theorem load_partition (blob : PCLPointCloud2) (self : Odm25dMeshing)
    (hload : (loadPointCloud (some blob) self).1 = Outcome.ok) :
    (loadPointCloud (some blob) self).2.groundPoints
        = self.groundPoints ++
          (blob.points.filter fun r => !landsInNongroundStored blob.fields r).filterMap
            (loadedPoint blob.fields)
    ∧ (loadPointCloud (some blob) self).2.nongroundPoints
        = self.nongroundPoints ++
          (blob.points.filter fun r => landsInNongroundStored blob.fields r).filterMap
            (loadedPoint blob.fields)
    ∧ ∀ point, (loadedPoint blob.fields point).isSome = true := by
  obtain ⟨posX, posY, posZ, normalX, normalY, normalZ, c, hx, hy, hz, hnx, hny, hnz, hc,
    _, _, hg, hn⟩ := loadPointCloud_ok blob self hload
  have hlp : loadedPoint blob.fields
      = some ∘ readPoint posX posY posZ normalX normalY normalZ := by
    funext r
    exact loadedPoint_eq _ _ _ _ _ _ _ _ hx hy hz hnx hny hnz
  have hfun : (fun r => toNonground (usableClassification c) (scanFields blob.fields).1.hag 2
      FLT_MIN r) = fun r => landsInNongroundStored blob.fields r := by
    funext r
    exact toNonground_eq_lands blob.fields c hc r
  have hfun2 : (fun r => !toNonground (usableClassification c) (scanFields blob.fields).1.hag 2
      FLT_MIN r) = fun r => !landsInNongroundStored blob.fields r := by
    funext r
    rw [toNonground_eq_lands blob.fields c hc r]
  refine ⟨?_, ?_, ?_⟩
  · rw [hg, hfun2, hlp, List.filterMap_eq_map]
  · rw [hn, hfun, hlp, List.filterMap_eq_map]
  · intro point
    rw [hlp]
    rfl

theorem lands_false_of_no_hag (fields : List PCLPointField) (point : RawPoint)
    (h : (scanFields fields).1.hag = none) : landsInNongroundStored fields point = false := by
  unfold landsInNongroundStored storedHag
  rw [h]
  cases classificationLabel fields point <;> rfl

theorem load_without_hag (blob : PCLPointCloud2) (self : Odm25dMeshing)
    (hnohag : ∀ f ∈ blob.fields, f.name ≠ "heightaboveground")
    (hload : (loadPointCloud (some blob) self).1 = Outcome.ok) :
    (loadPointCloud (some blob) self).2.groundPoints
        = self.groundPoints ++ blob.points.filterMap (loadedPoint blob.fields)
    ∧ (loadPointCloud (some blob) self).2.nongroundPoints = self.nongroundPoints := by
  have hnone : (scanFields blob.fields).1.hag = none :=
    (scan_hag_none blob.fields (FieldPtrs.null, [])).mpr ⟨rfl, hnohag⟩
  obtain ⟨hg, hn, _⟩ := load_partition blob self hload
  have hf : (fun r => landsInNongroundStored blob.fields r) = fun _ => false := by
    funext r
    exact lands_false_of_no_hag blob.fields r hnone
  have hf2 : (fun r => !landsInNongroundStored blob.fields r) = fun _ => true := by
    funext r
    rw [lands_false_of_no_hag blob.fields r hnone]
    rfl
  rw [hf2] at hg
  rw [hf] at hn
  simp only [List.filter_true] at hg
  simp only [List.filter_false, List.filterMap_nil, List.append_nil] at hn
  exact ⟨hg, hn⟩

/-! ## How loadPointCloud fails -/

theorem load_missing_position (blob : PCLPointCloud2) (self : Odm25dMeshing)
    (h : (scanFields blob.fields).1.posX = none ∨ (scanFields blob.fields).1.posY = none
      ∨ (scanFields blob.fields).1.posZ = none) :
    (loadPointCloud (some blob) self).1
        = Outcome.threw "Position attributes (x,y,z) missing from input"
    ∧ (loadPointCloud (some blob) self).2.groundPoints = self.groundPoints
    ∧ (loadPointCloud (some blob) self).2.nongroundPoints = self.nongroundPoints := by
  unfold loadPointCloud
  simp only
  split
  · rename_i hx hy hz
    rw [hx, hy, hz] at h
    simp at h
  · exact ⟨rfl, rfl, rfl⟩

theorem load_missing_normal (blob : PCLPointCloud2) (self : Odm25dMeshing)
    (posX posY posZ : PCLPointField)
    (hx : (scanFields blob.fields).1.posX = some posX)
    (hy : (scanFields blob.fields).1.posY = some posY)
    (hz : (scanFields blob.fields).1.posZ = some posZ)
    (h : (scanFields blob.fields).1.normalX = none
      ∨ (scanFields blob.fields).1.normalY = none
      ∨ (scanFields blob.fields).1.normalZ = none) :
    (loadPointCloud (some blob) self).1
        = Outcome.threw "Normal attributes (normal_x,normal_y,normal_z) missing from input"
    ∧ (loadPointCloud (some blob) self).2.groundPoints = self.groundPoints
    ∧ (loadPointCloud (some blob) self).2.nongroundPoints = self.nongroundPoints := by
  unfold loadPointCloud
  simp only [hx, hy, hz]
  split
  · rename_i hnx hny hnz
    rw [hnx, hny, hnz] at h
    simp at h
  · exact ⟨rfl, rfl, rfl⟩

theorem load_present (blob : PCLPointCloud2) (self : Odm25dMeshing)
    (posX posY posZ normalX normalY normalZ : PCLPointField)
    (hx : (scanFields blob.fields).1.posX = some posX)
    (hy : (scanFields blob.fields).1.posY = some posY)
    (hz : (scanFields blob.fields).1.posZ = some posZ)
    (hnx : (scanFields blob.fields).1.normalX = some normalX)
    (hny : (scanFields blob.fields).1.normalY = some normalY)
    (hnz : (scanFields blob.fields).1.normalZ = some normalZ) :
    loadPointCloud (some blob) self =
      if posX.datatype ≠ Datatype.FLOAT32 ∧ posX.datatype ≠ Datatype.FLOAT64 then
        (Outcome.threw "Only float and float64 types are supported for position information",
          ((({ ((self.logMsg "Loading point cloud... ").logMsg "OK\n").logMsg
                "Scanning fields... " with
              log := (((self.logMsg "Loading point cloud... ").logMsg "OK\n").logMsg
                "Scanning fields... ").log ++ (scanFields blob.fields).2 } :
            Odm25dMeshing)).logMsg "OK\n"))
      else if normalX.datatype ≠ Datatype.FLOAT32 ∧ normalX.datatype ≠ Datatype.FLOAT64 then
        (Outcome.threw "Only float and float64 types are supported for normal information",
          ((({ ((self.logMsg "Loading point cloud... ").logMsg "OK\n").logMsg
                "Scanning fields... " with
              log := (((self.logMsg "Loading point cloud... ").logMsg "OK\n").logMsg
                "Scanning fields... ").log ++ (scanFields blob.fields).2 } :
            Odm25dMeshing)).logMsg "OK\n"))
      else
        classifyPoints posX posY posZ normalX normalY normalZ
          (scanFields blob.fields).1.classification (scanFields blob.fields).1.hag
          blob.points
          ((({ ((self.logMsg "Loading point cloud... ").logMsg "OK\n").logMsg
                "Scanning fields... " with
              log := (((self.logMsg "Loading point cloud... ").logMsg "OK\n").logMsg
                "Scanning fields... ").log ++ (scanFields blob.fields).2 } :
            Odm25dMeshing)).logMsg "OK\n") := by
  unfold loadPointCloud
  simp only [hx, hy, hz, hnx, hny, hnz]

theorem load_bad_type (blob : PCLPointCloud2) (self : Odm25dMeshing)
    (posX posY posZ normalX normalY normalZ : PCLPointField)
    (hx : (scanFields blob.fields).1.posX = some posX)
    (hy : (scanFields blob.fields).1.posY = some posY)
    (hz : (scanFields blob.fields).1.posZ = some posZ)
    (hnx : (scanFields blob.fields).1.normalX = some normalX)
    (hny : (scanFields blob.fields).1.normalY = some normalY)
    (hnz : (scanFields blob.fields).1.normalZ = some normalZ)
    (h : ¬ isFloatType posX.datatype ∨ ¬ isFloatType normalX.datatype) :
    ((loadPointCloud (some blob) self).1
        = Outcome.threw "Only float and float64 types are supported for position information"
      ∨ (loadPointCloud (some blob) self).1
        = Outcome.threw "Only float and float64 types are supported for normal information")
    ∧ (loadPointCloud (some blob) self).2.groundPoints = self.groundPoints
    ∧ (loadPointCloud (some blob) self).2.nongroundPoints = self.nongroundPoints := by
  rw [load_present blob self posX posY posZ normalX normalY normalZ hx hy hz hnx hny hnz]
  unfold isFloatType at h
  by_cases h1 : posX.datatype ≠ Datatype.FLOAT32 ∧ posX.datatype ≠ Datatype.FLOAT64
  · rw [if_pos h1]
    exact ⟨Or.inl rfl, rfl, rfl⟩
  · rw [if_neg h1]
    have h2 : normalX.datatype ≠ Datatype.FLOAT32 ∧ normalX.datatype ≠ Datatype.FLOAT64 := by
      rcases h with h | h
      · exact absurd (by push_neg at h; exact h) h1
      · push_neg at h; exact h
    rw [if_pos h2]
    exact ⟨Or.inr rfl, rfl, rfl⟩

theorem load_no_classification (blob : PCLPointCloud2) (self : Odm25dMeshing)
    (posX posY posZ normalX normalY normalZ : PCLPointField)
    (hx : (scanFields blob.fields).1.posX = some posX)
    (hy : (scanFields blob.fields).1.posY = some posY)
    (hz : (scanFields blob.fields).1.posZ = some posZ)
    (hnx : (scanFields blob.fields).1.normalX = some normalX)
    (hny : (scanFields blob.fields).1.normalY = some normalY)
    (hnz : (scanFields blob.fields).1.normalZ = some normalZ)
    (hfx : isFloatType posX.datatype) (hfn : isFloatType normalX.datatype)
    (hc : (scanFields blob.fields).1.classification = none) :
    (loadPointCloud (some blob) self).1
        = Outcome.undefined "null pointer read: classification->datatype"
    ∧ (loadPointCloud (some blob) self).2.groundPoints = self.groundPoints
    ∧ (loadPointCloud (some blob) self).2.nongroundPoints = self.nongroundPoints := by
  rw [load_present blob self posX posY posZ normalX normalY normalZ hx hy hz hnx hny hnz]
  unfold isFloatType at hfx hfn
  have h1 : ¬ (posX.datatype ≠ Datatype.FLOAT32 ∧ posX.datatype ≠ Datatype.FLOAT64) := by
    push_neg; intro h; rcases hfx with h' | h'
    · exact absurd h' h
    · exact h'
  have h2 : ¬ (normalX.datatype ≠ Datatype.FLOAT32 ∧ normalX.datatype ≠ Datatype.FLOAT64) := by
    push_neg; intro h; rcases hfn with h' | h'
    · exact absurd h' h
    · exact h'
  rw [if_neg h1, if_neg h2, hc]
  exact ⟨rfl, rfl, rfl⟩

/-- With the six required fields found, `posX` and `normalX` of float type and a
classification field, `loadPointCloud` ends normally. -/
theorem load_succeeds (blob : PCLPointCloud2) (self : Odm25dMeshing)
    (posX posY posZ normalX normalY normalZ c : PCLPointField)
    (hx : (scanFields blob.fields).1.posX = some posX)
    (hy : (scanFields blob.fields).1.posY = some posY)
    (hz : (scanFields blob.fields).1.posZ = some posZ)
    (hnx : (scanFields blob.fields).1.normalX = some normalX)
    (hny : (scanFields blob.fields).1.normalY = some normalY)
    (hnz : (scanFields blob.fields).1.normalZ = some normalZ)
    (hfx : isFloatType posX.datatype) (hfn : isFloatType normalX.datatype)
    (hc : (scanFields blob.fields).1.classification = some c) :
    (loadPointCloud (some blob) self).1 = Outcome.ok := by
  rw [load_present blob self posX posY posZ normalX normalY normalZ hx hy hz hnx hny hnz]
  unfold isFloatType at hfx hfn
  have h1 : ¬ (posX.datatype ≠ Datatype.FLOAT32 ∧ posX.datatype ≠ Datatype.FLOAT64) := by
    push_neg; intro h; rcases hfx with h2 | h2
    · exact absurd h2 h
    · exact h2
  have h2 : ¬ (normalX.datatype ≠ Datatype.FLOAT32 ∧ normalX.datatype ≠ Datatype.FLOAT64) := by
    push_neg; intro h; rcases hfn with h3 | h3
    · exact absurd h3 h
    · exact h3
  rw [if_neg h1, if_neg h2, hc]
  exact (classifyPoints_sets _ _ _ _ _ _ _ _ _ _).1

theorem load_without_classification (blob : PCLPointCloud2) (self : Odm25dMeshing)
    (hnocls : ∀ f ∈ blob.fields, f.name ≠ "classification") :
    ((∃ what, (loadPointCloud (some blob) self).1 = Outcome.threw what ∧ what ∈ schemaMessages)
      ∨ (loadPointCloud (some blob) self).1
          = Outcome.undefined "null pointer read: classification->datatype")
    ∧ (loadPointCloud (some blob) self).2.groundPoints = self.groundPoints
    ∧ (loadPointCloud (some blob) self).2.nongroundPoints = self.nongroundPoints := by
  have hnone : (scanFields blob.fields).1.classification = none :=
    (scan_classification_none blob.fields (FieldPtrs.null, [])).mpr ⟨rfl, hnocls⟩
  cases hx : (scanFields blob.fields).1.posX with
  | none =>
    obtain ⟨h1, h2, h3⟩ := load_missing_position blob self (Or.inl hx)
    exact ⟨Or.inl ⟨_, h1, by simp [schemaMessages]⟩, h2, h3⟩
  | some posX =>
  cases hy : (scanFields blob.fields).1.posY with
  | none =>
    obtain ⟨h1, h2, h3⟩ := load_missing_position blob self (Or.inr (Or.inl hy))
    exact ⟨Or.inl ⟨_, h1, by simp [schemaMessages]⟩, h2, h3⟩
  | some posY =>
  cases hz : (scanFields blob.fields).1.posZ with
  | none =>
    obtain ⟨h1, h2, h3⟩ := load_missing_position blob self (Or.inr (Or.inr hz))
    exact ⟨Or.inl ⟨_, h1, by simp [schemaMessages]⟩, h2, h3⟩
  | some posZ =>
  cases hnx : (scanFields blob.fields).1.normalX with
  | none =>
    obtain ⟨h1, h2, h3⟩ := load_missing_normal blob self posX posY posZ hx hy hz (Or.inl hnx)
    exact ⟨Or.inl ⟨_, h1, by simp [schemaMessages]⟩, h2, h3⟩
  | some normalX =>
  cases hny : (scanFields blob.fields).1.normalY with
  | none =>
    obtain ⟨h1, h2, h3⟩ := load_missing_normal blob self posX posY posZ hx hy hz
      (Or.inr (Or.inl hny))
    exact ⟨Or.inl ⟨_, h1, by simp [schemaMessages]⟩, h2, h3⟩
  | some normalY =>
  cases hnz : (scanFields blob.fields).1.normalZ with
  | none =>
    obtain ⟨h1, h2, h3⟩ := load_missing_normal blob self posX posY posZ hx hy hz
      (Or.inr (Or.inr hnz))
    exact ⟨Or.inl ⟨_, h1, by simp [schemaMessages]⟩, h2, h3⟩
  | some normalZ =>
  by_cases hf : isFloatType posX.datatype ∧ isFloatType normalX.datatype
  · obtain ⟨h1, h2, h3⟩ := load_no_classification blob self posX posY posZ normalX normalY
      normalZ hx hy hz hnx hny hnz hf.1 hf.2 hnone
    exact ⟨Or.inr h1, h2, h3⟩
  · have hf2 : ¬ isFloatType posX.datatype ∨ ¬ isFloatType normalX.datatype := by
      by_contra hcon
      push_neg at hcon
      exact hf hcon
    obtain ⟨h1, h2, h3⟩ := load_bad_type blob self posX posY posZ normalX normalY normalZ
      hx hy hz hnx hny hnz hf2
    rcases h1 with h1 | h1
    · exact ⟨Or.inl ⟨_, h1, by simp [schemaMessages]⟩, h2, h3⟩
    · exact ⟨Or.inl ⟨_, h1, by simp [schemaMessages]⟩, h2, h3⟩

/-! ## What the input checks enforce -/

/-- What the input checks enforce. `loadPointCloud` throws one of its four input
check messages, with both point sets untouched, whenever one of the six
required fields is absent, or the `x` field or the `normal_x` field found by the
scan has a datatype other than 32-bit or 64-bit float. -/
theorem load_schema_error (blob : PCLPointCloud2) (self : Odm25dMeshing)
    (h : (∀ f ∈ blob.fields, f.name ≠ "x") ∨ (∀ f ∈ blob.fields, f.name ≠ "y")
      ∨ (∀ f ∈ blob.fields, f.name ≠ "z")
      ∨ (∀ f ∈ blob.fields, f.name ≠ "normal_x" ∧ f.name ≠ "nx")
      ∨ (∀ f ∈ blob.fields, f.name ≠ "normal_y" ∧ f.name ≠ "ny")
      ∨ (∀ f ∈ blob.fields, f.name ≠ "normal_z" ∧ f.name ≠ "nz")
      ∨ (∃ f, (scanFields blob.fields).1.posX = some f ∧ ¬ isFloatType f.datatype)
      ∨ (∃ f, (scanFields blob.fields).1.normalX = some f ∧ ¬ isFloatType f.datatype)) :
    ∃ what, (loadPointCloud (some blob) self).1 = Outcome.threw what
      ∧ what ∈ schemaMessages
      ∧ (loadPointCloud (some blob) self).2.groundPoints = self.groundPoints
      ∧ (loadPointCloud (some blob) self).2.nongroundPoints = self.nongroundPoints := by
  cases hx : (scanFields blob.fields).1.posX with
  | none =>
    obtain ⟨h1, h2, h3⟩ := load_missing_position blob self (Or.inl hx)
    exact ⟨_, h1, by simp [schemaMessages], h2, h3⟩
  | some posX =>
  cases hy : (scanFields blob.fields).1.posY with
  | none =>
    obtain ⟨h1, h2, h3⟩ := load_missing_position blob self (Or.inr (Or.inl hy))
    exact ⟨_, h1, by simp [schemaMessages], h2, h3⟩
  | some posY =>
  cases hz : (scanFields blob.fields).1.posZ with
  | none =>
    obtain ⟨h1, h2, h3⟩ := load_missing_position blob self (Or.inr (Or.inr hz))
    exact ⟨_, h1, by simp [schemaMessages], h2, h3⟩
  | some posZ =>
  cases hnx : (scanFields blob.fields).1.normalX with
  | none =>
    obtain ⟨h1, h2, h3⟩ := load_missing_normal blob self posX posY posZ hx hy hz (Or.inl hnx)
    exact ⟨_, h1, by simp [schemaMessages], h2, h3⟩
  | some normalX =>
  cases hny : (scanFields blob.fields).1.normalY with
  | none =>
    obtain ⟨h1, h2, h3⟩ := load_missing_normal blob self posX posY posZ hx hy hz
      (Or.inr (Or.inl hny))
    exact ⟨_, h1, by simp [schemaMessages], h2, h3⟩
  | some normalY =>
  cases hnz : (scanFields blob.fields).1.normalZ with
  | none =>
    obtain ⟨h1, h2, h3⟩ := load_missing_normal blob self posX posY posZ hx hy hz
      (Or.inr (Or.inr hnz))
    exact ⟨_, h1, by simp [schemaMessages], h2, h3⟩
  | some normalZ =>
  have hbad : ¬ isFloatType posX.datatype ∨ ¬ isFloatType normalX.datatype := by
    rcases h with h | h | h | h | h | h | h | h
    · have := (scan_posX_none blob.fields (FieldPtrs.null, [])).mpr ⟨rfl, h⟩
      rw [scanFields] at hx; rw [hx] at this; cases this
    · have := (scan_posY_none blob.fields (FieldPtrs.null, [])).mpr ⟨rfl, h⟩
      rw [scanFields] at hy; rw [hy] at this; cases this
    · have := (scan_posZ_none blob.fields (FieldPtrs.null, [])).mpr ⟨rfl, h⟩
      rw [scanFields] at hz; rw [hz] at this; cases this
    · have := (scan_normalX_none blob.fields (FieldPtrs.null, [])).mpr ⟨rfl, h⟩
      rw [scanFields] at hnx; rw [hnx] at this; cases this
    · have := (scan_normalY_none blob.fields (FieldPtrs.null, [])).mpr ⟨rfl, h⟩
      rw [scanFields] at hny; rw [hny] at this; cases this
    · have := (scan_normalZ_none blob.fields (FieldPtrs.null, [])).mpr ⟨rfl, h⟩
      rw [scanFields] at hnz; rw [hnz] at this; cases this
    · obtain ⟨f, hf, hbad⟩ := h
      rw [hx] at hf; cases hf
      exact Or.inl hbad
    · obtain ⟨f, hf, hbad⟩ := h
      rw [hnx] at hf; cases hf
      exact Or.inr hbad
  obtain ⟨h1, h2, h3⟩ := load_bad_type blob self posX posY posZ normalX normalY normalZ
    hx hy hz hnx hny hnz hbad
  rcases h1 with h1 | h1
  · exact ⟨_, h1, by simp [schemaMessages], h2, h3⟩
  · exact ⟨_, h1, by simp [schemaMessages], h2, h3⟩

/-- Instance on `intXBlob`, whose `x` field is a 32-bit integer. -/
theorem load_schema_error_witness :
    (∃ f, (scanFields intXBlob.fields).1.posX = some f ∧ ¬ isFloatType f.datatype)
    ∧ ∃ what, (loadPointCloud (some intXBlob) freshObject).1 = Outcome.threw what
      ∧ what ∈ schemaMessages
      ∧ (loadPointCloud (some intXBlob) freshObject).2.groundPoints = freshObject.groundPoints
      ∧ (loadPointCloud (some intXBlob) freshObject).2.nongroundPoints
          = freshObject.nongroundPoints :=
  ⟨⟨⟨"x", 0, Datatype.INT32⟩, by decide, by decide⟩,
    load_schema_error intXBlob freshObject
      (Or.inr (Or.inr (Or.inr (Or.inr (Or.inr (Or.inr (Or.inl
        ⟨⟨"x", 0, Datatype.INT32⟩, by decide, by decide⟩)))))))⟩

/-! ## The cluster loop of detectPlanes -/

theorem clusterCloud_nil (ng : List PointNormal) : clusterCloud ng [] = some [] := rfl

theorem clusterCloud_cons (ng : List PointNormal) (i : Nat) (rest : List Nat) :
    clusterCloud ng (i :: rest) =
      match ng[i]?, clusterCloud ng rest with
      | some p, some ps => some (p :: ps)
      | _, _ => none := by
  unfold clusterCloud
  rw [List.mapM_cons]
  cases ng[i]? with
  | none => rfl
  | some p =>
    cases List.mapM (fun i => ng[i]?) rest <;> rfl

theorem clusterCloud_some (ng : List PointNormal) (indices : List Nat)
    (h : ∀ i ∈ indices, i < ng.length) :
    clusterCloud ng indices = some (indices.map fun i => ng.getD i ⟨0, 0, 0, 0, 0, 0⟩) := by
  induction indices with
  | nil => rfl
  | cons i rest ih =>
    have hi : i < ng.length := h i (List.mem_cons_self _ _)
    rw [clusterCloud_cons, ih (fun j hj => h j (List.mem_cons_of_mem _ hj))]
    simp [List.getElem?_eq_getElem hi, List.getD_eq_getElem?_getD]

theorem clusterCloud_valid (ng : List PointNormal) (indices : List Nat)
    (cloud : List PointNormal) (h : clusterCloud ng indices = some cloud) :
    cloud.length = indices.length ∧ (∀ i ∈ indices, i < ng.length)
      ∧ ∀ p ∈ cloud, p ∈ ng := by
  induction indices generalizing cloud with
  | nil =>
    rw [clusterCloud_nil] at h
    cases h
    simp
  | cons i rest ih =>
    rw [clusterCloud_cons] at h
    cases hi : ng[i]? with
    | none => rw [hi] at h; simp at h
    | some p =>
      cases hr : clusterCloud ng rest with
      | none => rw [hi, hr] at h; simp at h
      | some ps =>
        rw [hi, hr] at h
        simp only [Option.some.injEq] at h
        subst h
        obtain ⟨hl, hv, hm⟩ := ih ps hr
        obtain ⟨hlt, hget⟩ := List.getElem?_eq_some_iff.mp hi
        refine ⟨by simp [hl], ?_, ?_⟩
        · intro j hj
          rcases List.mem_cons.mp hj with rfl | hj
          · exact hlt
          · exact hv j hj
        · intro q hq
          rcases List.mem_cons.mp hq with rfl | hq
          · rw [← hget]; exact List.getElem_mem _
          · exact hm q hq

theorem examineCluster_eq (kdtree : NearestKSearch) (self : Odm25dMeshing)
    (cluster_idx : Nat) (indices : List Nat) (cloud : List PointNormal) (sp : Nat)
    (hcloud : clusterCloud self.nongroundPoints indices = some cloud)
    (hcount : countSurfacePoints kdtree cloud = some sp) :
    (examineCluster kdtree self cluster_idx indices).1 = Outcome.ok
    ∧ (examineCluster kdtree self cluster_idx indices).2.nongroundPoints
        = self.nongroundPoints
    ∧ (examineCluster kdtree self cluster_idx indices).2.groundPoints
        = if planarDecision sp cloud.length then self.groundPoints ++ cloud
          else self.groundPoints := by
  unfold examineCluster planarDecision
  simp only [hcloud, hcount, Odm25dMeshing.logMsg]
  split_ifs <;> exact ⟨rfl, rfl, rfl⟩

theorem examineCluster_sets (kdtree : NearestKSearch) (self : Odm25dMeshing)
    (cluster_idx : Nat) (indices : List Nat) :
    (examineCluster kdtree self cluster_idx indices).2.nongroundPoints
        = self.nongroundPoints
    ∧ ∃ added, (examineCluster kdtree self cluster_idx indices).2.groundPoints
        = self.groundPoints ++ added ∧ ∀ p ∈ added, p ∈ self.nongroundPoints := by
  cases hcloud : clusterCloud self.nongroundPoints indices with
  | none =>
    unfold examineCluster
    simp only [hcloud]
    exact ⟨trivial, [], by simp, by simp⟩
  | some cloud =>
    cases hcount : countSurfacePoints kdtree cloud with
    | none =>
      unfold examineCluster
      simp only [hcloud, hcount]
      exact ⟨trivial, [], by simp, by simp⟩
    | some sp =>
      obtain ⟨_, hn, hg⟩ := examineCluster_eq kdtree self cluster_idx indices cloud sp
        hcloud hcount
      refine ⟨hn, ?_⟩
      rw [hg]
      by_cases hd : planarDecision sp cloud.length
      · exact ⟨cloud, by simp [hd], (clusterCloud_valid _ _ _ hcloud).2.2⟩
      · exact ⟨[], by simp [hd], by simp⟩

theorem clusterLoop_sets (kdtree : NearestKSearch) (clusters : List (List Nat))
    (self : Odm25dMeshing) (cluster_idx : Nat) :
    (clusterLoop kdtree self cluster_idx clusters).2.nongroundPoints = self.nongroundPoints
    ∧ ∃ added, (clusterLoop kdtree self cluster_idx clusters).2.groundPoints
        = self.groundPoints ++ added ∧ ∀ p ∈ added, p ∈ self.nongroundPoints := by
  induction clusters generalizing self cluster_idx with
  | nil => exact ⟨rfl, [], by simp [clusterLoop], by simp⟩
  | cons indices rest ih =>
    obtain ⟨hn, a1, hg1, hm1⟩ := examineCluster_sets kdtree self cluster_idx indices
    unfold clusterLoop
    simp only
    split_ifs with hok
    · obtain ⟨hn2, a2, hg2, hm2⟩ :=
        ih (examineCluster kdtree self cluster_idx indices).2 (cluster_idx + 1)
      refine ⟨hn2.trans hn, a1 ++ a2, ?_, ?_⟩
      · rw [hg2, hg1, List.append_assoc]
      · intro p hp
        rcases List.mem_append.mp hp with hp | hp
        · exact hm1 p hp
        · rw [← hn]; exact hm2 p hp
    · exact ⟨hn, a1, hg1, hm1⟩

theorem detectPlanes_sets (reg : RegionGrowing) (kdtree : NearestKSearch)
    (self : Odm25dMeshing) :
    (detectPlanes reg kdtree self).2.nongroundPoints = self.nongroundPoints
    ∧ ∃ added, (detectPlanes reg kdtree self).2.groundPoints
        = self.groundPoints ++ added ∧ ∀ p ∈ added, p ∈ self.nongroundPoints := by
  unfold detectPlanes
  simp only
  have h := clusterLoop_sets kdtree (reg (self.logMsg "Extracting clusters... ").nongroundPoints)
    (((self.logMsg "Extracting clusters... ").logMsg
      (" found " ++ toString (reg (self.logMsg "Extracting clusters... ").nongroundPoints).length
        ++ " clusters\n")).logMsg "Computing per segment surface estimation...\n") 0
  split_ifs
  · exact h
  · exact h

theorem detectPlanes_keeps_ground (reg : RegionGrowing) (kdtree : NearestKSearch)
    (self : Odm25dMeshing) (p : PointNormal) (hp : p ∈ self.groundPoints) :
    p ∈ (detectPlanes reg kdtree self).2.groundPoints := by
  obtain ⟨_, added, hg, _⟩ := detectPlanes_sets reg kdtree self
  rw [hg]
  exact List.mem_append_left _ hp

/-- The loading loop pushes a record to `groundPoints` and the planarity stage
keeps it there, when the record is not one the loop sends to `nongroundPoints`. -/
theorem ground_after_segmentation (blob : PCLPointCloud2) (self : Odm25dMeshing)
    (reg : RegionGrowing) (kdtree : NearestKSearch) (point : RawPoint)
    (hload : (loadPointCloud (some blob) self).1 = Outcome.ok)
    (hpoint : point ∈ blob.points)
    (hground : ∀ c, (scanFields blob.fields).1.classification = some c →
      toNonground (usableClassification c) (scanFields blob.fields).1.hag 2 FLT_MIN point
        = false) :
    ∃ p, loadedPoint blob.fields point = some p
      ∧ p ∈ (loadPointCloud (some blob) self).2.groundPoints
      ∧ p ∈ (detectPlanes reg kdtree (loadPointCloud (some blob) self).2).2.groundPoints := by
  obtain ⟨posX, posY, posZ, normalX, normalY, normalZ, c, hx, hy, hz, hnx, hny, hnz, hc,
    _, _, hg, _⟩ := loadPointCloud_ok blob self hload
  have hin : readPoint posX posY posZ normalX normalY normalZ point
      ∈ (loadPointCloud (some blob) self).2.groundPoints := by
    rw [hg]
    apply List.mem_append_right
    apply List.mem_map_of_mem
    rw [List.mem_filter]
    exact ⟨hpoint, by simp [hground c hc]⟩
  exact ⟨_, loadedPoint_eq _ _ _ _ _ _ _ _ hx hy hz hnx hny hnz, hin,
    detectPlanes_keeps_ground reg kdtree _ _ hin⟩

/-! ## The planarity vote -/

theorem foldlM_sameNormal (cloud : List PointNormal) (point : PointNormal)
    (idx : List Nat) (hvalid : ∀ k ∈ idx, k < cloud.length) (count : Nat) :
    idx.foldlM
        (fun count k =>
          match cloud[k]? with
          | none => none
          | some p => some (if normalDot point p > toDouble (9 / 10) then count + 1 else count))
        count
      = some (count + parallelNeighbours cloud point idx) := by
  induction idx generalizing count with
  | nil => rfl
  | cons k ks ih =>
    have hk : k < cloud.length := hvalid k (List.mem_cons_self _ _)
    have hks : ∀ j ∈ ks, j < cloud.length := fun j hj => hvalid j (List.mem_cons_of_mem _ hj)
    rw [List.foldlM_cons, List.getElem?_eq_getElem hk]
    simp only [Option.bind_eq_bind, Option.some_bind]
    rw [ih hks]
    unfold parallelNeighbours
    rw [List.countP_cons, List.getElem?_eq_getElem hk]
    simp only [nearParallel, decide_eq_true_eq]
    by_cases hd : normalDot point cloud[k] > toDouble (9 / 10)
    · rw [if_pos hd, if_pos hd]
      congr 1
      ring
    · rw [if_neg hd, if_neg hd]
      rfl

theorem isSurfacePoint_eq (kdtree : NearestKSearch) (cloud : List PointNormal)
    (point : PointNormal) (hvalid : ∀ k ∈ kdtree cloud point K, k < cloud.length) :
    isSurfacePoint kdtree cloud point
      = some (decide
          (toFloat (parallelNeighbours cloud point (kdtree cloud point K) : ℚ)
            ≥ toFloat (toFloat ((kdtree cloud point K).length : ℚ) * toFloat (4 / 5)))) := by
  unfold isSurfacePoint sameNormalDirectionCount
  simp only
  rw [foldlM_sameNormal cloud point _ hvalid 0]
  split_ifs with hpos
  · simp only [Option.map_some', Nat.zero_add]
  · have hnil : kdtree cloud point K = [] := by
      apply List.eq_nil_of_length_eq_zero
      omega
    simp only [Option.map_some', hnil, parallelNeighbours, List.countP_nil]

theorem foldlM_surface (kdtree : NearestKSearch) (cloud : List PointNormal)
    (f : PointNormal → Bool) (l : List PointNormal)
    (hall : ∀ point ∈ l, isSurfacePoint kdtree cloud point = some (f point)) (sp : Nat) :
    l.foldlM
        (fun surface_points point =>
          (isSurfacePoint kdtree cloud point).map fun b =>
            if b then surface_points + 1 else surface_points)
        sp
      = some (sp + l.countP f) := by
  induction l generalizing sp with
  | nil => rfl
  | cons q qs ih =>
    rw [List.foldlM_cons, hall q (List.mem_cons_self _ _)]
    simp only [Option.map_some', Option.bind_eq_bind, Option.some_bind]
    rw [ih (fun r hr => hall r (List.mem_cons_of_mem _ hr)), List.countP_cons]
    by_cases hq : f q = true
    · simp only [hq, if_true]
      congr 1
      ring
    · simp only [hq, if_false]
      rfl

theorem countSurfacePoints_eq (kdtree : NearestKSearch) (cloud : List PointNormal)
    (hvalid : ∀ p ∈ cloud, ∀ k ∈ kdtree cloud p K, k < cloud.length) :
    countSurfacePoints kdtree cloud
      = some (cloud.countP fun p =>
          decide (toFloat (parallelNeighbours cloud p (kdtree cloud p K) : ℚ)
            ≥ toFloat (toFloat ((kdtree cloud p K).length : ℚ) * toFloat (4 / 5)))) := by
  unfold countSurfacePoints
  rw [foldlM_surface kdtree cloud _ cloud
    (fun p hp => isSurfacePoint_eq kdtree cloud p (hvalid p hp)) 0]
  simp only [Nat.zero_add]

/-- The vote counts at most as many surface points as the cluster has points. -/
theorem countSurfacePoints_le (kdtree : NearestKSearch) (cloud : List PointNormal) (sp : Nat)
    (h : countSurfacePoints kdtree cloud = some sp) : sp ≤ cloud.length := by
  have key : ∀ (l : List PointNormal) (acc r : Nat),
      l.foldlM
        (fun surface_points point =>
          (isSurfacePoint kdtree cloud point).map fun b =>
            if b then surface_points + 1 else surface_points) acc = some r →
      r ≤ acc + l.length := by
    intro l
    induction l with
    | nil =>
      intro acc r hr
      rw [List.foldlM_nil] at hr
      cases hr
      exact Nat.le_refl _
    | cons a l ih =>
      intro acc r hr
      rw [List.foldlM_cons] at hr
      cases hs : isSurfacePoint kdtree cloud a with
      | none =>
        rw [hs] at hr
        cases hr
      | some b =>
        rw [hs] at hr
        have hstep : r ≤ (if b = true then acc + 1 else acc) + l.length := ih _ r hr
        have hb : (if b = true then acc + 1 else acc) ≤ acc + 1 := by
          split <;> omega
        rw [List.length_cons]
        exact le_trans hstep (by omega)
  have := key cloud 0 sp h
  omega

/-- A conversion to `float` of a value of magnitude at most 2 moves it by less
than a thousandth. -/
theorem toFloat_near (q : ℚ) (h : |q| ≤ 2) : |toFloat q - q| ≤ 1 / 1000 := by
  refine le_trans (toFloat_error q) ?_
  have h2 : |q| / 2 ^ 24 ≤ 2 / 2 ^ 24 := div_le_div_of_nonneg_right h (by positivity)
  have h3 : (2 : ℚ) / 2 ^ 24 + 1 / 2 ^ 150 ≤ 1 / 1000 := by norm_num
  linarith

/-- The vote is passed when all queried neighbours are near-parallel, whatever
their number: `n >= n * 0.8f` holds in `float` arithmetic. -/
theorem vote_full (n : ℕ) :
    toFloat (n : ℚ) ≥ toFloat (toFloat (n : ℚ) * toFloat (4 / 5)) := by
  rcases Nat.eq_zero_or_pos n with h0 | hpos
  · rw [h0]
    simp [toFloat_zero]
  · have hn : (1 : ℚ) ≤ (n : ℚ) := by exact_mod_cast hpos
    have e1 := toFloat_error (n : ℚ)
    rw [abs_of_nonneg (by linarith : (0 : ℚ) ≤ (n : ℚ)), abs_le] at e1
    have c1 : (1 : ℚ) / 2 ^ 24 + 1 / 2 ^ 150 ≤ 1 / 2 := by norm_num
    have ha : (1 : ℚ) / 2 ≤ toFloat (n : ℚ) := by
      have : (n : ℚ) / 2 ^ 24 ≤ (n : ℚ) / 2 := by
        apply div_le_div_of_nonneg_left (by linarith) (by norm_num) (by norm_num)
      have c2 : (1 : ℚ) / 2 ^ 150 ≤ 0 + 1 / 4 := by norm_num
      linarith [e1.1]
    rw [toFloat_four_fifths]
    set a := toFloat (n : ℚ) with hadef
    have hx : 0 ≤ a * (13421773 / 2 ^ 24) := by positivity
    have e2 := toFloat_error (a * (13421773 / 2 ^ 24))
    rw [abs_of_nonneg hx, abs_le] at e2
    have c3 : a * (13421773 / 2 ^ 24) + a * (13421773 / 2 ^ 24) / 2 ^ 24 ≤ a * (81 / 100) := by
      have : (13421773 : ℚ) / 2 ^ 24 + 13421773 / 2 ^ 24 / 2 ^ 24 ≤ 81 / 100 := by norm_num
      nlinarith
    have c4 : (1 : ℚ) / 2 ^ 150 ≤ 1 / 100 := by norm_num
    linarith [e2.2]

theorem vote_threshold_thirty : toFloat (toFloat ((30 : ℕ) : ℚ) * toFloat (4 / 5)) = 24 := by
  rw [toFloat_natCast 30 (by norm_num), toFloat_four_fifths,
    toFloat_eq _ 4 12582912 (by norm_num) (by norm_num) (by norm_num) (by norm_num)
      (by rw [abs_lt]; constructor <;> norm_num)]
  norm_num

/-- With 30 queried neighbours the test `count >= 30 * 0.8f` is `count ≥ 24`. -/
theorem vote_threshold (n : ℕ) (hn : n ≤ 30) :
    toFloat (n : ℚ) ≥ toFloat (toFloat ((30 : ℕ) : ℚ) * toFloat (4 / 5)) ↔ 24 ≤ n := by
  rw [vote_threshold_thirty, toFloat_natCast n (by omega), ge_iff_le]
  have : ((24 : ℕ) : ℚ) = 24 := by norm_num
  rw [← this, Nat.cast_le]

theorem parallelNeighbours_le (cloud : List PointNormal) (point : PointNormal)
    (idx : List Nat) : parallelNeighbours cloud point idx ≤ idx.length :=
  List.countP_le_length _

theorem parallelNeighbours_all (cloud : List PointNormal) (point : PointNormal)
    (hdot : ∀ p ∈ cloud, normalDot point p > toDouble (9 / 10)) (idx : List Nat)
    (hvalid : ∀ k ∈ idx, k < cloud.length) :
    parallelNeighbours cloud point idx = idx.length := by
  unfold parallelNeighbours
  rw [List.countP_eq_length]
  intro k hk
  have hlt := hvalid k hk
  rw [List.getElem?_eq_getElem hlt]
  simp only [nearParallel, decide_eq_true_eq]
  exact hdot _ (List.getElem_mem hlt)

theorem isSurfacePoint_all (kdtree : NearestKSearch) (cloud : List PointNormal)
    (point : PointNormal) (hdot : ∀ p ∈ cloud, normalDot point p > toDouble (9 / 10))
    (hvalid : ∀ k ∈ kdtree cloud point K, k < cloud.length) :
    isSurfacePoint kdtree cloud point = some true := by
  rw [isSurfacePoint_eq kdtree cloud point hvalid,
    parallelNeighbours_all cloud point hdot _ hvalid]
  congr 1
  exact decide_eq_true (vote_full _)

theorem countSurfacePoints_all (kdtree : NearestKSearch) (cloud : List PointNormal)
    (hdot : ∀ p ∈ cloud, ∀ q ∈ cloud, normalDot p q > toDouble (9 / 10))
    (hvalid : ∀ p ∈ cloud, ∀ k ∈ kdtree cloud p K, k < cloud.length) :
    countSurfacePoints kdtree cloud = some cloud.length := by
  unfold countSurfacePoints
  rw [foldlM_surface kdtree cloud (fun _ => true) cloud
    (fun p hp => isSurfacePoint_all kdtree cloud p (hdot p hp) (hvalid p hp)) 0]
  simp

theorem clusterLoop_planar (kdtree : NearestKSearch) (clusters : List (List Nat))
    (self : Odm25dMeshing) (cluster_idx : Nat)
    (hok : (clusterLoop kdtree self cluster_idx clusters).1 = Outcome.ok)
    (indices : List Nat) (hmem : indices ∈ clusters) (cloud : List PointNormal) (sp : Nat)
    (hcloud : clusterCloud self.nongroundPoints indices = some cloud)
    (hcount : countSurfacePoints kdtree cloud = some sp)
    (hd : planarDecision sp cloud.length) :
    ∀ p ∈ cloud, p ∈ (clusterLoop kdtree self cluster_idx clusters).2.groundPoints := by
  induction clusters generalizing self cluster_idx with
  | nil => cases hmem
  | cons c rest ih =>
    unfold clusterLoop at hok ⊢
    simp only at hok ⊢
    by_cases hstep : (examineCluster kdtree self cluster_idx c).1 = Outcome.ok
    · rw [if_pos hstep] at hok ⊢
      obtain ⟨hn, _⟩ := examineCluster_sets kdtree self cluster_idx c
      rcases List.mem_cons.mp hmem with rfl | hrest
      · obtain ⟨_, _, hg⟩ := examineCluster_eq kdtree self cluster_idx indices cloud sp
          hcloud hcount
        rw [if_pos hd] at hg
        obtain ⟨_, added, hg2, _⟩ := clusterLoop_sets kdtree rest
          (examineCluster kdtree self cluster_idx indices).2 (cluster_idx + 1)
        intro p hp
        rw [hg2, hg]
        exact List.mem_append_left _ (List.mem_append_right _ hp)
      · exact ih (examineCluster kdtree self cluster_idx c).2 (cluster_idx + 1) hok hrest
          (by rw [hn]; exact hcloud)
    · rw [if_neg hstep] at hok
      exact absurd hok hstep

theorem detectPlanes_planar (reg : RegionGrowing) (kdtree : NearestKSearch)
    (self : Odm25dMeshing) (hok : (detectPlanes reg kdtree self).1 = Outcome.ok)
    (indices : List Nat) (hmem : indices ∈ reg self.nongroundPoints)
    (cloud : List PointNormal) (sp : Nat)
    (hcloud : clusterCloud self.nongroundPoints indices = some cloud)
    (hcount : countSurfacePoints kdtree cloud = some sp)
    (hd : planarDecision sp cloud.length) :
    ∀ p ∈ cloud, p ∈ (detectPlanes reg kdtree self).2.groundPoints := by
  unfold detectPlanes at hok ⊢
  simp only at hok ⊢
  split_ifs at hok ⊢ with h
  · intro p hp
    exact clusterLoop_planar kdtree _ _ 0 h indices hmem cloud sp hcloud hcount hd p hp
  · exact absurd hok h

theorem detectPlanes_single (reg : RegionGrowing) (kdtree : NearestKSearch)
    (self : Odm25dMeshing) (indices : List Nat) (cloud : List PointNormal) (sp : Nat)
    (hreg : reg self.nongroundPoints = [indices])
    (hcloud : clusterCloud self.nongroundPoints indices = some cloud)
    (hcount : countSurfacePoints kdtree cloud = some sp) :
    (detectPlanes reg kdtree self).1 = Outcome.ok
    ∧ (detectPlanes reg kdtree self).2.nongroundPoints = self.nongroundPoints
    ∧ (detectPlanes reg kdtree self).2.groundPoints
        = if planarDecision sp cloud.length then self.groundPoints ++ cloud
          else self.groundPoints := by
  have hreg2 : reg (self.logMsg "Extracting clusters... ").nongroundPoints = [indices] := hreg
  obtain ⟨h1, h2, h3⟩ := examineCluster_eq kdtree
    (((self.logMsg "Extracting clusters... ").logMsg
      (" found " ++ toString [indices].length ++ " clusters\n")).logMsg
        "Computing per segment surface estimation...\n") 0 indices cloud sp hcloud hcount
  unfold detectPlanes
  simp only [hreg2, clusterLoop, h1, if_true]
  exact ⟨trivial, h2, h3⟩

/-- Identical unit normals: the `float` dot product stays within five
thousandths of 1 and exceeds 0.9. -/
theorem normalDot_same (p q : PointNormal) (nx ny nz : ℚ)
    (hunit : nx * nx + ny * ny + nz * nz = 1)
    (hp : p.normal_x = nx ∧ p.normal_y = ny ∧ p.normal_z = nz)
    (hq : q.normal_x = nx ∧ q.normal_y = ny ∧ q.normal_z = nz) :
    normalDot p q > toDouble (9 / 10) := by
  unfold normalDot
  rw [hp.1, hp.2.1, hp.2.2, hq.1, hq.2.1, hq.2.2, toDouble_nine_tenths]
  have hx : 0 ≤ nx * nx := mul_self_nonneg nx
  have hy : 0 ≤ ny * ny := mul_self_nonneg ny
  have hz : 0 ≤ nz * nz := mul_self_nonneg nz
  have ex := toFloat_near (nx * nx) (by rw [abs_of_nonneg hx]; linarith)
  have ey := toFloat_near (ny * ny) (by rw [abs_of_nonneg hy]; linarith)
  have ez := toFloat_near (nz * nz) (by rw [abs_of_nonneg hz]; linarith)
  rw [abs_le] at ex ey ez
  have e1 := toFloat_near (toFloat (ny * ny) + toFloat (nz * nz))
    (by rw [abs_le]; constructor <;> linarith [ey.1, ey.2, ez.1, ez.2])
  rw [abs_le] at e1
  have e2 := toFloat_near
    (toFloat (nx * nx) + toFloat (toFloat (ny * ny) + toFloat (nz * nz)))
    (by rw [abs_le]; constructor <;> linarith [ex.1, ex.2, e1.1, e1.2, ey.1, ey.2, ez.1, ez.2])
  rw [abs_le] at e2
  have c : (8106479329266893 : ℚ) / 2 ^ 53 < 99 / 100 := by norm_num
  linarith [ex.1, ey.1, ez.1, e1.1, e2.1]

theorem toFloat_pos_of_one_le (n : ℕ) (h : 1 ≤ n) : 0 < toFloat (n : ℚ) := by
  have hn : (1 : ℚ) ≤ (n : ℚ) := by exact_mod_cast h
  have e1 := toFloat_error (n : ℚ)
  rw [abs_of_nonneg (by linarith : (0 : ℚ) ≤ (n : ℚ)), abs_le] at e1
  have : (n : ℚ) / 2 ^ 24 ≤ (n : ℚ) / 2 := by
    apply div_le_div_of_nonneg_left (by linarith) (by norm_num) (by norm_num)
  have c2 : (1 : ℚ) / 2 ^ 150 ≤ 1 / 4 := by norm_num
  linarith [e1.1]

theorem planarDecision_all (n : Nat) (h : n ≥ 100) : planarDecision n n := by
  unfold planarDecision MIN_CLUSTER_SIZE
  have hpos : 0 < toFloat (n : ℚ) := toFloat_pos_of_one_le n (by omega)
  rw [div_self (ne_of_gt hpos), toFloat_one, toFloat_fifth]
  exact ⟨by norm_num, h⟩

theorem identical_normals_vote (kdtree : NearestKSearch) (cloud : List PointNormal)
    (nx ny nz : ℚ) (hunit : nx * nx + ny * ny + nz * nz = 1)
    (hnormal : ∀ p ∈ cloud, p.normal_x = nx ∧ p.normal_y = ny ∧ p.normal_z = nz)
    (hvalid : ∀ p ∈ cloud, ∀ k ∈ kdtree cloud p K, k < cloud.length) :
    (∀ p ∈ cloud, isSurfacePoint kdtree cloud p = some true)
    ∧ countSurfacePoints kdtree cloud = some cloud.length :=
  ⟨fun p hp => isSurfacePoint_all kdtree cloud p
      (fun q hq => normalDot_same p q nx ny nz hunit (hnormal p hp) (hnormal q hq))
      (hvalid p hp),
    countSurfacePoints_all kdtree cloud
      (fun p hp q hq => normalDot_same p q nx ny nz hunit (hnormal p hp) (hnormal q hq))
      hvalid⟩

/-! ## The roof example -/

theorem roof_length : roof.length = 150 := by
  simp only [roof, List.length_map, List.length_range]

theorem roof_cloud : clusterCloud roof (List.range 150) = some roof := by
  rw [clusterCloud_some roof (List.range 150)
    (by intro i hi; rw [roof_length]; exact List.mem_range.mp hi)]
  congr 1

theorem roof_normals : ∀ p ∈ roof, p.normal_x = 0 ∧ p.normal_y = 0 ∧ p.normal_z = 1 := by
  intro p hp
  simp only [roof, List.mem_map] at hp
  obtain ⟨i, _, rfl⟩ := hp
  exact ⟨rfl, rfl, rfl⟩

theorem firstNeighbours_valid (cloud : List PointNormal) :
    ∀ p ∈ cloud, ∀ k ∈ firstNeighbours cloud p K, k < cloud.length := by
  intro p _ k hk
  simp only [firstNeighbours, List.mem_range] at hk
  omega

theorem roof_count : countSurfacePoints firstNeighbours roof = some roof.length :=
  (identical_normals_vote firstNeighbours roof 0 0 1 (by norm_num) roof_normals
    (firstNeighbours_valid roof)).2

theorem roof_detect :
    (detectPlanes roofCluster firstNeighbours roofObject).1 = Outcome.ok
    ∧ (detectPlanes roofCluster firstNeighbours roofObject).2.nongroundPoints = roof
    ∧ (detectPlanes roofCluster firstNeighbours roofObject).2.groundPoints = roof := by
  obtain ⟨h1, h2, h3⟩ := detectPlanes_single roofCluster firstNeighbours roofObject
    (List.range 150) roof roof.length rfl roof_cloud roof_count
  rw [if_pos (planarDecision_all _ (by rw [roof_length]; decide))] at h3
  exact ⟨h1, h2, h3⟩

theorem roof_first_mem : (⟨0, 0, 10, 0, 0, 1⟩ : PointNormal) ∈ roof := by
  unfold roof
  exact List.mem_map.mpr ⟨0, List.mem_range.mpr (by decide), by simp⟩

/-! ## The vote on clouds of 30 points with two normal directions -/

theorem mixedCloud_neighbours (n : Nat) (hn : n ≤ 30) (p : PointNormal) :
    firstNeighbours (mixedCloud n) p K = List.range 30 := by
  unfold firstNeighbours mixedCloud K
  simp only [List.length_append, List.length_map, List.length_range]
  congr 1
  omega

theorem mixedCloud_mem (n : Nat) (p : PointNormal) (hp : p ∈ mixedCloud n) :
    (∃ i : Nat, p = ⟨(i : ℚ), 0, 10, 0, 0, 1⟩) ∨ (∃ i : Nat, p = ⟨(i : ℚ), 1, 10, 1, 0, 0⟩) := by
  unfold mixedCloud at hp
  rcases List.mem_append.mp hp with h | h
  · obtain ⟨i, _, rfl⟩ := List.mem_map.mp h
    exact Or.inl ⟨i, rfl⟩
  · obtain ⟨i, _, rfl⟩ := List.mem_map.mp h
    exact Or.inr ⟨i, rfl⟩

theorem parallelNeighbours_range (cloud : List PointNormal) (point : PointNormal) :
    parallelNeighbours cloud point (List.range cloud.length)
      = cloud.countP (nearParallel point) := by
  have hmap : (List.range cloud.length).map (fun k => cloud[k]?) = cloud.map some := by
    apply List.ext_getElem?
    intro i
    by_cases hi : i < cloud.length
    · simp [List.getElem?_map, List.getElem?_range hi, List.getElem?_eq_getElem hi]
    · have hge : cloud.length ≤ i := by omega
      simp [List.getElem?_map, List.getElem?_eq_none, hge]
  unfold parallelNeighbours
  have h1 : List.countP
      (fun k => match cloud[k]? with
        | some p => nearParallel point p
        | none => false) (List.range cloud.length)
      = List.countP
        (fun o : Option PointNormal => match o with
          | some p => nearParallel point p
          | none => false)
        ((List.range cloud.length).map fun k => cloud[k]?) := by
    rw [List.countP_map]
    rfl
  rw [h1, hmap, List.countP_map]
  rfl

theorem mixedCloud_length (n : Nat) (hn : n ≤ 30) : (mixedCloud n).length = 30 := by
  unfold mixedCloud
  simp only [List.length_append, List.length_map, List.length_range]
  omega

theorem nearParallel_roof_roof (i j : Nat) :
    nearParallel ⟨(i : ℚ), 0, 10, 0, 0, 1⟩ ⟨(j : ℚ), 0, 10, 0, 0, 1⟩ = true := by
  simp [nearParallel, normalDot, toFloat_zero, toFloat_one, toDouble_nine_tenths]
  norm_num

theorem nearParallel_roof_wall (i j : Nat) :
    nearParallel ⟨(i : ℚ), 0, 10, 0, 0, 1⟩ ⟨(j : ℚ), 1, 10, 1, 0, 0⟩ = false := by
  simp [nearParallel, normalDot, toFloat_zero, toFloat_one, toDouble_nine_tenths]
  norm_num

theorem nearParallel_wall_roof (i j : Nat) :
    nearParallel ⟨(i : ℚ), 1, 10, 1, 0, 0⟩ ⟨(j : ℚ), 0, 10, 0, 0, 1⟩ = false := by
  simp [nearParallel, normalDot, toFloat_zero, toFloat_one, toDouble_nine_tenths]
  norm_num

theorem nearParallel_wall_wall (i j : Nat) :
    nearParallel ⟨(i : ℚ), 1, 10, 1, 0, 0⟩ ⟨(j : ℚ), 1, 10, 1, 0, 0⟩ = true := by
  simp [nearParallel, normalDot, toFloat_zero, toFloat_one, toDouble_nine_tenths]
  norm_num

theorem countP_map_true (pt : PointNormal) (f : Nat → PointNormal) (l : List Nat)
    (h : ∀ j, nearParallel pt (f j) = true) :
    (l.map f).countP (nearParallel pt) = l.length := by
  induction l with
  | nil => rfl
  | cons a l ih =>
    rw [List.map_cons, List.countP_cons_of_pos _ _ (h a), ih, List.length_cons]

theorem countP_map_false (pt : PointNormal) (f : Nat → PointNormal) (l : List Nat)
    (h : ∀ j, nearParallel pt (f j) = false) :
    (l.map f).countP (nearParallel pt) = 0 := by
  induction l with
  | nil => rfl
  | cons a l ih =>
    have hneg : ¬ (nearParallel pt (f a) = true) := by
      rw [h a]
      exact Bool.false_ne_true
    rw [List.map_cons, List.countP_cons_of_neg _ _ hneg, ih]

/-- A roof point of a mixed cloud has the `n` roof points as its near-parallel
neighbours. -/
theorem mixedCloud_roof (n : Nat) (hn : n ≤ 30) (i : Nat) :
    parallelNeighbours (mixedCloud n) ⟨(i : ℚ), 0, 10, 0, 0, 1⟩ (List.range 30) = n := by
  have h := parallelNeighbours_range (mixedCloud n) ⟨(i : ℚ), 0, 10, 0, 0, 1⟩
  rw [mixedCloud_length n hn] at h
  rw [h]
  unfold mixedCloud
  rw [List.countP_append,
    countP_map_true _ (fun (j : Nat) => (⟨(j : ℚ), 0, 10, 0, 0, 1⟩ : PointNormal)) _
      (nearParallel_roof_roof i),
    countP_map_false _ (fun (j : Nat) => (⟨(j : ℚ), 1, 10, 1, 0, 0⟩ : PointNormal)) _
      (nearParallel_roof_wall i),
    List.length_range, Nat.add_zero]

/-- A wall point of a mixed cloud has the `30 - n` wall points as its
near-parallel neighbours. -/
theorem mixedCloud_wall (n : Nat) (hn : n ≤ 30) (i : Nat) :
    parallelNeighbours (mixedCloud n) ⟨(i : ℚ), 1, 10, 1, 0, 0⟩ (List.range 30) = 30 - n := by
  have h := parallelNeighbours_range (mixedCloud n) ⟨(i : ℚ), 1, 10, 1, 0, 0⟩
  rw [mixedCloud_length n hn] at h
  rw [h]
  unfold mixedCloud
  rw [List.countP_append,
    countP_map_false _ (fun (j : Nat) => (⟨(j : ℚ), 0, 10, 0, 0, 1⟩ : PointNormal)) _
      (nearParallel_wall_roof i),
    countP_map_true _ (fun (j : Nat) => (⟨(j : ℚ), 1, 10, 1, 0, 0⟩ : PointNormal)) _
      (nearParallel_wall_wall i),
    List.length_range, Nat.zero_add]

/-- With 24 of 30 neighbours near-parallel the roof points of the gable are
surface points, the wall points (6 of 30) are not: 24 surface points. -/
theorem gable_count : countSurfacePoints firstNeighbours (mixedCloud 24) = some 24 := by
  rw [countSurfacePoints_eq _ _ (firstNeighbours_valid _)]
  congr 1
  have key : ∀ p ∈ mixedCloud 24,
      (decide (toFloat
          (parallelNeighbours (mixedCloud 24) p (firstNeighbours (mixedCloud 24) p K) : ℚ)
          ≥ toFloat (toFloat ((firstNeighbours (mixedCloud 24) p K).length : ℚ)
              * toFloat (4 / 5))) = true)
        ↔ (decide (p.normal_z = 1) = true) := by
    intro p hp
    rw [mixedCloud_neighbours 24 (by decide) p]
    simp only [List.length_range, decide_eq_true_eq]
    rcases mixedCloud_mem 24 p hp with ⟨i, rfl⟩ | ⟨i, rfl⟩
    · rw [mixedCloud_roof 24 (by norm_num), vote_threshold 24 (by norm_num)]
      norm_num
    · rw [mixedCloud_wall 24 (by norm_num), vote_threshold (30 - 24) (by norm_num)]
      norm_num
  rw [List.countP_congr key]
  decide

/-- With 23 of 30 neighbours near-parallel no point is a surface point. -/
theorem steep_count : countSurfacePoints firstNeighbours (mixedCloud 23) = some 0 := by
  rw [countSurfacePoints_eq _ _ (firstNeighbours_valid _)]
  congr 1
  have key : ∀ p ∈ mixedCloud 23,
      (decide (toFloat
          (parallelNeighbours (mixedCloud 23) p (firstNeighbours (mixedCloud 23) p K) : ℚ)
          ≥ toFloat (toFloat ((firstNeighbours (mixedCloud 23) p K).length : ℚ)
              * toFloat (4 / 5))) = true)
        ↔ (false = true) := by
    intro p hp
    rw [mixedCloud_neighbours 23 (by decide) p]
    simp only [List.length_range, decide_eq_true_eq]
    rcases mixedCloud_mem 23 p hp with ⟨i, rfl⟩ | ⟨i, rfl⟩
    · rw [mixedCloud_roof 23 (by norm_num), vote_threshold 23 (by norm_num)]
      norm_num
    · rw [mixedCloud_wall 23 (by norm_num), vote_threshold (30 - 23) (by norm_num)]
      norm_num
  rw [List.countP_congr key]
  simp

/-! ## A 64-bit height above ground just below the threshold -/

/-- The loading loop holds the height above ground of `nearOneRecord`, the
`double` `1 - 2⁻³⁰`, as the `float` 1.0. -/
theorem nearOne_storedHag : storedHag doubleHagFields nearOneRecord = some 1 := by
  have hscan : (scanFields doubleHagFields).1.hag
      = some ⟨"heightaboveground", 25, Datatype.FLOAT64⟩ := by decide
  have hval : nearOneRecord.asDouble 25 = 1 - 1 / 2 ^ 30 := by
    simp only [nearOneRecord, if_true]
  unfold storedHag
  rw [hscan]
  simp only [if_true]
  rw [hval, toFloat_near_one]

/-- The field of `nearOneRecord` holds a height above ground below 1.0. -/
theorem nearOne_heightAboveGround :
    heightAboveGround doubleHagFields nearOneRecord = some (1 - 1 / 2 ^ 30) := by
  have hscan : (scanFields doubleHagFields).1.hag
      = some ⟨"heightaboveground", 25, Datatype.FLOAT64⟩ := by decide
  have hval : nearOneRecord.asDouble 25 = 1 - 1 / 2 ^ 30 := by
    simp only [nearOneRecord, if_true]
  unfold heightAboveGround
  rw [hscan]
  simp only [if_true]
  rw [hval]

/-- The value `1 - 2⁻³⁰` is a value of the `double` format. -/
theorem toDouble_near_one : toDouble (1 - 1 / 2 ^ 30) = 1 - 1 / 2 ^ 30 := by
  rw [toDouble_eq (1 - 1 / 2 ^ 30) (-1) (2 ^ 53 - 2 ^ 23) (by norm_num) (by norm_num)
    (by norm_num) (by norm_num) (by rw [abs_lt]; constructor <;> norm_num)]
  norm_num

/-- The record `nearOneRecord` goes to `nongroundPoints`. -/
theorem nearOne_lands : landsInNongroundStored doubleHagFields nearOneRecord = true := by
  have hc : classificationLabel doubleHagFields nearOneRecord = some 1 := by decide
  unfold landsInNongroundStored
  rw [hc, nearOne_storedHag]
  simp

/-- What `loadPointCloud` makes of `nearOneBlob`. -/
theorem nearOne_load :
    (loadPointCloud (some nearOneBlob) freshObject).1 = Outcome.ok
    ∧ (loadPointCloud (some nearOneBlob) freshObject).2.groundPoints = []
    ∧ (loadPointCloud (some nearOneBlob) freshObject).2.nongroundPoints
        = [⟨7, 8, 9, 0, 0, 1⟩] := by
  have hload : (loadPointCloud (some nearOneBlob) freshObject).1 = Outcome.ok :=
    load_succeeds nearOneBlob freshObject ⟨"x", 0, Datatype.FLOAT32⟩ ⟨"y", 4, Datatype.FLOAT32⟩
      ⟨"z", 8, Datatype.FLOAT32⟩ ⟨"normal_x", 12, Datatype.FLOAT32⟩
      ⟨"normal_y", 16, Datatype.FLOAT32⟩ ⟨"normal_z", 20, Datatype.FLOAT32⟩
      ⟨"classification", 24, Datatype.UINT8⟩ (by decide) (by decide) (by decide) (by decide)
      (by decide) (by decide) (by decide) (by decide) (by decide)
  have hp : loadedPoint doubleHagFields nearOneRecord = some ⟨7, 8, 9, 0, 0, 1⟩ := by decide
  have hl : landsInNongroundStored nearOneBlob.fields nearOneRecord = true := nearOne_lands
  obtain ⟨hg, hn, _⟩ := load_partition nearOneBlob freshObject hload
  refine ⟨hload, ?_, ?_⟩
  · rw [hg]
    have hpts : nearOneBlob.points = [nearOneRecord] := rfl
    rw [hpts, List.filter_cons_of_neg (by rw [hl]; decide), List.filter_nil]
    rfl
  · rw [hn]
    have hpts : nearOneBlob.points = [nearOneRecord] := rfl
    have hf : nearOneBlob.fields = doubleHagFields := rfl
    rw [hpts, List.filter_cons_of_pos hl, List.filter_nil, hf,
      List.filterMap_cons_some hp, List.filterMap_nil]
    rfl

/-- The segmentation stage finds no cluster in a set of one point and leaves
both sets of `nearOneBlob` as they were loaded. -/
theorem nearOne_detect (kdtree : NearestKSearch) :
    (detectPlanes noClusters kdtree (loadPointCloud (some nearOneBlob) freshObject).2).1
        = Outcome.ok
    ∧ (detectPlanes noClusters kdtree
        (loadPointCloud (some nearOneBlob) freshObject).2).2.groundPoints
        = (loadPointCloud (some nearOneBlob) freshObject).2.groundPoints := by
  exact ⟨rfl, rfl⟩

/-! ## A 64-bit position that is not a float -/

/-- The conversion of `2 ^ 25 + 1` to `float` gives `2 ^ 25`. -/
theorem toFloat_wide : toFloat 33554433 = 33554432 := by
  rw [toFloat_eq 33554433 25 8388608 (by norm_num) (by norm_num) (by norm_num)
    (by norm_num) (by rw [abs_lt]; constructor <;> norm_num)]
  norm_num

/-- The loading loop stores a 64-bit coordinate in the `float` member of the
point: the `x` of `wideRecord`, 33554433, is stored as 33554432. -/
theorem loadedPoint_wide :
    loadedPoint doublePositionFields wideRecord = some ⟨33554432, 0, 0, 0, 0, 1⟩ := by
  have hx : (scanFields doublePositionFields).1.posX = some ⟨"x", 0, Datatype.FLOAT64⟩ := by
    decide
  have hy : (scanFields doublePositionFields).1.posY = some ⟨"y", 8, Datatype.FLOAT64⟩ := by
    decide
  have hz : (scanFields doublePositionFields).1.posZ = some ⟨"z", 16, Datatype.FLOAT64⟩ := by
    decide
  have hnx : (scanFields doublePositionFields).1.normalX
      = some ⟨"normal_x", 24, Datatype.FLOAT32⟩ := by decide
  have hny : (scanFields doublePositionFields).1.normalY
      = some ⟨"normal_y", 28, Datatype.FLOAT32⟩ := by decide
  have hnz : (scanFields doublePositionFields).1.normalZ
      = some ⟨"normal_z", 32, Datatype.FLOAT32⟩ := by decide
  unfold loadedPoint
  rw [hx, hy, hz, hnx, hny, hnz]
  simp only [readPoint, wideRecord, if_true, toFloat_wide, toFloat_zero]
  simp [toFloat_zero]

/-! ## Clouds laid out in sites of 30 coincident points -/

/-- The cluster of all indices of the non-ground set has the whole set as its
cloud. -/
theorem clusterCloud_range (ng : List PointNormal) :
    clusterCloud ng (List.range ng.length) = some ng := by
  rw [clusterCloud_some ng _ (fun i hi => List.mem_range.mp hi)]
  congr 1
  apply List.ext_getElem
  · simp
  · intro n h1 h2
    simp [List.getD_eq_getElem?_getD, List.getElem?_eq_getElem h2]

theorem siteCloud_length (flat sites : Nat) (u v : PointNormal) :
    (siteCloud flat sites u v).length = flat + 30 * sites := by
  simp [siteCloud]

theorem siteCloud_flat_get (flat sites : Nat) (u v : PointNormal) (k : Nat) (hk : k < flat) :
    (siteCloud flat sites u v)[k]? = some flatPoint := by
  unfold siteCloud
  rw [List.getElem?_append_left (by rw [List.length_replicate]; exact hk),
    List.getElem?_replicate_of_lt hk]

theorem siteCloud_site_get (flat sites : Nat) (u v : PointNormal) (i : Nat)
    (hi : i < 30 * sites) :
    (siteCloud flat sites u v)[flat + i]? = some (sitePoint u v i) := by
  unfold siteCloud
  rw [List.getElem?_append_right (by rw [List.length_replicate]; omega),
    List.length_replicate, Nat.add_sub_cancel_left, List.getElem?_map,
    List.getElem?_range hi]
  rfl

theorem siteCloud_mem (flat sites : Nat) (u v p : PointNormal)
    (hp : p ∈ siteCloud flat sites u v) :
    p = flatPoint ∨ ∃ i, i < 30 * sites ∧ p = sitePoint u v i := by
  unfold siteCloud at hp
  rcases List.mem_append.mp hp with h | h
  · exact Or.inl (List.eq_of_mem_replicate h)
  · obtain ⟨i, hi, rfl⟩ := List.mem_map.mp h
    exact Or.inr ⟨i, List.mem_range.mp hi, rfl⟩

theorem siteNeighbours_flat (flat : Nat) (cloud : List PointNormal) (k : Nat) :
    siteNeighbours flat cloud flatPoint k = List.range' 0 k := by
  have hz : flatPoint.z = 10 := rfl
  unfold siteNeighbours
  rw [hz, if_pos rfl]

theorem siteNeighbours_site (flat : Nat) (cloud : List PointNormal) (u v : PointNormal)
    (i k : Nat) :
    siteNeighbours flat cloud (sitePoint u v i) k = List.range' (flat + 30 * (i / 30)) k := by
  have hz : (sitePoint u v i).z = 0 := by
    unfold sitePoint; split <;> rfl
  have hx : (sitePoint u v i).x = ((i / 30 : Nat) : ℚ) := by
    unfold sitePoint; split <;> rfl
  unfold siteNeighbours
  rw [hz, hx, if_neg (by norm_num), Nat.floor_natCast]

theorem siteNeighbours_valid (flat sites : Nat) (u v : PointNormal) (h30 : 30 ≤ flat) :
    ∀ p ∈ siteCloud flat sites u v,
      ∀ k ∈ siteNeighbours flat (siteCloud flat sites u v) p K,
        k < (siteCloud flat sites u v).length := by
  intro p hp k hk
  rw [siteCloud_length]
  rcases siteCloud_mem flat sites u v p hp with rfl | ⟨i, hi, rfl⟩
  · rw [siteNeighbours_flat, List.mem_range'_1] at hk
    unfold K at hk
    omega
  · rw [siteNeighbours_site, List.mem_range'_1] at hk
    unfold K at hk
    omega


/-- The test on two points of a row of sites depends on their normals only. -/
theorem nearParallel_sitePoint (u v : PointNormal) (i k : Nat) :
    nearParallel (sitePoint u v i) (sitePoint u v k)
      = nearParallel (if i % 30 < 15 then u else v) (if k % 30 < 15 then u else v) := by
  unfold sitePoint
  split <;> split <;> rfl

theorem countP_halves (a b : Bool) :
    (List.range 30).countP (fun j => if j < 15 then a else b)
      = (if a = true then 15 else 0) + (if b = true then 15 else 0) := by
  cases a <;> cases b <;> decide

/-- The number of queried neighbours that pass the test, for a point of a site:
its neighbours are the 30 points of the site. -/
theorem site_parallel (flat sites : Nat) (u v : PointNormal) (i : Nat)
    (hi : i < 30 * sites) :
    parallelNeighbours (siteCloud flat sites u v) (sitePoint u v i)
        (List.range' (flat + 30 * (i / 30)) 30)
      = (if nearParallel (if i % 30 < 15 then u else v) u = true then 15 else 0)
        + (if nearParallel (if i % 30 < 15 then u else v) v = true then 15 else 0) := by
  unfold parallelNeighbours
  rw [List.range'_eq_map_range, List.countP_map, ← countP_halves]
  apply List.countP_congr
  intro j hj
  have hj30 : j < 30 := List.mem_range.mp hj
  have hget : (siteCloud flat sites u v)[flat + 30 * (i / 30) + j]?
      = some (sitePoint u v (30 * (i / 30) + j)) := by
    rw [Nat.add_assoc]
    exact siteCloud_site_get flat sites u v _ (by omega)
  have hmod : (30 * (i / 30) + j) % 30 = j := by omega
  rw [Function.comp_apply, hget]
  simp only
  rw [nearParallel_sitePoint, hmod]
  by_cases h15 : j < 15
  · rw [if_pos h15, if_pos h15]
  · rw [if_neg h15, if_neg h15]

/-- The number of queried neighbours that pass the test, for a flat point: its
neighbours are 30 flat points. -/
theorem flat_parallel (flat sites : Nat) (u v : PointNormal) (h30 : 30 ≤ flat) :
    parallelNeighbours (siteCloud flat sites u v) flatPoint (List.range' 0 30) = 30 := by
  have hpar : nearParallel flatPoint flatPoint = true := by
    unfold nearParallel
    exact decide_eq_true (normalDot_same flatPoint flatPoint 0 0 1 (by norm_num)
      ⟨rfl, rfl, rfl⟩ ⟨rfl, rfl, rfl⟩)
  unfold parallelNeighbours
  have hlen : (List.range' 0 30).length = 30 := List.length_range' _ _ _
  refine Eq.trans ?_ hlen
  rw [List.countP_eq_length]
  intro k hk
  rw [List.mem_range'_1] at hk
  rw [siteCloud_flat_get flat sites u v k (by omega)]
  exact hpar


/-- The vote on a site cloud whose sites fail it: at every site, neither the
points with the normal of `u` nor those with the normal of `v` find both halves
of the site passing the test.  The flat points are the surface points. -/
theorem site_count (flat sites : Nat) (u v : PointNormal) (h30 : 30 ≤ flat)
    (hu : ¬ (nearParallel u u = true ∧ nearParallel u v = true))
    (hv : ¬ (nearParallel v u = true ∧ nearParallel v v = true)) :
    (∀ i, i < 30 * sites →
        isSurfacePoint (siteNeighbours flat) (siteCloud flat sites u v) (sitePoint u v i)
          = some false)
    ∧ countSurfacePoints (siteNeighbours flat) (siteCloud flat sites u v) = some flat := by
  have hflat : decide (toFloat (parallelNeighbours (siteCloud flat sites u v) flatPoint
        (siteNeighbours flat (siteCloud flat sites u v) flatPoint K) : ℚ)
      ≥ toFloat (toFloat ((siteNeighbours flat (siteCloud flat sites u v) flatPoint K).length : ℚ)
          * toFloat (4 / 5))) = true := by
    rw [siteNeighbours_flat]
    unfold K
    rw [List.length_range', flat_parallel flat sites u v h30, decide_eq_true_eq]
    exact (vote_threshold 30 (le_refl _)).mpr (by norm_num)
  have hsite : ∀ i, i < 30 * sites →
      decide (toFloat (parallelNeighbours (siteCloud flat sites u v) (sitePoint u v i)
          (siteNeighbours flat (siteCloud flat sites u v) (sitePoint u v i) K) : ℚ)
        ≥ toFloat (toFloat
            ((siteNeighbours flat (siteCloud flat sites u v) (sitePoint u v i) K).length : ℚ)
            * toFloat (4 / 5))) = false := by
    intro i hi
    rw [siteNeighbours_site]
    unfold K
    rw [List.length_range', site_parallel flat sites u v i hi, decide_eq_false_iff_not]
    have hle : (if nearParallel (if i % 30 < 15 then u else v) u = true then 15 else 0)
        + (if nearParallel (if i % 30 < 15 then u else v) v = true then 15 else 0) ≤ 15 := by
      by_cases h15 : i % 30 < 15
      · rw [if_pos h15]
        by_cases h1 : nearParallel u u = true
        · have h2 : ¬ nearParallel u v = true := fun h2 => hu ⟨h1, h2⟩
          rw [if_pos h1, if_neg h2]
        · rw [if_neg h1]; split <;> omega
      · rw [if_neg h15]
        by_cases h1 : nearParallel v u = true
        · have h2 : ¬ nearParallel v v = true := fun h2 => hv ⟨h1, h2⟩
          rw [if_pos h1, if_neg h2]
        · rw [if_neg h1]; split <;> omega
    intro hge
    have := (vote_threshold _ (le_trans hle (by norm_num))).mp hge
    omega
  constructor
  · intro i hi
    rw [isSurfacePoint_eq _ _ _ (siteNeighbours_valid flat sites u v h30 _ (by
      unfold siteCloud
      exact List.mem_append_right _ (List.mem_map.mpr ⟨i, List.mem_range.mpr hi, rfl⟩))),
      hsite i hi]
  · rw [countSurfacePoints_eq _ _ (siteNeighbours_valid flat sites u v h30)]
    congr 1
    have happ : siteCloud flat sites u v
        = List.replicate flat flatPoint ++ (List.range (30 * sites)).map (sitePoint u v) := rfl
    rw [happ, List.countP_append, List.countP_replicate, ← happ, if_pos hflat,
      List.countP_eq_zero.mpr, Nat.add_zero]
    intro p hp
    obtain ⟨i, hi, rfl⟩ := List.mem_map.mp hp
    rw [hsite i (List.mem_range.mp hi)]
    exact Bool.false_ne_true

/-! ## Dot products in float arithmetic -/

theorem nearParallel_x_x : nearParallel xNormal xNormal = true := by
  simp [nearParallel, normalDot, xNormal, toFloat_zero, toFloat_one, toDouble_nine_tenths]
  norm_num

theorem nearParallel_x_y : nearParallel xNormal yNormal = false := by
  simp [nearParallel, normalDot, xNormal, yNormal, toFloat_zero, toFloat_one,
    toDouble_nine_tenths]
  norm_num

theorem nearParallel_y_x : nearParallel yNormal xNormal = false := by
  simp [nearParallel, normalDot, xNormal, yNormal, toFloat_zero, toFloat_one,
    toDouble_nine_tenths]
  norm_num

/-- The `float` product of `63 / 64` and `15339169 / 2²⁴` is `15099494 / 2²⁴`: the
exact product `966367647 / 2³⁰` lies between two neighbouring values of the format
and is rounded down. -/
theorem long_short_product :
    toFloat ((63 / 64 : ℚ) * (15339169 / 2 ^ 24)) = 15099494 / 2 ^ 24 := by
  rw [toFloat_eq ((63 / 64 : ℚ) * (15339169 / 2 ^ 24)) (-1) 15099494 (by norm_num)
    (by norm_num) (by norm_num) (by norm_num) (by rw [abs_lt]; constructor <;> norm_num)]
  norm_num

theorem toFloat_long_short : toFloat (15099494 / 2 ^ 24 : ℚ) = 15099494 / 2 ^ 24 := by
  rw [toFloat_eq (15099494 / 2 ^ 24 : ℚ) (-1) 15099494 (by norm_num)
    (by norm_num) (by norm_num) (by norm_num) (by rw [abs_lt]; constructor <;> norm_num)]
  norm_num

/-- In `float` arithmetic the dot product of the normals `(63 / 64, 0, 0)` and
`(15339169 / 2²⁴, 0, 0)` is `15099494 / 2²⁴`, which is below 0.9. -/
theorem normalDot_long_short : normalDot longNormal shortNormal = 15099494 / 2 ^ 24 := by
  simp only [normalDot, longNormal, shortNormal, mul_zero, toFloat_zero, add_zero]
  rw [long_short_product, toFloat_long_short]

theorem normalDot_short_long : normalDot shortNormal longNormal = 15099494 / 2 ^ 24 := by
  simp only [normalDot, longNormal, shortNormal, mul_zero, toFloat_zero, add_zero]
  rw [mul_comm, long_short_product, toFloat_long_short]

/-- In exact arithmetic the same dot product is above 0.9. -/
theorem exactDot_long_short : exactDot longNormal shortNormal > 9 / 10 := by
  simp only [exactDot, longNormal, shortNormal]
  norm_num

theorem nearParallel_long_short : nearParallel longNormal shortNormal = false := by
  unfold nearParallel
  rw [normalDot_long_short, toDouble_nine_tenths, decide_eq_false_iff_not]
  norm_num

theorem nearParallel_short_long : nearParallel shortNormal longNormal = false := by
  unfold nearParallel
  rw [normalDot_short_long, toDouble_nine_tenths, decide_eq_false_iff_not]
  norm_num

/-! ## A cluster of 75,000,562 points -/

theorem hugeCloud_length : hugeCloud.length = 75000562 := by
  unfold hugeCloud
  rw [siteCloud_length]

theorem hugeCloud_cloud :
    clusterCloud hugeObject.nongroundPoints (List.range 75000562) = some hugeCloud := by
  have h := clusterCloud_range hugeCloud
  rw [hugeCloud_length] at h
  exact h

/-- The vote on `hugeCloud`: the flat points are its surface points. -/
theorem hugeCloud_count :
    countSurfacePoints (siteNeighbours 15000112) hugeCloud = some 15000112 :=
  (site_count 15000112 2000015 xNormal yNormal (by norm_num)
    (fun h => Bool.false_ne_true (nearParallel_x_y.symm.trans h.2))
    (fun h => Bool.false_ne_true (nearParallel_y_x.symm.trans h.1))).2

/-- The conversion of 75,000,562 to `float` gives 75,000,560. -/
theorem toFloat_hugeCloud_length : toFloat ((75000562 : ℕ) : ℚ) = 75000560 := by
  rw [toFloat_eq ((75000562 : ℕ) : ℚ) 26 9375070 (by norm_num)
    (by norm_num) (by norm_num) (by norm_num) (by rw [abs_lt]; constructor <;> norm_num)]
  norm_num

/-- The decision of `detectPlanes` on 15,000,112 surface points among 75,000,562
points: the `float` ratio is the `float` nearest 0.2. -/
theorem hugeCloud_decision : planarDecision 15000112 75000562 := by
  unfold planarDecision
  rw [toFloat_natCast 15000112 (by norm_num), toFloat_hugeCloud_length]
  refine ⟨?_, by unfold MIN_CLUSTER_SIZE; norm_num⟩
  have h : ((15000112 : ℕ) : ℚ) / 75000560 = 1 / 5 := by norm_num
  rw [h]

theorem hugeCloud_examine :
    (examineCluster (siteNeighbours 15000112) hugeObject 0 (List.range 75000562)).2.groundPoints
      = hugeObject.groundPoints ++ hugeCloud := by
  obtain ⟨_, _, h3⟩ := examineCluster_eq (siteNeighbours 15000112) hugeObject 0
    (List.range 75000562) hugeCloud 15000112 hugeCloud_cloud hugeCloud_count
  rw [h3, hugeCloud_length, if_pos hugeCloud_decision]

theorem hugeCloud_ne_nil : hugeCloud ≠ [] := by
  intro h
  have := hugeCloud_length
  rw [h] at this
  exact absurd this (by decide)

/-! ## The claims -/

/-- C1. For every input blob and every clustering result, a record whose class
byte is ground (2) is in `groundPoints` after `loadPointCloud` and still there
after `detectPlanes`: the label split puts it there and the planarity stage,
which only appends to `groundPoints`, never removes it. -/
theorem ground_label_stays_ground (blob : PCLPointCloud2) (self : Odm25dMeshing)
    (reg : RegionGrowing) (kdtree : NearestKSearch) (c : PCLPointField) (point : RawPoint)
    (hload : (loadPointCloud (some blob) self).1 = Outcome.ok)
    (hc : (scanFields blob.fields).1.classification = some c)
    (hpoint : point ∈ blob.points)
    (hlabel : point.asUInt8 c.offset = CLASS_GROUND) :
    ∃ p, loadedPoint blob.fields point = some p
      ∧ p ∈ (loadPointCloud (some blob) self).2.groundPoints
      ∧ p ∈ (detectPlanes reg kdtree (loadPointCloud (some blob) self).2).2.groundPoints := by
  apply ground_after_segmentation blob self reg kdtree point hload hpoint
  intro c2 hc2
  rw [hc] at hc2
  cases hc2
  unfold toNonground usableClassification nextClass
  by_cases hu : c.datatype ≠ Datatype.UINT8
  · simp [hu, CLASS_GROUND]
  · simp [hu, hlabel]

/-- Instance of C1 on `sampleBlob`: its first record has class byte 2. -/
theorem ground_label_stays_ground_witness :
    (loadPointCloud (some sampleBlob) freshObject).1 = Outcome.ok
    ∧ (scanFields sampleBlob.fields).1.classification
        = some ⟨"classification", 24, Datatype.UINT8⟩
    ∧ groundRecord ∈ sampleBlob.points
    ∧ groundRecord.asUInt8 24 = CLASS_GROUND
    ∧ ∃ p, loadedPoint sampleBlob.fields groundRecord = some p
      ∧ p ∈ (loadPointCloud (some sampleBlob) freshObject).2.groundPoints
      ∧ p ∈ (detectPlanes noClusters firstNeighbours
          (loadPointCloud (some sampleBlob) freshObject).2).2.groundPoints :=
  ⟨by decide, by decide, List.mem_cons_self _ _, by decide,
    ground_label_stays_ground sampleBlob freshObject noClusters firstNeighbours
      ⟨"classification", 24, Datatype.UINT8⟩ groundRecord (by decide) (by decide)
      (List.mem_cons_self _ _) (by decide)⟩

/-- C2, as stated, fails: the one record of `nearOneBlob` has class byte 1 and
carries the 64-bit height above ground `1 - 2⁻³⁰`, a value of the `double` format
strictly below 1.0.  The loading loop assigns it to the `float` variable
`pointHag`, where it becomes 1.0, so the record goes to `nongroundPoints`; no
cluster is found in a set of one point, and after `loadPointCloud` followed by
`detectPlanes` the point is not in `groundPoints`, which is empty. -/
theorem narrowed_height_counterexample :
    nearOneBlob.points = [nearOneRecord]
    ∧ classificationLabel nearOneBlob.fields nearOneRecord = some 1
    ∧ heightAboveGround nearOneBlob.fields nearOneRecord = some (1 - 1 / 2 ^ 30)
    ∧ toDouble (1 - 1 / 2 ^ 30) = 1 - 1 / 2 ^ 30
    ∧ ((1 : ℚ) - 1 / 2 ^ 30 < 1)
    ∧ storedHag nearOneBlob.fields nearOneRecord = some 1
    ∧ loadedPoint nearOneBlob.fields nearOneRecord = some ⟨7, 8, 9, 0, 0, 1⟩
    ∧ (loadPointCloud (some nearOneBlob) freshObject).1 = Outcome.ok
    ∧ (detectPlanes noClusters firstNeighbours
        (loadPointCloud (some nearOneBlob) freshObject).2).1 = Outcome.ok
    ∧ (detectPlanes noClusters firstNeighbours
        (loadPointCloud (some nearOneBlob) freshObject).2).2.groundPoints = []
    ∧ (detectPlanes noClusters firstNeighbours
        (loadPointCloud (some nearOneBlob) freshObject).2).2.nongroundPoints
        = [⟨7, 8, 9, 0, 0, 1⟩] := by
  obtain ⟨h1, h2, h3⟩ := nearOne_load
  refine ⟨rfl, by decide, nearOne_heightAboveGround, toDouble_near_one, by norm_num,
    nearOne_storedHag, by decide, h1, rfl, ?_, ?_⟩
  · exact h2
  · exact h3

/-- C2, as the code has it. A record whose height above ground, as the loading
loop holds it in the `float` variable `pointHag` (a 32-bit value as it is, a
64-bit value rounded to the nearest `float`), is strictly below 1.0 is in
`groundPoints` after `loadPointCloud` followed by `detectPlanes`, whatever its
class byte.  The `float` nearest a value is below 1.0 exactly when the value is
below `1 - 2⁻²⁵`. -/
theorem low_point_is_ground (blob : PCLPointCloud2) (self : Odm25dMeshing)
    (reg : RegionGrowing) (kdtree : NearestKSearch) (point : RawPoint) (v : ℚ)
    (hload : (loadPointCloud (some blob) self).1 = Outcome.ok)
    (hpoint : point ∈ blob.points)
    (hv : storedHag blob.fields point = some v)
    (hlow : v < 1) :
    (∃ p, loadedPoint blob.fields point = some p
      ∧ p ∈ (loadPointCloud (some blob) self).2.groundPoints
      ∧ p ∈ (detectPlanes reg kdtree (loadPointCloud (some blob) self).2).2.groundPoints)
    ∧ (∀ d : ℚ, toFloat d < 1 ↔ d < 1 - 1 / 2 ^ 25) := by
  refine ⟨?_, toFloat_lt_one_iff⟩
  apply ground_after_segmentation blob self reg kdtree point hload hpoint
  intro c _
  unfold toNonground
  rw [nextHag_eq blob.fields point v hv]
  simp [HAG_THRESHOLD, hlow]

/-- Instance of the amended C2 on `sampleBlob`: its second record has class byte 1
and height above ground 0. -/
theorem low_point_is_ground_witness :
    (loadPointCloud (some sampleBlob) freshObject).1 = Outcome.ok
    ∧ lowRecord ∈ sampleBlob.points
    ∧ storedHag sampleBlob.fields lowRecord = some 0
    ∧ ((0 : ℚ) < 1)
    ∧ (∃ p, loadedPoint sampleBlob.fields lowRecord = some p
      ∧ p ∈ (loadPointCloud (some sampleBlob) freshObject).2.groundPoints
      ∧ p ∈ (detectPlanes noClusters firstNeighbours
          (loadPointCloud (some sampleBlob) freshObject).2).2.groundPoints)
    ∧ (∀ d : ℚ, toFloat d < 1 ↔ d < 1 - 1 / 2 ^ 25) :=
  ⟨by decide, List.mem_cons_of_mem _ (List.mem_cons_self _ _), by decide, by norm_num,
    low_point_is_ground sampleBlob freshObject noClusters firstNeighbours lowRecord 0
      (by decide) (List.mem_cons_of_mem _ (List.mem_cons_self _ _)) (by decide)
      (by norm_num)⟩

/-- C3, as stated, fails: the blob `noHagBlob` has no height-above-ground field
and its one record has class byte 1 (not ground), yet `loadPointCloud` places
the record in `groundPoints` and leaves `nongroundPoints` empty. -/
theorem missing_hag_counterexample :
    (∀ f ∈ noHagBlob.fields, f.name ≠ "heightaboveground")
    ∧ classificationLabel noHagBlob.fields highRecord = some 1
    ∧ noHagBlob.points = [highRecord]
    ∧ (loadPointCloud (some noHagBlob) freshObject).1 = Outcome.ok
    ∧ (loadPointCloud (some noHagBlob) freshObject).2.nongroundPoints = []
    ∧ (loadPointCloud (some noHagBlob) freshObject).2.groundPoints
        = [⟨7, 8, 9, 0, 0, 1⟩] := by
  refine ⟨by decide, by decide, rfl, by decide, ?_, ?_⟩
  · exact (load_without_hag noHagBlob freshObject (by decide) (by decide)).2
  · rw [(load_without_hag noHagBlob freshObject (by decide) (by decide)).1]
    decide

/-- C3, as the code has it. When the input has no height-above-ground field,
`pointHag` keeps its initial value `std::numeric_limits<float>::min()`, which is
below the 1.0 threshold: a successful `loadPointCloud` places every record,
whatever its class byte, in `groundPoints` and adds nothing to
`nongroundPoints`. -/
theorem missing_hag_all_ground (blob : PCLPointCloud2) (self : Odm25dMeshing)
    (hnohag : ∀ f ∈ blob.fields, f.name ≠ "heightaboveground")
    (hload : (loadPointCloud (some blob) self).1 = Outcome.ok) :
    FLT_MIN < HAG_THRESHOLD
    ∧ (loadPointCloud (some blob) self).2.groundPoints
        = self.groundPoints ++ blob.points.filterMap (loadedPoint blob.fields)
    ∧ (loadPointCloud (some blob) self).2.nongroundPoints = self.nongroundPoints
    ∧ ∀ point, (loadedPoint blob.fields point).isSome = true :=
  ⟨FLT_MIN_lt_threshold, (load_without_hag blob self hnohag hload).1,
    (load_without_hag blob self hnohag hload).2, (load_partition blob self hload).2.2⟩

/-- Instance of the amended C3 on `noHagBlob`. -/
theorem missing_hag_all_ground_witness :
    (∀ f ∈ noHagBlob.fields, f.name ≠ "heightaboveground")
    ∧ (loadPointCloud (some noHagBlob) freshObject).1 = Outcome.ok
    ∧ FLT_MIN < HAG_THRESHOLD
    ∧ (loadPointCloud (some noHagBlob) freshObject).2.groundPoints
        = freshObject.groundPoints ++ noHagBlob.points.filterMap (loadedPoint noHagBlob.fields)
    ∧ (loadPointCloud (some noHagBlob) freshObject).2.nongroundPoints
        = freshObject.nongroundPoints
    ∧ ∀ point, (loadedPoint noHagBlob.fields point).isSome = true :=
  ⟨by decide, by decide, missing_hag_all_ground noHagBlob freshObject (by decide) (by decide)⟩

/-- C4, as stated, fails: `hugeCloud` is a cluster of 75,000,562 points of which
the vote counts 15,000,112 as surface points, so `surface_points /
points_in_cluster` is below 0.2.  In `float` arithmetic the cluster size becomes
75,000,560 and the quotient the `float` nearest 0.2, which passes the test
`surface_ratio >= 0.2f`: the step appends the whole cluster to `groundPoints`,
which does not stay as it was. -/
theorem cluster_ratio_counterexample :
    clusterCloud hugeObject.nongroundPoints (List.range 75000562) = some hugeCloud
    ∧ hugeCloud.length = 75000562
    ∧ countSurfacePoints (siteNeighbours 15000112) hugeCloud = some 15000112
    ∧ (((15000112 : ℕ) : ℚ) / ((75000562 : ℕ) : ℚ) < 1 / 5)
    ∧ toFloat ((15000112 : ℕ) : ℚ) = 15000112
    ∧ toFloat ((75000562 : ℕ) : ℚ) = 75000560
    ∧ toFloat (toFloat ((15000112 : ℕ) : ℚ) / toFloat ((75000562 : ℕ) : ℚ)) = toFloat (1 / 5)
    ∧ (examineCluster (siteNeighbours 15000112) hugeObject 0
        (List.range 75000562)).2.groundPoints = hugeObject.groundPoints ++ hugeCloud
    ∧ (examineCluster (siteNeighbours 15000112) hugeObject 0
        (List.range 75000562)).2.groundPoints ≠ hugeObject.groundPoints := by
  refine ⟨hugeCloud_cloud, hugeCloud_length, hugeCloud_count, by norm_num,
    toFloat_natCast 15000112 (by norm_num), toFloat_hugeCloud_length, ?_,
    hugeCloud_examine, ?_⟩
  · rw [toFloat_natCast 15000112 (by norm_num), toFloat_hugeCloud_length]
    have h : ((15000112 : ℕ) : ℚ) / 75000560 = 1 / 5 := by norm_num
    rw [h]
  · rw [hugeCloud_examine]
    intro h
    have hnil : hugeObject.groundPoints = [] := rfl
    rw [hnil, List.nil_append] at h
    exact hugeCloud_ne_nil h

/-- C4, as the code has it. For a cluster `detectPlanes` examines (its indices lie
in `nongroundPoints`, the vote ends with `surface_points` surface points), with
`surface_ratio` the quotient `(float)surface_points / (float)points_in_cluster`
of the two counts in `float` arithmetic: when `surface_ratio >= 0.2f` and
`surface_points >= 100`, all points of the cluster are appended to
`groundPoints`; otherwise `groundPoints` is left as it was.  For a cluster of
fewer than `2 ^ 24` points the test is the test `surface_points /
points_in_cluster ≥ 0.2` on the exact ratio. -/
theorem cluster_decision (kdtree : NearestKSearch) (self : Odm25dMeshing)
    (cluster_idx : Nat) (indices : List Nat) (cloud : List PointNormal) (sp : Nat)
    (hcloud : clusterCloud self.nongroundPoints indices = some cloud)
    (hcount : countSurfacePoints kdtree cloud = some sp) :
    (examineCluster kdtree self cluster_idx indices).1 = Outcome.ok
    ∧ cloud.length = indices.length
    ∧ ((toFloat (toFloat (sp : ℚ) / toFloat (cloud.length : ℚ)) ≥ toFloat (1 / 5)
          ∧ sp ≥ 100) →
        (examineCluster kdtree self cluster_idx indices).2.groundPoints
          = self.groundPoints ++ cloud)
    ∧ (¬ (toFloat (toFloat (sp : ℚ) / toFloat (cloud.length : ℚ)) ≥ toFloat (1 / 5)
          ∧ sp ≥ 100) →
        (examineCluster kdtree self cluster_idx indices).2.groundPoints
          = self.groundPoints)
    ∧ (cloud.length < 2 ^ 24 →
        ((toFloat (toFloat (sp : ℚ) / toFloat (cloud.length : ℚ)) ≥ toFloat (1 / 5)
            ∧ sp ≥ 100)
          ↔ ((sp : ℚ) / (cloud.length : ℚ) ≥ 1 / 5 ∧ sp ≥ 100))) := by
  obtain ⟨h1, _, h3⟩ := examineCluster_eq kdtree self cluster_idx indices cloud sp
    hcloud hcount
  refine ⟨h1, (clusterCloud_valid _ _ _ hcloud).1, ?_, ?_, ?_⟩
  · intro hd
    rw [h3, if_pos (show planarDecision sp cloud.length from hd)]
  · intro hd
    rw [h3, if_neg (show ¬ planarDecision sp cloud.length from hd)]
  · intro hsmall
    rw [ratio_decision sp cloud.length (countSurfacePoints_le kdtree cloud sp hcount) hsmall]

/-- Instance of the amended C4 on the roof: 150 points, 150 surface points. -/
theorem cluster_decision_witness :
    clusterCloud roofObject.nongroundPoints (List.range 150) = some roof
    ∧ countSurfacePoints firstNeighbours roof = some 150
    ∧ (examineCluster firstNeighbours roofObject 0 (List.range 150)).1 = Outcome.ok
    ∧ roof.length = (List.range 150).length
    ∧ ((toFloat (toFloat ((150 : Nat) : ℚ) / toFloat (roof.length : ℚ)) ≥ toFloat (1 / 5)
          ∧ 150 ≥ 100) →
        (examineCluster firstNeighbours roofObject 0 (List.range 150)).2.groundPoints
          = roofObject.groundPoints ++ roof)
    ∧ (¬ (toFloat (toFloat ((150 : Nat) : ℚ) / toFloat (roof.length : ℚ)) ≥ toFloat (1 / 5)
          ∧ 150 ≥ 100) →
        (examineCluster firstNeighbours roofObject 0 (List.range 150)).2.groundPoints
          = roofObject.groundPoints)
    ∧ (roof.length < 2 ^ 24 →
        ((toFloat (toFloat ((150 : Nat) : ℚ) / toFloat (roof.length : ℚ)) ≥ toFloat (1 / 5)
            ∧ 150 ≥ 100)
          ↔ (((150 : Nat) : ℚ) / (roof.length : ℚ) ≥ 1 / 5 ∧ 150 ≥ 100))) :=
  have hcount : countSurfacePoints firstNeighbours roof = some 150 := by
    rw [countSurfacePoints_all firstNeighbours roof
      (fun p hp q hq => normalDot_same p q 0 0 1 (by norm_num) (roof_normals p hp)
        (roof_normals q hq))
      (firstNeighbours_valid roof), roof_length]
  ⟨roof_cloud, hcount,
    cluster_decision firstNeighbours roofObject 0 (List.range 150) roof 150 roof_cloud hcount⟩

/-- C5. For a cluster of at least 100 points of `nongroundPoints` whose normals
are all the same unit vector (and a neighbour search that answers with indices
into the cluster cloud): every member is counted as a surface point, so
`surface_points` is the cluster size, the ratio is 1, and the cluster step
appends all points of the cluster to `groundPoints`; so does `detectPlanes` when
this is the one cluster found, and whenever `detectPlanes` ends normally with
this cluster among those found. -/
theorem identical_normals_cluster_is_ground (kdtree : NearestKSearch)
    (self : Odm25dMeshing) (cluster_idx : Nat) (indices : List Nat)
    (cloud : List PointNormal) (nx ny nz : ℚ)
    (hcloud : clusterCloud self.nongroundPoints indices = some cloud)
    (hsize : cloud.length ≥ 100)
    (hunit : nx * nx + ny * ny + nz * nz = 1)
    (hnormal : ∀ p ∈ cloud, p.normal_x = nx ∧ p.normal_y = ny ∧ p.normal_z = nz)
    (hvalid : ∀ p ∈ cloud, ∀ k ∈ kdtree cloud p K, k < cloud.length) :
    (∀ p ∈ cloud, isSurfacePoint kdtree cloud p = some true)
    ∧ countSurfacePoints kdtree cloud = some cloud.length
    ∧ (cloud.length : ℚ) / (cloud.length : ℚ) = 1
    ∧ (examineCluster kdtree self cluster_idx indices).1 = Outcome.ok
    ∧ (examineCluster kdtree self cluster_idx indices).2.groundPoints
        = self.groundPoints ++ cloud
    ∧ (∀ reg : RegionGrowing, reg self.nongroundPoints = [indices] →
        (detectPlanes reg kdtree self).1 = Outcome.ok
        ∧ (detectPlanes reg kdtree self).2.groundPoints = self.groundPoints ++ cloud)
    ∧ (∀ reg : RegionGrowing, indices ∈ reg self.nongroundPoints →
        (detectPlanes reg kdtree self).1 = Outcome.ok →
        ∀ p ∈ cloud, p ∈ (detectPlanes reg kdtree self).2.groundPoints) := by
  obtain ⟨hall, hcount⟩ := identical_normals_vote kdtree cloud nx ny nz hunit hnormal hvalid
  have hd : planarDecision cloud.length cloud.length := planarDecision_all _ hsize
  obtain ⟨h1, _, h3⟩ := examineCluster_eq kdtree self cluster_idx indices cloud cloud.length
    hcloud hcount
  rw [if_pos hd] at h3
  refine ⟨hall, hcount, ?_, h1, h3, ?_, ?_⟩
  · have hpos : (0 : ℚ) < (cloud.length : ℚ) := by
      have : 0 < cloud.length := by omega
      exact_mod_cast this
    exact div_self (ne_of_gt hpos)
  · intro reg hreg
    obtain ⟨d1, _, d3⟩ := detectPlanes_single reg kdtree self indices cloud cloud.length
      hreg hcloud hcount
    rw [if_pos hd] at d3
    exact ⟨d1, d3⟩
  · intro reg hmem hok
    exact detectPlanes_planar reg kdtree self hok indices hmem cloud cloud.length hcloud
      hcount hd

/-- Instance of C5 on the roof: a cluster of 150 points with normal `(0, 0, 1)`. -/
theorem identical_normals_cluster_is_ground_witness :
    clusterCloud roofObject.nongroundPoints (List.range 150) = some roof
    ∧ roof.length ≥ 100
    ∧ ((0 : ℚ) * 0 + 0 * 0 + 1 * 1 = 1)
    ∧ (∀ p ∈ roof, p.normal_x = 0 ∧ p.normal_y = 0 ∧ p.normal_z = 1)
    ∧ (∀ p ∈ roof, ∀ k ∈ firstNeighbours roof p K, k < roof.length)
    ∧ (∀ p ∈ roof, isSurfacePoint firstNeighbours roof p = some true)
    ∧ countSurfacePoints firstNeighbours roof = some roof.length
    ∧ (roof.length : ℚ) / (roof.length : ℚ) = 1
    ∧ (examineCluster firstNeighbours roofObject 0 (List.range 150)).1 = Outcome.ok
    ∧ (examineCluster firstNeighbours roofObject 0 (List.range 150)).2.groundPoints
        = roofObject.groundPoints ++ roof
    ∧ (∀ reg : RegionGrowing, reg roofObject.nongroundPoints = [List.range 150] →
        (detectPlanes reg firstNeighbours roofObject).1 = Outcome.ok
        ∧ (detectPlanes reg firstNeighbours roofObject).2.groundPoints
            = roofObject.groundPoints ++ roof)
    ∧ (∀ reg : RegionGrowing, List.range 150 ∈ reg roofObject.nongroundPoints →
        (detectPlanes reg firstNeighbours roofObject).1 = Outcome.ok →
        ∀ p ∈ roof, p ∈ (detectPlanes reg firstNeighbours roofObject).2.groundPoints) :=
  ⟨roof_cloud, by rw [roof_length]; decide, by norm_num, roof_normals,
    firstNeighbours_valid roof,
    identical_normals_cluster_is_ground firstNeighbours roofObject 0 (List.range 150) roof
      0 0 1 roof_cloud (by rw [roof_length]; decide) (by norm_num) roof_normals
      (firstNeighbours_valid roof)⟩

/-- C6, as stated, fails: before `detectPlanes` the roof point `(0, 0, 10)` is in
`nongroundPoints` only; the roof is one cluster of 150 points judged planar;
after `detectPlanes` the point is in `groundPoints` and still in
`nongroundPoints`, so the two sets are not disjoint and the point has not been
moved. -/
theorem moved_points_counterexample :
    roofObject.groundPoints = []
    ∧ (⟨0, 0, 10, 0, 0, 1⟩ : PointNormal) ∈ roofObject.nongroundPoints
    ∧ (detectPlanes roofCluster firstNeighbours roofObject).1 = Outcome.ok
    ∧ (⟨0, 0, 10, 0, 0, 1⟩ : PointNormal)
        ∈ (detectPlanes roofCluster firstNeighbours roofObject).2.groundPoints
    ∧ (⟨0, 0, 10, 0, 0, 1⟩ : PointNormal)
        ∈ (detectPlanes roofCluster firstNeighbours roofObject).2.nongroundPoints := by
  obtain ⟨h1, h2, h3⟩ := roof_detect
  refine ⟨rfl, roof_first_mem, h1, ?_, ?_⟩
  · rw [h3]; exact roof_first_mem
  · rw [h2]; exact roof_first_mem

/-- C6, as the code has it. `detectPlanes` never changes `nongroundPoints` and
keeps every point of `groundPoints`; when it ends normally, the points of a
cluster judged planar (by the test of the code, `surface_ratio >= 0.2f` on the
`float` quotient of the two counts and `surface_points >= 100`) have been copied:
they are in `groundPoints` and they are still in `nongroundPoints`. -/
theorem planar_cluster_is_copied (reg : RegionGrowing) (kdtree : NearestKSearch)
    (self : Odm25dMeshing) (indices : List Nat) (cloud : List PointNormal) (sp : Nat)
    (hok : (detectPlanes reg kdtree self).1 = Outcome.ok)
    (hmem : indices ∈ reg self.nongroundPoints)
    (hcloud : clusterCloud self.nongroundPoints indices = some cloud)
    (hcount : countSurfacePoints kdtree cloud = some sp)
    (hd : toFloat (toFloat (sp : ℚ) / toFloat (cloud.length : ℚ)) ≥ toFloat (1 / 5)
      ∧ sp ≥ 100) :
    (detectPlanes reg kdtree self).2.nongroundPoints = self.nongroundPoints
    ∧ (∀ p ∈ self.groundPoints, p ∈ (detectPlanes reg kdtree self).2.groundPoints)
    ∧ (∀ p ∈ (detectPlanes reg kdtree self).2.groundPoints,
        p ∈ self.groundPoints ∨ p ∈ self.nongroundPoints)
    ∧ ∀ p ∈ cloud, p ∈ (detectPlanes reg kdtree self).2.groundPoints
        ∧ p ∈ (detectPlanes reg kdtree self).2.nongroundPoints := by
  obtain ⟨hn, added, hg, hadded⟩ := detectPlanes_sets reg kdtree self
  refine ⟨hn, fun p hp => detectPlanes_keeps_ground reg kdtree self p hp, ?_, ?_⟩
  · intro p hp
    rw [hg] at hp
    rcases List.mem_append.mp hp with h | h
    · exact Or.inl h
    · exact Or.inr (hadded p h)
  · intro p hp
    refine ⟨detectPlanes_planar reg kdtree self hok indices hmem cloud sp hcloud hcount hd
      p hp, ?_⟩
    rw [hn]
    exact (clusterCloud_valid _ _ _ hcloud).2.2 p hp

/-- Instance of the amended C6 on the roof. -/
theorem planar_cluster_is_copied_witness :
    (detectPlanes roofCluster firstNeighbours roofObject).1 = Outcome.ok
    ∧ List.range 150 ∈ roofCluster roofObject.nongroundPoints
    ∧ clusterCloud roofObject.nongroundPoints (List.range 150) = some roof
    ∧ countSurfacePoints firstNeighbours roof = some roof.length
    ∧ (toFloat (toFloat (roof.length : ℚ) / toFloat (roof.length : ℚ)) ≥ toFloat (1 / 5)
      ∧ roof.length ≥ 100)
    ∧ (detectPlanes roofCluster firstNeighbours roofObject).2.nongroundPoints
        = roofObject.nongroundPoints
    ∧ (∀ p ∈ roofObject.groundPoints,
        p ∈ (detectPlanes roofCluster firstNeighbours roofObject).2.groundPoints)
    ∧ (∀ p ∈ (detectPlanes roofCluster firstNeighbours roofObject).2.groundPoints,
        p ∈ roofObject.groundPoints ∨ p ∈ roofObject.nongroundPoints)
    ∧ ∀ p ∈ roof, p ∈ (detectPlanes roofCluster firstNeighbours roofObject).2.groundPoints
        ∧ p ∈ (detectPlanes roofCluster firstNeighbours roofObject).2.nongroundPoints :=
  ⟨roof_detect.1, List.mem_singleton.mpr rfl, roof_cloud, roof_count,
    planarDecision_all _ (by rw [roof_length]; decide),
    planar_cluster_is_copied roofCluster firstNeighbours roofObject (List.range 150) roof
      roof.length roof_detect.1 (List.mem_singleton.mpr rfl) roof_cloud roof_count
      (planarDecision_all _ (by rw [roof_length]; decide))⟩

/-- C7, as stated, fails: the one record of `nearOneBlob` has a label that is not
ground and the 64-bit height above ground `1 - 2⁻³⁰`, which is not at least 1.0,
so by the rule of the claim it does not land in `nongroundPoints`; yet, loaded
from empty working sets, `nongroundPoints` holds its point and `groundPoints` is
empty, because the loading loop compares the value after its conversion to
`float`, which is 1.0. -/
theorem narrowed_height_split_counterexample :
    freshObject.groundPoints = [] ∧ freshObject.nongroundPoints = []
    ∧ nearOneBlob.points = [nearOneRecord]
    ∧ landsInNonground nearOneBlob.fields nearOneRecord = false
    ∧ loadedPoint nearOneBlob.fields nearOneRecord = some ⟨7, 8, 9, 0, 0, 1⟩
    ∧ (loadPointCloud (some nearOneBlob) freshObject).1 = Outcome.ok
    ∧ (loadPointCloud (some nearOneBlob) freshObject).2.nongroundPoints
        = [⟨7, 8, 9, 0, 0, 1⟩]
    ∧ (loadPointCloud (some nearOneBlob) freshObject).2.groundPoints = [] := by
  obtain ⟨h1, h2, h3⟩ := nearOne_load
  refine ⟨rfl, rfl, rfl, ?_, by decide, h1, h3, h2⟩
  have hc : classificationLabel nearOneBlob.fields nearOneRecord = some 1 := by decide
  have hh : heightAboveGround nearOneBlob.fields nearOneRecord = some (1 - 1 / 2 ^ 30) :=
    nearOne_heightAboveGround
  unfold landsInNonground
  rw [hc, hh]
  simp only [decide_eq_false_iff_not]
  norm_num

/-- C7, as the code has it. From empty working sets, a successful
`loadPointCloud` places every record in exactly one of the two sets:
`nongroundPoints` holds, in input order, the points of the records whose label
is not ground and whose height above ground, as the loading loop holds it in the
`float` variable `pointHag` (a 32-bit value as it is, a 64-bit value rounded to
the nearest `float`), is at least 1.0, `groundPoints` the points of all other
records, every record yields a point, and the two sizes add up to the number of
records.  The `float` nearest a value is at least 1.0 exactly when the value is
at least `1 - 2⁻²⁵`. -/
theorem load_splits_input (blob : PCLPointCloud2) (self : Odm25dMeshing)
    (hg0 : self.groundPoints = []) (hn0 : self.nongroundPoints = [])
    (hload : (loadPointCloud (some blob) self).1 = Outcome.ok) :
    (loadPointCloud (some blob) self).2.groundPoints
        = (blob.points.filter fun r => !landsInNongroundStored blob.fields r).filterMap
            (loadedPoint blob.fields)
    ∧ (loadPointCloud (some blob) self).2.nongroundPoints
        = (blob.points.filter fun r => landsInNongroundStored blob.fields r).filterMap
            (loadedPoint blob.fields)
    ∧ (∀ point, (loadedPoint blob.fields point).isSome = true)
    ∧ (loadPointCloud (some blob) self).2.groundPoints.length
        + (loadPointCloud (some blob) self).2.nongroundPoints.length = blob.points.length
    ∧ (∀ d : ℚ, toFloat d ≥ 1 ↔ d ≥ 1 - 1 / 2 ^ 25) := by
  obtain ⟨hg, hn, hs⟩ := load_partition blob self hload
  rw [hg0, List.nil_append] at hg
  rw [hn0, List.nil_append] at hn
  refine ⟨hg, hn, hs, ?_,
    fun d => not_lt.symm.trans ((toFloat_lt_one_iff d).not.trans not_lt)⟩
  have hlen : ∀ l : List RawPoint,
      (l.filterMap (loadedPoint blob.fields)).length = l.length := by
    intro l
    induction l with
    | nil => rfl
    | cons r rs ih =>
      obtain ⟨p, hp⟩ := Option.isSome_iff_exists.mp (hs r)
      rw [List.filterMap_cons_some hp, List.length_cons, List.length_cons, ih]
  rw [hg, hn, hlen, hlen]
  rw [blob.points.length_eq_length_filter_add (fun r => landsInNongroundStored blob.fields r)]
  rw [Nat.add_comm]

/-- Instance of the amended C7 on `sampleBlob` and an object with empty sets. -/
theorem load_splits_input_witness :
    freshObject.groundPoints = [] ∧ freshObject.nongroundPoints = []
    ∧ (loadPointCloud (some sampleBlob) freshObject).1 = Outcome.ok
    ∧ (loadPointCloud (some sampleBlob) freshObject).2.groundPoints
        = (sampleBlob.points.filter fun r => !landsInNongroundStored sampleBlob.fields r).filterMap
            (loadedPoint sampleBlob.fields)
    ∧ (loadPointCloud (some sampleBlob) freshObject).2.nongroundPoints
        = (sampleBlob.points.filter fun r => landsInNongroundStored sampleBlob.fields r).filterMap
            (loadedPoint sampleBlob.fields)
    ∧ (∀ point, (loadedPoint sampleBlob.fields point).isSome = true)
    ∧ (loadPointCloud (some sampleBlob) freshObject).2.groundPoints.length
        + (loadPointCloud (some sampleBlob) freshObject).2.nongroundPoints.length
        = sampleBlob.points.length
    ∧ (∀ d : ℚ, toFloat d ≥ 1 ↔ d ≥ 1 - 1 / 2 ^ 25) :=
  ⟨rfl, rfl, by decide, load_splits_input sampleBlob freshObject rfl rfl (by decide)⟩

/-- C8, on the code. `buildMesh` never raises: for every object, whatever the
size of its ground set, it ends normally and logs the successful write. On the
blob `sampleBlob`, which leaves two ground points, `run` returns `EXIT_SUCCESS`
and the last log line reports the mesh as written. -/
theorem mesh_stage_reports_success :
    (∀ self : Odm25dMeshing, (buildMesh self).1 = Outcome.ok
      ∧ (buildMesh self).2.log
          = self.log ++ ["Successfully wrote mesh to: " ++ self.outputFile ++ "\n"])
    ∧ (run 2 parsedOk (some sampleBlob) noClusters firstNeighbours freshObject).1
        = some EXIT_SUCCESS
    ∧ (run 2 parsedOk (some sampleBlob) noClusters firstNeighbours
        freshObject).2.groundPoints.length = 2
    ∧ (run 2 parsedOk (some sampleBlob) noClusters firstNeighbours
        freshObject).2.log.getLast? = some "Successfully wrote mesh to: out.ply\n" := by
  refine ⟨fun self => ⟨rfl, rfl⟩, by decide, by decide, by decide⟩

/-- C9, on the code. When the input has no classification field and none of the
four input checks throws, `loadPointCloud` does not treat the points as ground:
it reads `classification->datatype` through the null pointer, which is undefined
behaviour, before any record is classified; both point sets are untouched. -/
theorem missing_classification_is_undefined (blob : PCLPointCloud2) (self : Odm25dMeshing)
    (hnocls : ∀ f ∈ blob.fields, f.name ≠ "classification")
    (hschema : ∀ what, (loadPointCloud (some blob) self).1 ≠ Outcome.threw what) :
    (loadPointCloud (some blob) self).1
        = Outcome.undefined "null pointer read: classification->datatype"
    ∧ (loadPointCloud (some blob) self).1 ≠ Outcome.ok
    ∧ (loadPointCloud (some blob) self).2.groundPoints = self.groundPoints
    ∧ (loadPointCloud (some blob) self).2.nongroundPoints = self.nongroundPoints := by
  obtain ⟨h1, h2, h3⟩ := load_without_classification blob self hnocls
  rcases h1 with ⟨what, hw, _⟩ | h1
  · exact absurd hw (hschema what)
  · refine ⟨h1, ?_, h2, h3⟩
    rw [h1]
    exact fun h => Outcome.noConfusion h

/-- Instance of C9 on `noClassBlob`, which has the six required float fields and
no classification field. -/
theorem missing_classification_is_undefined_witness :
    (∀ f ∈ noClassBlob.fields, f.name ≠ "classification")
    ∧ (∀ what, (loadPointCloud (some noClassBlob) freshObject).1 ≠ Outcome.threw what)
    ∧ (loadPointCloud (some noClassBlob) freshObject).1
        = Outcome.undefined "null pointer read: classification->datatype"
    ∧ (loadPointCloud (some noClassBlob) freshObject).1 ≠ Outcome.ok
    ∧ (loadPointCloud (some noClassBlob) freshObject).2.groundPoints
        = freshObject.groundPoints
    ∧ (loadPointCloud (some noClassBlob) freshObject).2.nongroundPoints
        = freshObject.nongroundPoints :=
  ⟨by decide, fun _ h => Outcome.noConfusion h,
    missing_classification_is_undefined noClassBlob freshObject (by decide)
      (fun _ h => Outcome.noConfusion h)⟩

/-- C10, on the code. The `y` field of `intYBlob` is a 32-bit integer, not a
float, yet `loadPointCloud` ends normally and has classified the record, reading
the four bytes of `y` as a `float`; the same type on the `x` field, in
`intXBlob`, is refused with the message that only float types are supported for
position information. -/
theorem integer_field_is_accepted :
    (∃ f ∈ intYBlob.fields, f.name = "y" ∧ ¬ isFloatType f.datatype)
    ∧ (loadPointCloud (some intYBlob) freshObject).1 = Outcome.ok
    ∧ (loadPointCloud (some intYBlob) freshObject).2.groundPoints
        = [⟨groundRecord.asFloat 0, groundRecord.asFloat 4, groundRecord.asFloat 8, 0, 0, 1⟩]
    ∧ (∃ f ∈ intXBlob.fields, f.name = "x" ∧ ¬ isFloatType f.datatype)
    ∧ (loadPointCloud (some intXBlob) freshObject).1
        = Outcome.threw "Only float and float64 types are supported for position information"
    ∧ (loadPointCloud (some intXBlob) freshObject).2.groundPoints = [] := by
  refine ⟨⟨⟨"y", 4, Datatype.INT32⟩, by decide, by decide, by decide⟩, by decide, by decide,
    ⟨⟨"x", 0, Datatype.INT32⟩, by decide, by decide, by decide⟩, by decide, by decide⟩

/-- C11, as stated, fails: in `nearMissCloud` the point with normal
`(63 / 64, 0, 0)` is a member whose 30 queried neighbours are the points of its
site; with each of them the dot product of the normals is strictly greater than
0.9 (`3969 / 4096` with the 15 of its own normal, `966367647 / 2³⁰` with the 15 of
normal `(15339169 / 2²⁴, 0, 0)`), so all 30 of 30 pass the test of the claim.  The
code computes the second product in `float` arithmetic, where it is
`15099494 / 2²⁴`, below 0.9: it finds 15 of 30 and does not count the member, and
`surface_points` ends as 120, the number of flat points. -/
theorem float_dot_counterexample :
    sitePoint longNormal shortNormal 0 ∈ nearMissCloud
    ∧ sitePoint longNormal shortNormal 0 = ⟨0, 0, 0, 63 / 64, 0, 0⟩
    ∧ siteNeighbours 120 nearMissCloud (sitePoint longNormal shortNormal 0) K
        = List.range' 120 30
    ∧ (∀ k ∈ List.range' 120 30, ∃ q, nearMissCloud[k]? = some q
        ∧ exactDot (sitePoint longNormal shortNormal 0) q > 9 / 10)
    ∧ normalDot longNormal shortNormal = 15099494 / 2 ^ 24
    ∧ ((15099494 : ℚ) / 2 ^ 24 < 9 / 10)
    ∧ isSurfacePoint (siteNeighbours 120) nearMissCloud (sitePoint longNormal shortNormal 0)
        = some false
    ∧ nearMissCloud.length = 150
    ∧ countSurfacePoints (siteNeighbours 120) nearMissCloud = some 120 := by
  have hu : ¬ (nearParallel longNormal longNormal = true
      ∧ nearParallel longNormal shortNormal = true) :=
    fun h => Bool.false_ne_true (nearParallel_long_short.symm.trans h.2)
  have hv : ¬ (nearParallel shortNormal longNormal = true
      ∧ nearParallel shortNormal shortNormal = true) :=
    fun h => Bool.false_ne_true (nearParallel_short_long.symm.trans h.1)
  obtain ⟨hs, hc⟩ := site_count 120 1 longNormal shortNormal (by norm_num) hu hv
  refine ⟨?_, ?_, ?_, ?_, normalDot_long_short, by norm_num, hs 0 (by norm_num), ?_, hc⟩
  · unfold nearMissCloud siteCloud
    exact List.mem_append_right _ (List.mem_map.mpr ⟨0, List.mem_range.mpr (by norm_num), rfl⟩)
  · simp [sitePoint, longNormal]
  · rw [siteNeighbours_site]
    rfl
  · intro k hk
    rw [List.mem_range'_1] at hk
    obtain ⟨j, rfl⟩ : ∃ j, k = 120 + j := ⟨k - 120, by omega⟩
    refine ⟨sitePoint longNormal shortNormal j, ?_, ?_⟩
    · unfold nearMissCloud
      exact siteCloud_site_get 120 1 longNormal shortNormal j (by omega)
    · unfold sitePoint
      rw [if_pos (by norm_num)]
      split
      · simp only [exactDot, longNormal]
        norm_num
      · simp only [exactDot, longNormal, shortNormal]
        norm_num
  · unfold nearMissCloud
    rw [siteCloud_length]

/-- C11, as the code has it. In the planarity vote, when the neighbour search
answers each query with `K = 30` indices into the cluster cloud: a member of the
cluster is counted as a surface point if and only if at least 24 of its 30
queried neighbours, that is at least 80% of them, have a normal whose dot product
with the normal of the member, computed in `float` arithmetic (each product and
each sum rounded to `float`, the sum taken as `x + (y + z)`), is strictly greater
than the `double` 0.9; and `surface_points` ends as the number of such members. -/
theorem surface_point_vote (kdtree : NearestKSearch) (cloud : List PointNormal)
    (hlen : ∀ p ∈ cloud, (kdtree cloud p K).length = 30)
    (hvalid : ∀ p ∈ cloud, ∀ k ∈ kdtree cloud p K, k < cloud.length) :
    K = 30
    ∧ (∀ a b : PointNormal, nearParallel a b
        = decide (toFloat (toFloat (a.normal_x * b.normal_x)
            + toFloat (toFloat (a.normal_y * b.normal_y) + toFloat (a.normal_z * b.normal_z)))
          > toDouble (9 / 10)))
    ∧ (∀ p ∈ cloud, isSurfacePoint kdtree cloud p
        = some (decide (24 ≤ parallelNeighbours cloud p (kdtree cloud p K))))
    ∧ (∀ n : Nat, 24 ≤ n ↔ (n : ℚ) / 30 ≥ 4 / 5)
    ∧ countSurfacePoints kdtree cloud
        = some (cloud.countP fun p =>
            decide (24 ≤ parallelNeighbours cloud p (kdtree cloud p K))) := by
  have hvote : ∀ p ∈ cloud,
      (decide (toFloat (parallelNeighbours cloud p (kdtree cloud p K) : ℚ)
          ≥ toFloat (toFloat ((kdtree cloud p K).length : ℚ) * toFloat (4 / 5))) = true)
        ↔ (decide (24 ≤ parallelNeighbours cloud p (kdtree cloud p K)) = true) := by
    intro p hp
    have hle : parallelNeighbours cloud p (kdtree cloud p K) ≤ 30 := by
      rw [← hlen p hp]
      exact parallelNeighbours_le cloud p _
    rw [hlen p hp, decide_eq_true_eq, decide_eq_true_eq]
    exact vote_threshold _ hle
  refine ⟨rfl, fun _ _ => rfl, ?_, ?_, ?_⟩
  · intro p hp
    rw [isSurfacePoint_eq kdtree cloud p (hvalid p hp)]
    congr 1
    exact Bool.eq_iff_iff.mpr (hvote p hp)
  · intro n
    rw [ge_iff_le, le_div_iff₀ (by norm_num : (0 : ℚ) < 30)]
    constructor
    · intro h
      have h2 : ((24 : Nat) : ℚ) ≤ (n : ℚ) := Nat.cast_le.mpr h
      norm_num at h2 ⊢
      exact h2
    · intro h
      have h2 : ((24 : Nat) : ℚ) ≤ (n : ℚ) := by
        norm_num at h ⊢
        exact h
      exact Nat.cast_le.mp h2
  · rw [countSurfacePoints_eq kdtree cloud hvalid, List.countP_congr hvote]

/-- Instance of the amended C11 on the gable: 30 points, 24 with normal `(0, 0, 1)`
and 6 with normal `(1, 0, 0)`, every query answered with all 30 indices. -/
theorem surface_point_vote_witness :
    (∀ p ∈ mixedCloud 24, (firstNeighbours (mixedCloud 24) p K).length = 30)
    ∧ (∀ p ∈ mixedCloud 24, ∀ k ∈ firstNeighbours (mixedCloud 24) p K,
        k < (mixedCloud 24).length)
    ∧ K = 30
    ∧ (∀ a b : PointNormal, nearParallel a b
        = decide (toFloat (toFloat (a.normal_x * b.normal_x)
            + toFloat (toFloat (a.normal_y * b.normal_y) + toFloat (a.normal_z * b.normal_z)))
          > toDouble (9 / 10)))
    ∧ (∀ p ∈ mixedCloud 24, isSurfacePoint firstNeighbours (mixedCloud 24) p
        = some (decide (24 ≤ parallelNeighbours (mixedCloud 24) p
            (firstNeighbours (mixedCloud 24) p K))))
    ∧ (∀ n : Nat, 24 ≤ n ↔ (n : ℚ) / 30 ≥ 4 / 5)
    ∧ countSurfacePoints firstNeighbours (mixedCloud 24)
        = some ((mixedCloud 24).countP fun p =>
            decide (24 ≤ parallelNeighbours (mixedCloud 24) p
              (firstNeighbours (mixedCloud 24) p K))) :=
  ⟨fun p _ => by rw [mixedCloud_neighbours 24 (by decide) p]; exact List.length_range 30,
    firstNeighbours_valid (mixedCloud 24),
    surface_point_vote firstNeighbours (mixedCloud 24)
      (fun p _ => by rw [mixedCloud_neighbours 24 (by decide) p]; exact List.length_range 30)
      (firstNeighbours_valid (mixedCloud 24))⟩

end ODM
